import Mathlib

/-!
# cress::moo::Either, Grid and Delay; be::mem::Fraii; be::input

A shallow embedding of `cress/moo/either.hpp`, `cress/moo/grid.hpp`, `cress/moo/delay.hpp`,
`be/mem/fraii.hpp` and `be/input.hpp`.

## Either

The class holds a discriminant `m_hasLeft` and a union `m_storage` in which the
member functions start and end the lifetime of the two alternatives by hand
(placement `new`, explicit destructor calls).  The embedding keeps the
discriminant and the liveness of each union member apart, so that the agreement
between them is something the member functions establish and not something the
types force.

The operations of the contained types (`Left_`, `Right_`) are template
parameters of the class; here they are the fields of `ValueOps`.

## Grid, Delay, Fraii, input

`size_t` arithmetic wraps at `2 ^ 64`. A `Grid` is its array and its dimensions. `Fraii`
objects live at addresses in a store that also records every deleter call, so that a
function applied to one object twice, as in `f = std::move(f)`, is the same function as on
two objects. An `InputMap` is the partial function from keys to states that the map
represents.
-/

set_option autoImplicit false

namespace cress.moo

/-! ## Contained value types -/

/-- The operations of a contained type `T` that the member functions of `Either` call.
The move operations and `swap` are total: the member functions that call them are
declared `noexcept`. The second component of a move is the state the source object is
left in. -/
structure ValueOps (T : Type) where
  /-- Copy constructor `T(T const&)`: `none` when it raises. -/
  copyConstruct : T → Option T
  /-- Move constructor `T(T&&)`: the constructed object and the moved-from source. -/
  moveConstruct : T → T × T
  /-- Copy assignment `target = source`: the target afterwards, and whether it raised. -/
  copyAssign : T → T → T × Bool
  /-- Move assignment `target = std::move(source)`: the target and the source afterwards. -/
  moveAssign : T → T → T × T
  /-- Unqualified `swap(a, b)`: both objects afterwards. -/
  swap : T → T → T × T
  /-- Copy assignment `x = x` of an object to itself: the object afterwards, and whether
  it raised. -/
  copyAssignSelf : T → T × Bool
  /-- Move assignment `x = std::move(x)` of an object to itself: the object afterwards. -/
  moveAssignSelf : T → T
  /-- Unqualified `swap(x, x)`: the object afterwards. -/
  swapSelf : T → T

/-- Value semantics of a contained type: a copy or move that completes hands over the
value of its source, and `swap` exchanges the two values. -/
structure ValueOps.Lawful {T : Type} (ops : ValueOps T) : Prop where
  copyConstruct_eq : ∀ v w, ops.copyConstruct v = some w → w = v
  moveConstruct_fst : ∀ v, (ops.moveConstruct v).1 = v
  copyAssign_fst : ∀ d s, (ops.copyAssign d s).2 = false → (ops.copyAssign d s).1 = s
  moveAssign_fst : ∀ d s, (ops.moveAssign d s).1 = s
  swap_eq : ∀ a b, ops.swap a b = (b, a)
  copyAssignSelf_fst : ∀ v, (ops.copyAssignSelf v).2 = false → (ops.copyAssignSelf v).1 = v
  swapSelf_eq : ∀ v, ops.swapSelf v = v

/-- A contained type none of whose operations raises. -/
structure ValueOps.NoThrow {T : Type} (ops : ValueOps T) : Prop where
  copyConstruct_isSome : ∀ v, (ops.copyConstruct v).isSome = true
  copyAssign_snd : ∀ d s, (ops.copyAssign d s).2 = false
  copyAssignSelf_snd : ∀ v, (ops.copyAssignSelf v).2 = false

/-- A trivially copyable type: copies and moves reproduce the value and leave the source
as it was. -/
def ValueOps.trivial (T : Type) : ValueOps T where
  copyConstruct := fun v => some v
  moveConstruct := fun v => (v, v)
  copyAssign := fun _ s => (s, false)
  moveAssign := fun _ s => (s, s)
  swap := fun a b => (b, a)
  copyAssignSelf := fun v => (v, false)
  moveAssignSelf := fun v => v
  swapSelf := fun v => v

/-- A type whose copy constructor always raises and whose moves leave the source at `hollow`
(a resource handle that may not be duplicated). -/
def ValueOps.throwingCopy {T : Type} (hollow : T) : ValueOps T where
  copyConstruct := fun _ => none
  moveConstruct := fun v => (v, hollow)
  copyAssign := fun d _ => (d, true)
  moveAssign := fun _ s => (s, hollow)
  swap := fun a b => (b, a)
  copyAssignSelf := fun v => (v, true)
  moveAssignSelf := fun v => v
  swapSelf := fun v => v

/-- A vector-like contained type: copies reproduce the value, a move leaves the source
empty, and a move assignment of an object to itself leaves it empty (as the move assignment
of `std::vector` does in libstdc++ and libc++; the standard leaves that state unspecified). -/
def ValueOps.vectorLike : ValueOps (List Nat) where
  copyConstruct := fun v => some v
  moveConstruct := fun v => (v, [])
  copyAssign := fun _ s => (s, false)
  moveAssign := fun _ s => (s, [])
  swap := fun a b => (b, a)
  copyAssignSelf := fun v => (v, false)
  moveAssignSelf := fun _ => []
  swapSelf := fun v => v

/-- A constructor that can raise: a vector of `n` zeros, refused (`std::length_error`) when
`n` exceeds the capacity `cap`. -/
def boundedVector (cap : Nat) (n : Nat) : Option (List Nat) :=
  if n ≤ cap then some (List.replicate n 0) else none

/-! ## Tagged storage -/

/-- The union `Storage`: for each member, the live object in it, if any. The member
`u_uninitialised` is an empty tag and carries no state. -/
structure Storage (L R : Type) where
  u_left : Option L
  u_right : Option R
deriving DecidableEq, Repr

namespace Storage

variable {L R : Type}

/-- Constructor `Storage(UninitalisedStorageTag)`: neither alternative is constructed. -/
def uninitialised : Storage L R := ⟨none, none⟩

/-- Constructor `Storage(EitherTags::EmplaceLeft, a...)`: `u_left(std::forward<A>(a)...)`. -/
def emplaceLeft {A : Type} (ctor : A → Option L) (a : A) : Option (Storage L R) :=
  match ctor a with
  | some l => some ⟨some l, none⟩
  | none => none

/-- Constructor `Storage(EitherTags::EmplaceRight, a...)`: `u_right(std::forward<A>(a)...)`. -/
def emplaceRight {A : Type} (ctor : A → Option R) (a : A) : Option (Storage L R) :=
  match ctor a with
  | some r => some ⟨none, some r⟩
  | none => none

/-- Placement `new (&u_left) Left_(...)` once the new value `l` has been built. -/
def newLeft (s : Storage L R) (l : L) : Storage L R := { s with u_left := some l }

/-- Placement `new (&u_right) Right_(...)` once the new value `r` has been built. -/
def newRight (s : Storage L R) (r : R) : Storage L R := { s with u_right := some r }

/-- The Left object, changed in place by an operation of `Left_`, now has the value `l`. -/
def setLeft (s : Storage L R) (l : L) : Storage L R := { s with u_left := some l }

/-- The Right object, changed in place by an operation of `Right_`, now has the value `r`. -/
def setRight (s : Storage L R) (r : R) : Storage L R := { s with u_right := some r }

/-- Destructor call `u_left.Left_::~Left_()`: `none` when no Left object is live. -/
def destroyLeft (s : Storage L R) : Option (Storage L R) :=
  match s.u_left with
  | some _ => some { s with u_left := none }
  | none => none

/-- Destructor call `u_right.Right_::~Right_()`: `none` when no Right object is live. -/
def destroyRight (s : Storage L R) : Option (Storage L R) :=
  match s.u_right with
  | some _ => some { s with u_right := none }
  | none => none

end Storage

/-! ## Outcomes of a member function call -/

/-- How a call ends: it returns `value` and leaves `state`; or an exception raised by an
operation of a contained type leaves the call, with `state` left behind; or the call uses
an object outside its lifetime. -/
inductive Outcome (σ α : Type) where
  | returned (state : σ) (value : α)
  | threw (state : σ)
  | undefined
deriving DecidableEq, Repr

namespace Outcome

variable {σ α : Type}

/-- The state a call leaves behind, whether it returned or raised. -/
def state? : Outcome σ α → Option σ
  | returned s _ => some s
  | threw s => some s
  | undefined => none

/-- The same outcome with the returned value dropped. -/
def discard : Outcome σ α → Outcome σ Unit
  | returned s _ => returned s ()
  | threw s => threw s
  | undefined => undefined

end Outcome

/-! ## Failure policy -/

/-- A call of one of the two hooks of `RequireTraits_`, with its argument. -/
inductive PolicyCall where
  | onBadAccess (isLeft : Bool)
  | onBadUnwrap (isLeft : Bool)
deriving DecidableEq, Repr

/-- How a hook ends. -/
inductive Reaction where
  | terminates
  | throwsBadEither
  | returnsNormally
deriving DecidableEq, Repr

/-- The `RequireTraits_` template parameter. -/
structure RequireTraits where
  onBadAccess : Bool → Reaction
  onBadUnwrap : Bool → Reaction

/-- The struct `DefaultEitherRequireTraits`: `onBadAccess` asserts and calls `std::terminate()`,
`onBadUnwrap` throws `BadEitherException`. -/
def DefaultEitherRequireTraits : RequireTraits where
  onBadAccess := fun _ => Reaction.terminates
  onBadUnwrap := fun _ => Reaction.throwsBadEither

/-- What an accessor hands back to its caller. -/
inductive Access (T : Type) where
  /-- a reference to the live object `v` -/
  | value (v : T)
  /-- the process was terminated in the hook -/
  | terminated (call : PolicyCall)
  /-- the hook raised `BadEitherException` -/
  | badEither (call : PolicyCall)
  /-- a reference to a union member that holds no live object -/
  | dangling
deriving DecidableEq, Repr

/-! ## Either -/

/-- The data members of `Either<Left_, Right_, RequireTraits_>`. -/
structure Either (L R : Type) where
  m_hasLeft : Bool
  m_storage : Storage L R
deriving DecidableEq, Repr

namespace Either

variable {L R : Type}

/-- Whether a Left object is live in the storage. -/
def leftLive (e : Either L R) : Bool := e.m_storage.u_left.isSome

/-- Whether a Right object is live in the storage. -/
def rightLive (e : Either L R) : Bool := e.m_storage.u_right.isSome

/-- Member `hasLeft()`. -/
def hasLeft (e : Either L R) : Bool := e.m_hasLeft

/-- Member `hasRight()`. -/
def hasRight (e : Either L R) : Bool := !e.m_hasLeft

/-- Member `checkAccessLeft()`: the hook call it makes, if any. -/
def checkAccessLeft (e : Either L R) : Option PolicyCall :=
  if !e.m_hasLeft then some (PolicyCall.onBadAccess true) else none

/-- Member `checkAccessRight()`: the hook call it makes, if any. -/
def checkAccessRight (e : Either L R) : Option PolicyCall :=
  if e.m_hasLeft then some (PolicyCall.onBadAccess false) else none

/-- The statement `return (m_storage.u_left);`. -/
def refLeft (e : Either L R) : Access L :=
  match e.m_storage.u_left with
  | some l => Access.value l
  | none => Access.dangling

/-- The statement `return (m_storage.u_right);`. -/
def refRight (e : Either L R) : Access R :=
  match e.m_storage.u_right with
  | some r => Access.value r
  | none => Access.dangling

/-- Member `accessLeft()`. The function is `noexcept`, so a hook that raises terminates. -/
def accessLeft (traits : RequireTraits) (e : Either L R) : Access L :=
  match e.checkAccessLeft with
  | some (PolicyCall.onBadAccess isLeft) =>
    match traits.onBadAccess isLeft with
    | Reaction.returnsNormally => e.refLeft
    | _ => Access.terminated (PolicyCall.onBadAccess isLeft)
  | _ => e.refLeft

/-- Member `accessRight()`. The function is `noexcept`, so a hook that raises terminates. -/
def accessRight (traits : RequireTraits) (e : Either L R) : Access R :=
  match e.checkAccessRight with
  | some (PolicyCall.onBadAccess isLeft) =>
    match traits.onBadAccess isLeft with
    | Reaction.returnsNormally => e.refRight
    | _ => Access.terminated (PolicyCall.onBadAccess isLeft)
  | _ => e.refRight

/-! ### Destructor and constructors -/

/-- Destructor `~Either()`: the storage once the destructor of the alternative named by
`m_hasLeft` has run; `none` when that alternative is not live. -/
def destructor (e : Either L R) : Option (Storage L R) :=
  if e.m_hasLeft then e.m_storage.destroyLeft else e.m_storage.destroyRight

/-- Constructor `Either(EitherTags::EmplaceLeft, a...)`; `ctor` is the constructor of `Left_`
selected by the arguments, `none` when it raises (no `Either` is created). -/
def ctorEmplaceLeft {A : Type} (ctor : A → Option L) (a : A) : Option (Either L R) :=
  match Storage.emplaceLeft ctor a with
  | some s => some ⟨true, s⟩
  | none => none

/-- Constructor `Either(EitherTags::EmplaceRight, a...)`; `ctor` is the constructor of
`Right_` selected by the arguments, `none` when it raises (no `Either` is created). -/
def ctorEmplaceRight {A : Type} (ctor : A → Option R) (a : A) : Option (Either L R) :=
  match Storage.emplaceRight ctor a with
  | some s => some ⟨false, s⟩
  | none => none

/-- Constructor `Either()`: `m_hasLeft(false), m_storage(EitherTags::emplaceRight)`;
`dflt` is the default constructor of `Right_`. -/
def ctorDefault (dflt : Unit → Option R) : Option (Either L R) :=
  match Storage.emplaceRight dflt () with
  | some s => some ⟨false, s⟩
  | none => none

/-- Constructor `Either(Left_ const& left)`. -/
def ctorLeftCopy (opsL : ValueOps L) (left : L) : Option (Either L R) :=
  match Storage.emplaceLeft opsL.copyConstruct left with
  | some s => some ⟨true, s⟩
  | none => none

/-- Constructor `Either(Left_&& left) noexcept`. -/
def ctorLeftMove (opsL : ValueOps L) (left : L) : Option (Either L R) :=
  match Storage.emplaceLeft (fun v => some (opsL.moveConstruct v).1) left with
  | some s => some ⟨true, s⟩
  | none => none

/-- Constructor `Either(R const& right)` for an argument type convertible to `Right_`;
`conv` is the constructor of `Right_` from that type. -/
def ctorRightCopy {R' : Type} (conv : R' → Option R) (right : R') : Option (Either L R) :=
  match Storage.emplaceRight conv right with
  | some s => some ⟨false, s⟩
  | none => none

/-- Constructor `Either(R&& right) noexcept` for an argument type convertible to `Right_`;
`conv` is the constructor of `Right_` from an rvalue of that type. -/
def ctorRightMove {R' : Type} (conv : R' → R) (right : R') : Option (Either L R) :=
  match Storage.emplaceRight (fun v => some (conv v)) right with
  | some s => some ⟨false, s⟩
  | none => none

/-- Move constructor `Either(Either&& that) noexcept`. The state is `that` afterwards, the
value is the new object. -/
def ctorMove (opsL : ValueOps L) (opsR : ValueOps R) (that : Either L R) :
    Outcome (Either L R) (Either L R) :=
  let s0 : Storage L R := Storage.uninitialised
  if that.m_hasLeft then
    match that.m_storage.u_left with
    | some l =>
      let p := opsL.moveConstruct l
      Outcome.returned { that with m_storage := that.m_storage.setLeft p.2 }
        ⟨that.m_hasLeft, s0.newLeft p.1⟩
    | none => Outcome.undefined
  else
    match that.m_storage.u_right with
    | some r =>
      let p := opsR.moveConstruct r
      Outcome.returned { that with m_storage := that.m_storage.setRight p.2 }
        ⟨that.m_hasLeft, s0.newRight p.1⟩
    | none => Outcome.undefined

/-- Copy constructor `Either(Either const& that)`. The state is `that` afterwards, the value
is the new object; when the copy of the contained value raises no object is created. -/
def ctorCopy (opsL : ValueOps L) (opsR : ValueOps R) (that : Either L R) :
    Outcome (Either L R) (Either L R) :=
  let s0 : Storage L R := Storage.uninitialised
  if that.m_hasLeft then
    match that.m_storage.u_left with
    | some l =>
      match opsL.copyConstruct l with
      | some l' => Outcome.returned that ⟨that.m_hasLeft, s0.newLeft l'⟩
      | none => Outcome.threw that
    | none => Outcome.undefined
  else
    match that.m_storage.u_right with
    | some r =>
      match opsR.copyConstruct r with
      | some r' => Outcome.returned that ⟨that.m_hasLeft, s0.newRight r'⟩
      | none => Outcome.threw that
    | none => Outcome.undefined

/-- The object a move leaves behind: the live value replaced by its moved-from state. -/
def movedFrom (opsL : ValueOps L) (opsR : ValueOps R) (e : Either L R) : Either L R :=
  ⟨e.m_hasLeft,
    ⟨e.m_storage.u_left.map fun l => (opsL.moveConstruct l).2,
     e.m_storage.u_right.map fun r => (opsR.moveConstruct r).2⟩⟩

/-! ### Assignment between two `Either` objects

The state is the pair (`*this`, `that`) of two distinct objects; the `Self` variants are
the same member functions called with `that` bound to `*this`. -/

/-- Move assignment `operator=(Either&& that) noexcept`. -/
def assignMove (opsL : ValueOps L) (opsR : ValueOps R) (this that : Either L R) :
    Outcome (Either L R × Either L R) Unit :=
  if this.m_hasLeft then
    if that.m_hasLeft then
      match this.m_storage.u_left, that.m_storage.u_left with
      | some d, some s =>
        let p := opsL.moveAssign d s
        Outcome.returned
          (⟨that.m_hasLeft, this.m_storage.setLeft p.1⟩,
           { that with m_storage := that.m_storage.setLeft p.2 }) ()
      | _, _ => Outcome.undefined
    else
      match this.m_storage.destroyLeft, that.m_storage.u_right with
      | some s1, some r =>
        let p := opsR.moveConstruct r
        Outcome.returned
          (⟨that.m_hasLeft, s1.newRight p.1⟩,
           { that with m_storage := that.m_storage.setRight p.2 }) ()
      | _, _ => Outcome.undefined
  else
    if that.m_hasLeft then
      match this.m_storage.destroyRight, that.m_storage.u_left with
      | some s1, some l =>
        let p := opsL.moveConstruct l
        Outcome.returned
          (⟨that.m_hasLeft, s1.newLeft p.1⟩,
           { that with m_storage := that.m_storage.setLeft p.2 }) ()
      | _, _ => Outcome.undefined
    else
      match this.m_storage.u_right, that.m_storage.u_right with
      | some d, some s =>
        let p := opsR.moveAssign d s
        Outcome.returned
          (⟨that.m_hasLeft, this.m_storage.setRight p.1⟩,
           { that with m_storage := that.m_storage.setRight p.2 }) ()
      | _, _ => Outcome.undefined

/-- Move assignment `operator=(Either&& that) noexcept` with `that` bound to `*this`: both
discriminants are the same one, so only the same-alternative branches run. -/
def assignMoveSelf (opsL : ValueOps L) (opsR : ValueOps R) (this : Either L R) :
    Outcome (Either L R) Unit :=
  if this.m_hasLeft then
    match this.m_storage.u_left with
    | some d => Outcome.returned
        ⟨this.m_hasLeft, this.m_storage.setLeft (opsL.moveAssignSelf d)⟩ ()
    | none => Outcome.undefined
  else
    match this.m_storage.u_right with
    | some d => Outcome.returned
        ⟨this.m_hasLeft, this.m_storage.setRight (opsR.moveAssignSelf d)⟩ ()
    | none => Outcome.undefined

/-- Copy assignment `operator=(Either const& that)`. When switching alternative the old
value is destroyed first and the new one is then copy-constructed in place; `m_hasLeft` is
written last, and only if nothing raised. -/
def assignCopy (opsL : ValueOps L) (opsR : ValueOps R) (this that : Either L R) :
    Outcome (Either L R × Either L R) Unit :=
  if this.m_hasLeft then
    if that.m_hasLeft then
      match this.m_storage.u_left, that.m_storage.u_left with
      | some d, some s =>
        let p := opsL.copyAssign d s
        if p.2 then Outcome.threw ({ this with m_storage := this.m_storage.setLeft p.1 }, that)
        else Outcome.returned (⟨that.m_hasLeft, this.m_storage.setLeft p.1⟩, that) ()
      | _, _ => Outcome.undefined
    else
      match this.m_storage.destroyLeft, that.m_storage.u_right with
      | some s1, some r =>
        match opsR.copyConstruct r with
        | some r' => Outcome.returned (⟨that.m_hasLeft, s1.newRight r'⟩, that) ()
        | none => Outcome.threw ({ this with m_storage := s1 }, that)
      | _, _ => Outcome.undefined
  else
    if that.m_hasLeft then
      match this.m_storage.destroyRight, that.m_storage.u_left with
      | some s1, some l =>
        match opsL.copyConstruct l with
        | some l' => Outcome.returned (⟨that.m_hasLeft, s1.newLeft l'⟩, that) ()
        | none => Outcome.threw ({ this with m_storage := s1 }, that)
      | _, _ => Outcome.undefined
    else
      match this.m_storage.u_right, that.m_storage.u_right with
      | some d, some s =>
        let p := opsR.copyAssign d s
        if p.2 then Outcome.threw ({ this with m_storage := this.m_storage.setRight p.1 }, that)
        else Outcome.returned (⟨that.m_hasLeft, this.m_storage.setRight p.1⟩, that) ()
      | _, _ => Outcome.undefined

/-- Copy assignment `operator=(Either const& that)` with `that` bound to `*this`. -/
def assignCopySelf (opsL : ValueOps L) (opsR : ValueOps R) (this : Either L R) :
    Outcome (Either L R) Unit :=
  if this.m_hasLeft then
    match this.m_storage.u_left with
    | some d =>
      let p := opsL.copyAssignSelf d
      if p.2 then Outcome.threw { this with m_storage := this.m_storage.setLeft p.1 }
      else Outcome.returned ⟨this.m_hasLeft, this.m_storage.setLeft p.1⟩ ()
    | none => Outcome.undefined
  else
    match this.m_storage.u_right with
    | some d =>
      let p := opsR.copyAssignSelf d
      if p.2 then Outcome.threw { this with m_storage := this.m_storage.setRight p.1 }
      else Outcome.returned ⟨this.m_hasLeft, this.m_storage.setRight p.1⟩ ()
    | none => Outcome.undefined

/-! ### swap -/

/-- Member `swap(Either& that) noexcept` on two distinct objects; the state is the pair
(`*this`, `that`). In the mixed cases the Left value is moved to `temp`, each side destroys
its old value and receives the other one by move construction, and `temp` is destroyed at
the end of the block. -/
def swap (opsL : ValueOps L) (opsR : ValueOps R) (this that : Either L R) :
    Outcome (Either L R × Either L R) Unit :=
  if this.m_hasLeft then
    if that.m_hasLeft then
      match this.m_storage.u_left, that.m_storage.u_left with
      | some a, some b =>
        let p := opsL.swap a b
        Outcome.returned
          (⟨that.m_hasLeft, this.m_storage.setLeft p.1⟩,
           ⟨this.m_hasLeft, that.m_storage.setLeft p.2⟩) ()
      | _, _ => Outcome.undefined
    else
      match this.m_storage.u_left, that.m_storage.u_right with
      | some l, some r =>
        let temp := opsL.moveConstruct l
        match (this.m_storage.setLeft temp.2).destroyLeft with
        | some s1 =>
          let q := opsR.moveConstruct r
          let s2 := s1.newRight q.1
          match (that.m_storage.setRight q.2).destroyRight with
          | some t1 =>
            let t2 := t1.newLeft (opsL.moveConstruct temp.1).1
            Outcome.returned (⟨that.m_hasLeft, s2⟩, ⟨this.m_hasLeft, t2⟩) ()
          | none => Outcome.undefined
        | none => Outcome.undefined
      | _, _ => Outcome.undefined
  else
    if that.m_hasLeft then
      match that.m_storage.u_left, this.m_storage.u_right with
      | some l, some r =>
        let temp := opsL.moveConstruct l
        match (that.m_storage.setLeft temp.2).destroyLeft with
        | some t1 =>
          let q := opsR.moveConstruct r
          let t2 := t1.newRight q.1
          match (this.m_storage.setRight q.2).destroyRight with
          | some s1 =>
            let s2 := s1.newLeft (opsL.moveConstruct temp.1).1
            Outcome.returned (⟨that.m_hasLeft, s2⟩, ⟨this.m_hasLeft, t2⟩) ()
          | none => Outcome.undefined
        | none => Outcome.undefined
      | _, _ => Outcome.undefined
    else
      match this.m_storage.u_right, that.m_storage.u_right with
      | some a, some b =>
        let p := opsR.swap a b
        Outcome.returned
          (⟨that.m_hasLeft, this.m_storage.setRight p.1⟩,
           ⟨this.m_hasLeft, that.m_storage.setRight p.2⟩) ()
      | _, _ => Outcome.undefined

/-- Member `swap(Either& that) noexcept` with `that` bound to `*this`. -/
def swapSelf (opsL : ValueOps L) (opsR : ValueOps R) (this : Either L R) :
    Outcome (Either L R) Unit :=
  if this.m_hasLeft then
    match this.m_storage.u_left with
    | some a => Outcome.returned ⟨this.m_hasLeft, this.m_storage.setLeft (opsL.swapSelf a)⟩ ()
    | none => Outcome.undefined
  else
    match this.m_storage.u_right with
    | some a => Outcome.returned ⟨this.m_hasLeft, this.m_storage.setRight (opsR.swapSelf a)⟩ ()
    | none => Outcome.undefined

/-! ### emplace and assignment of a raw value -/

/-- Member `emplaceLeft(a...)`; `ctor` is the constructor of `Left_` selected by the
arguments, `none` when it raises. With Left live, the temporary `Left_(a...)` is built and
then move-assigned to `u_left`; with Right live, the Right value is destroyed, then the
Left value is constructed in place, then `m_hasLeft` is set. The value returned is the
object the returned reference `m_storage.u_left` denotes. -/
def emplaceLeft {A : Type} (opsL : ValueOps L) (ctor : A → Option L) (a : A)
    (e : Either L R) : Outcome (Either L R) L :=
  if e.m_hasLeft then
    match ctor a with
    | some tmp =>
      match e.m_storage.u_left with
      | some d =>
        let p := opsL.moveAssign d tmp
        Outcome.returned { e with m_storage := e.m_storage.setLeft p.1 } p.1
      | none => Outcome.undefined
    | none => Outcome.threw e
  else
    match e.m_storage.destroyRight with
    | some s1 =>
      match ctor a with
      | some l => Outcome.returned ⟨true, s1.newLeft l⟩ l
      | none => Outcome.threw { e with m_storage := s1 }
    | none => Outcome.undefined

/-- Member `emplaceRight(a...)`; `ctor` is the constructor of `Right_` selected by the
arguments, `none` when it raises. With Left live, the Left value is destroyed, then the
Right value is constructed in place, then `m_hasLeft` is cleared; with Right live, the
temporary `Right_(a...)` is built and then move-assigned to `u_right`. The value returned
is the object the returned reference `m_storage.u_right` denotes. -/
def emplaceRight {A : Type} (opsR : ValueOps R) (ctor : A → Option R) (a : A)
    (e : Either L R) : Outcome (Either L R) R :=
  if e.m_hasLeft then
    match e.m_storage.destroyLeft with
    | some s1 =>
      match ctor a with
      | some r => Outcome.returned ⟨false, s1.newRight r⟩ r
      | none => Outcome.threw { e with m_storage := s1 }
    | none => Outcome.undefined
  else
    match ctor a with
    | some tmp =>
      match e.m_storage.u_right with
      | some d =>
        let p := opsR.moveAssign d tmp
        Outcome.returned { e with m_storage := e.m_storage.setRight p.1 } p.1
      | none => Outcome.undefined
    | none => Outcome.threw e

/-- Assignment `operator=(Left_&& left) noexcept`: `emplaceLeft(std::move(left)); return *this;`. -/
def assignLeftMove (opsL : ValueOps L) (left : L) (e : Either L R) :
    Outcome (Either L R) Unit :=
  match e.emplaceLeft opsL (fun v => some (opsL.moveConstruct v).1) left with
  | Outcome.returned e' _ => Outcome.returned e' ()
  | Outcome.threw e' => Outcome.threw e'
  | Outcome.undefined => Outcome.undefined

/-- Assignment `operator=(Left_ const& left)`: `emplaceLeft(left); return *this;`. -/
def assignLeftCopy (opsL : ValueOps L) (left : L) (e : Either L R) :
    Outcome (Either L R) Unit :=
  match e.emplaceLeft opsL opsL.copyConstruct left with
  | Outcome.returned e' _ => Outcome.returned e' ()
  | Outcome.threw e' => Outcome.threw e'
  | Outcome.undefined => Outcome.undefined

/-- Assignment `operator=(R&& right) noexcept` for an argument type convertible to `Right_`
(`Right_` and `Left_` distinct): `emplaceRight(std::move(right)); return *this;`. -/
def assignRightMove {R' : Type} (opsR : ValueOps R) (conv : R' → R) (right : R')
    (e : Either L R) : Outcome (Either L R) Unit :=
  match e.emplaceRight opsR (fun v => some (conv v)) right with
  | Outcome.returned e' _ => Outcome.returned e' ()
  | Outcome.threw e' => Outcome.threw e'
  | Outcome.undefined => Outcome.undefined

/-- Assignment `operator=(R const& right)` for an argument type convertible to `Right_`
(`Right_` and `Left_` distinct): `emplaceRight(right); return *this;`. -/
def assignRightCopy {R' : Type} (opsR : ValueOps R) (conv : R' → Option R) (right : R')
    (e : Either L R) : Outcome (Either L R) Unit :=
  match e.emplaceRight opsR conv right with
  | Outcome.returned e' _ => Outcome.returned e' ()
  | Outcome.threw e' => Outcome.threw e'
  | Outcome.undefined => Outcome.undefined

end Either

/-- Free function `swap(Either& a, Either& b) noexcept`: `a.swap(b);`. -/
def swap {L R : Type} (opsL : ValueOps L) (opsR : ValueOps R) (a b : Either L R) :
    Outcome (Either L R × Either L R) Unit :=
  a.swap opsL opsR b

/-! ## Invariants and reachable states -/

namespace Either

variable {L R : Type}

/-- Invariants I1 and I2 as a check on a state: exactly one of the two union members holds
a live object, and it is the one `m_hasLeft` names. -/
def invariant (e : Either L R) : Bool :=
  (e.leftLive != e.rightLive) && (e.leftLive == e.hasLeft)

/-- The states a program can bring an `Either` object into: it is produced by one of the
constructors, and then any of copy/move assignment, raw-value assignment, `emplaceLeft`,
`emplaceRight` and `swap` is applied to it (with other reachable objects as the second
operand), every call returning normally. -/
inductive Reachable (opsL : ValueOps L) (opsR : ValueOps R) : Either L R → Prop where
  | ctorEmplaceLeft {A : Type} (ctor : A → Option L) (a : A) (e : Either L R) :
      Either.ctorEmplaceLeft ctor a = some e → Reachable opsL opsR e
  | ctorEmplaceRight {A : Type} (ctor : A → Option R) (a : A) (e : Either L R) :
      Either.ctorEmplaceRight ctor a = some e → Reachable opsL opsR e
  | ctorDefault (dflt : Unit → Option R) (e : Either L R) :
      Either.ctorDefault dflt = some e → Reachable opsL opsR e
  | ctorLeftCopy (left : L) (e : Either L R) :
      Either.ctorLeftCopy opsL left = some e → Reachable opsL opsR e
  | ctorLeftMove (left : L) (e : Either L R) :
      Either.ctorLeftMove opsL left = some e → Reachable opsL opsR e
  | ctorRightCopy {R' : Type} (conv : R' → Option R) (right : R') (e : Either L R) :
      Either.ctorRightCopy conv right = some e → Reachable opsL opsR e
  | ctorRightMove {R' : Type} (conv : R' → R) (right : R') (e : Either L R) :
      Either.ctorRightMove conv right = some e → Reachable opsL opsR e
  | ctorCopy (that that' e : Either L R) : Reachable opsL opsR that →
      Either.ctorCopy opsL opsR that = Outcome.returned that' e → Reachable opsL opsR e
  | ctorCopySource (that that' e : Either L R) : Reachable opsL opsR that →
      Either.ctorCopy opsL opsR that = Outcome.returned that' e → Reachable opsL opsR that'
  | ctorMove (that that' e : Either L R) : Reachable opsL opsR that →
      Either.ctorMove opsL opsR that = Outcome.returned that' e → Reachable opsL opsR e
  | ctorMoveSource (that that' e : Either L R) : Reachable opsL opsR that →
      Either.ctorMove opsL opsR that = Outcome.returned that' e → Reachable opsL opsR that'
  | assignMove (this that this' that' : Either L R) :
      Reachable opsL opsR this → Reachable opsL opsR that →
      Either.assignMove opsL opsR this that = Outcome.returned (this', that') () →
      Reachable opsL opsR this'
  | assignMoveSource (this that this' that' : Either L R) :
      Reachable opsL opsR this → Reachable opsL opsR that →
      Either.assignMove opsL opsR this that = Outcome.returned (this', that') () →
      Reachable opsL opsR that'
  | assignMoveSelf (this this' : Either L R) : Reachable opsL opsR this →
      Either.assignMoveSelf opsL opsR this = Outcome.returned this' () →
      Reachable opsL opsR this'
  | assignCopy (this that this' that' : Either L R) :
      Reachable opsL opsR this → Reachable opsL opsR that →
      Either.assignCopy opsL opsR this that = Outcome.returned (this', that') () →
      Reachable opsL opsR this'
  | assignCopySource (this that this' that' : Either L R) :
      Reachable opsL opsR this → Reachable opsL opsR that →
      Either.assignCopy opsL opsR this that = Outcome.returned (this', that') () →
      Reachable opsL opsR that'
  | assignCopySelf (this this' : Either L R) : Reachable opsL opsR this →
      Either.assignCopySelf opsL opsR this = Outcome.returned this' () →
      Reachable opsL opsR this'
  | swap (this that this' that' : Either L R) :
      Reachable opsL opsR this → Reachable opsL opsR that →
      Either.swap opsL opsR this that = Outcome.returned (this', that') () →
      Reachable opsL opsR this'
  | swapOther (this that this' that' : Either L R) :
      Reachable opsL opsR this → Reachable opsL opsR that →
      Either.swap opsL opsR this that = Outcome.returned (this', that') () →
      Reachable opsL opsR that'
  | swapSelf (this this' : Either L R) : Reachable opsL opsR this →
      Either.swapSelf opsL opsR this = Outcome.returned this' () →
      Reachable opsL opsR this'
  | emplaceLeft {A : Type} (ctor : A → Option L) (a : A) (e e' : Either L R) (v : L) :
      Reachable opsL opsR e →
      Either.emplaceLeft opsL ctor a e = Outcome.returned e' v → Reachable opsL opsR e'
  | emplaceRight {A : Type} (ctor : A → Option R) (a : A) (e e' : Either L R) (v : R) :
      Reachable opsL opsR e →
      Either.emplaceRight opsR ctor a e = Outcome.returned e' v → Reachable opsL opsR e'
  | assignLeftMove (left : L) (e e' : Either L R) : Reachable opsL opsR e →
      Either.assignLeftMove opsL left e = Outcome.returned e' () → Reachable opsL opsR e'
  | assignLeftCopy (left : L) (e e' : Either L R) : Reachable opsL opsR e →
      Either.assignLeftCopy opsL left e = Outcome.returned e' () → Reachable opsL opsR e'
  | assignRightMove {R' : Type} (conv : R' → R) (right : R') (e e' : Either L R) :
      Reachable opsL opsR e →
      Either.assignRightMove opsR conv right e = Outcome.returned e' () →
      Reachable opsL opsR e'
  | assignRightCopy {R' : Type} (conv : R' → Option R) (right : R') (e e' : Either L R) :
      Reachable opsL opsR e →
      Either.assignRightCopy opsR conv right e = Outcome.returned e' () →
      Reachable opsL opsR e'

end Either

/-! ## Unwrap -/

/-- How an unwrap call ends. -/
inductive Unwrap (T : Type) where
  /-- the value `v` is returned by value -/
  | value (v : T)
  /-- the hook raised `BadEitherException`, which leaves the call -/
  | badEither (call : PolicyCall)
  /-- the process was terminated in the hook -/
  | terminated (call : PolicyCall)
  /-- the copy constructor of the contained type raised while the value was copied out -/
  | raised
  /-- the call reads a union member that holds no live object -/
  | undefined
deriving DecidableEq, Repr

namespace Either

variable {L R : Type}

/-- Member `requireUnwrapLeft()`: the hook call it makes, if any. -/
def requireUnwrapLeft (e : Either L R) : Option PolicyCall :=
  if !e.m_hasLeft then some (PolicyCall.onBadUnwrap true) else none

/-- Member `requireUnwrapRight()`: the hook call it makes, if any. -/
def requireUnwrapRight (e : Either L R) : Option PolicyCall :=
  if e.m_hasLeft then some (PolicyCall.onBadUnwrap false) else none

/-- The statement `return m_storage.u_left;` of a function returning `Left_` by value. -/
def copyOutLeft (opsL : ValueOps L) (e : Either L R) : Unwrap L :=
  match e.m_storage.u_left with
  | some l =>
    match opsL.copyConstruct l with
    | some v => Unwrap.value v
    | none => Unwrap.raised
  | none => Unwrap.undefined

/-- The statement `return m_storage.u_right;` of a function returning `Right_` by value. -/
def copyOutRight (opsR : ValueOps R) (e : Either L R) : Unwrap R :=
  match e.m_storage.u_right with
  | some r =>
    match opsR.copyConstruct r with
    | some v => Unwrap.value v
    | none => Unwrap.raised
  | none => Unwrap.undefined

/-- The statement `return std::move(m_storage.u_left);` of a function returning `Left_` by
value, called on an expiring object (whose state afterwards is not tracked). -/
def moveOutLeft (opsL : ValueOps L) (e : Either L R) : Unwrap L :=
  match e.m_storage.u_left with
  | some l => Unwrap.value (opsL.moveConstruct l).1
  | none => Unwrap.undefined

/-- The statement `return std::move(m_storage.u_right);` of a function returning `Right_` by
value, called on an expiring object (whose state afterwards is not tracked). -/
def moveOutRight (opsR : ValueOps R) (e : Either L R) : Unwrap R :=
  match e.m_storage.u_right with
  | some r => Unwrap.value (opsR.moveConstruct r).1
  | none => Unwrap.undefined

/-- Member `unwrapLeft() const&`: `requireUnwrapLeft(); return m_storage.u_left;`. A hook that
returns normally lets the function go on to the return statement. -/
def unwrapLeftCopy (traits : RequireTraits) (opsL : ValueOps L) (e : Either L R) : Unwrap L :=
  match e.requireUnwrapLeft with
  | some (PolicyCall.onBadUnwrap isLeft) =>
    match traits.onBadUnwrap isLeft with
    | Reaction.terminates => Unwrap.terminated (PolicyCall.onBadUnwrap isLeft)
    | Reaction.throwsBadEither => Unwrap.badEither (PolicyCall.onBadUnwrap isLeft)
    | Reaction.returnsNormally => e.copyOutLeft opsL
  | _ => e.copyOutLeft opsL

/-- Member `unwrapLeft() &&`: `requireUnwrapLeft(); return std::move(m_storage.u_left);`. -/
def unwrapLeftMove (traits : RequireTraits) (opsL : ValueOps L) (e : Either L R) : Unwrap L :=
  match e.requireUnwrapLeft with
  | some (PolicyCall.onBadUnwrap isLeft) =>
    match traits.onBadUnwrap isLeft with
    | Reaction.terminates => Unwrap.terminated (PolicyCall.onBadUnwrap isLeft)
    | Reaction.throwsBadEither => Unwrap.badEither (PolicyCall.onBadUnwrap isLeft)
    | Reaction.returnsNormally => e.moveOutLeft opsL
  | _ => e.moveOutLeft opsL

/-- Member `unwrapRight() const&`: `requireUnwrapRight(); return m_storage.u_right;`. -/
def unwrapRightCopy (traits : RequireTraits) (opsR : ValueOps R) (e : Either L R) : Unwrap R :=
  match e.requireUnwrapRight with
  | some (PolicyCall.onBadUnwrap isLeft) =>
    match traits.onBadUnwrap isLeft with
    | Reaction.terminates => Unwrap.terminated (PolicyCall.onBadUnwrap isLeft)
    | Reaction.throwsBadEither => Unwrap.badEither (PolicyCall.onBadUnwrap isLeft)
    | Reaction.returnsNormally => e.copyOutRight opsR
  | _ => e.copyOutRight opsR

/-- Member `unwrapRight() &&`: `requireUnwrapRight(); return std::move(m_storage.u_right);`. -/
def unwrapRightMove (traits : RequireTraits) (opsR : ValueOps R) (e : Either L R) : Unwrap R :=
  match e.requireUnwrapRight with
  | some (PolicyCall.onBadUnwrap isLeft) =>
    match traits.onBadUnwrap isLeft with
    | Reaction.terminates => Unwrap.terminated (PolicyCall.onBadUnwrap isLeft)
    | Reaction.throwsBadEither => Unwrap.badEither (PolicyCall.onBadUnwrap isLeft)
    | Reaction.returnsNormally => e.moveOutRight opsR
  | _ => e.moveOutRight opsR

end Either

/-! ## Combinators

A callable passed to a combinator may have side effects; it is a function of the state
`σ` those effects act on, and ends as an `Outcome`. The `&&` overloads are called on an
expiring object, whose state afterwards is not tracked. -/

namespace Outcome

variable {σ α β : Type}

/-- The same outcome with a function applied to the returned value. -/
def mapValue (f : α → β) : Outcome σ α → Outcome σ β
  | returned s v => returned s (f v)
  | threw s => threw s
  | undefined => undefined

end Outcome

/-- A callable without arguments, instrumented with a counter of its invocations. -/
def counted {σ β : Type} (f : σ → Outcome σ β) : Nat × σ → Outcome (Nat × σ) β :=
  fun p =>
    match f p.2 with
    | Outcome.returned s v => Outcome.returned (p.1 + 1, s) v
    | Outcome.threw s => Outcome.threw (p.1 + 1, s)
    | Outcome.undefined => Outcome.undefined

/-- A callable with one argument, instrumented with a counter of its invocations. -/
def countedUnary {σ α β : Type} (f : α → σ → Outcome σ β) : α → Nat × σ → Outcome (Nat × σ) β :=
  fun a => counted (f a)

/-- A callable without arguments run on a state that carries the counter of another
callable, which it leaves alone. -/
def uncounted {σ β : Type} (f : σ → Outcome σ β) : Nat × σ → Outcome (Nat × σ) β :=
  fun p =>
    match f p.2 with
    | Outcome.returned s v => Outcome.returned (p.1, s) v
    | Outcome.threw s => Outcome.threw (p.1, s)
    | Outcome.undefined => Outcome.undefined

/-- A callable with one argument run on a state that carries the counter of another
callable, which it leaves alone. -/
def uncountedUnary {σ α β : Type} (f : α → σ → Outcome σ β) :
    α → Nat × σ → Outcome (Nat × σ) β :=
  fun a => uncounted (f a)

/-- The number of invocations an instrumented run ends with. -/
def invocations {σ β : Type} (o : Outcome (Nat × σ) β) : Option Nat :=
  o.state?.map Prod.fst

/-- The identity callable `[](T const& x) { return x; }`: it returns a copy of its argument. -/
def identity {σ T : Type} (ops : ValueOps T) : T → σ → Outcome σ T :=
  fun x s =>
    match ops.copyConstruct x with
    | some v => Outcome.returned s v
    | none => Outcome.threw s

namespace Either

variable {L R : Type}

/-- The value held by an `Either<T, T>`, in whichever alternative `m_hasLeft` names. -/
def held {T : Type} (e : Either T T) : Option T :=
  if e.m_hasLeft then e.m_storage.u_left else e.m_storage.u_right

/-- Member `joinLeft(alternativeCreator) const&`:
`return m_hasLeft ? m_storage.u_left : std::forward<F>(alternativeCreator)();`. -/
def joinLeftCopy {σ : Type} (opsL : ValueOps L) (e : Either L R)
    (alternativeCreator : σ → Outcome σ L) (s : σ) : Outcome σ L :=
  if e.m_hasLeft then
    match e.m_storage.u_left with
    | some l =>
      match opsL.copyConstruct l with
      | some v => Outcome.returned s v
      | none => Outcome.threw s
    | none => Outcome.undefined
  else alternativeCreator s

/-- Member `joinLeft(alternativeCreator) &&`:
`return m_hasLeft ? std::move(m_storage.u_left) : std::forward<F>(alternativeCreator)();`. -/
def joinLeftMove {σ : Type} (opsL : ValueOps L) (e : Either L R)
    (alternativeCreator : σ → Outcome σ L) (s : σ) : Outcome σ L :=
  if e.m_hasLeft then
    match e.m_storage.u_left with
    | some l => Outcome.returned s (opsL.moveConstruct l).1
    | none => Outcome.undefined
  else alternativeCreator s

/-- Member `joinRight(alternativeCreator) const&`:
`return m_hasLeft ? std::forward<F>(alternativeCreator)() : m_storage.u_right;`. -/
def joinRightCopy {σ : Type} (opsR : ValueOps R) (e : Either L R)
    (alternativeCreator : σ → Outcome σ R) (s : σ) : Outcome σ R :=
  if e.m_hasLeft then alternativeCreator s
  else
    match e.m_storage.u_right with
    | some r =>
      match opsR.copyConstruct r with
      | some v => Outcome.returned s v
      | none => Outcome.threw s
    | none => Outcome.undefined

/-- Member `joinRight(alternativeCreator) &&`:
`return m_hasLeft ? std::forward<F>(alternativeCreator)() : std::move(m_storage.u_right);`. -/
def joinRightMove {σ : Type} (opsR : ValueOps R) (e : Either L R)
    (alternativeCreator : σ → Outcome σ R) (s : σ) : Outcome σ R :=
  if e.m_hasLeft then alternativeCreator s
  else
    match e.m_storage.u_right with
    | some r => Outcome.returned s (opsR.moveConstruct r).1
    | none => Outcome.undefined

/-- The expression `Either<U, V, RequireTraits_>(EitherTags::emplaceLeft, selector(x))` once
the selector has been called: the value it returned is moved into the new object. -/
def wrapLeft {σ U V : Type} (opsU : ValueOps U) : Outcome σ U → Outcome σ (Either U V)
  | Outcome.returned s u =>
    match Either.ctorEmplaceLeft (fun x => some (opsU.moveConstruct x).1) u with
    | some e => Outcome.returned s e
    | none => Outcome.threw s
  | Outcome.threw s => Outcome.threw s
  | Outcome.undefined => Outcome.undefined

/-- The expression `Either<U, V, RequireTraits_>(EitherTags::emplaceRight, selector(x))` once
the selector has been called: the value it returned is moved into the new object. -/
def wrapRight {σ U V : Type} (opsV : ValueOps V) : Outcome σ V → Outcome σ (Either U V)
  | Outcome.returned s v =>
    match Either.ctorEmplaceRight (fun x => some (opsV.moveConstruct x).1) v with
    | some e => Outcome.returned s e
    | none => Outcome.threw s
  | Outcome.threw s => Outcome.threw s
  | Outcome.undefined => Outcome.undefined

/-- Member `mapLeft(selector) const&`: with Left live
`Either<U, Right_>(EitherTags::emplaceLeft, selector(m_storage.u_left))`, otherwise
`Either<U, Right_>(EitherTags::emplaceRight, m_storage.u_right)`, a copy of the Right value. -/
def mapLeftCopy {σ U : Type} (opsR : ValueOps R) (opsU : ValueOps U) (e : Either L R)
    (selector : L → σ → Outcome σ U) (s : σ) : Outcome σ (Either U R) :=
  if e.m_hasLeft then
    match e.m_storage.u_left with
    | some l => wrapLeft opsU (selector l s)
    | none => Outcome.undefined
  else
    match e.m_storage.u_right with
    | some r =>
      match Either.ctorEmplaceRight opsR.copyConstruct r with
      | some res => Outcome.returned s res
      | none => Outcome.threw s
    | none => Outcome.undefined

/-- Member `mapLeft(selector) &&`: with Left live
`Either<U, Right_>(EitherTags::emplaceLeft, selector(std::move(m_storage.u_left)))`, otherwise
`Either<U, Right_>(EitherTags::emplaceRight, std::move(m_storage.u_right))`. -/
def mapLeftMove {σ U : Type} (opsR : ValueOps R) (opsU : ValueOps U) (e : Either L R)
    (selector : L → σ → Outcome σ U) (s : σ) : Outcome σ (Either U R) :=
  if e.m_hasLeft then
    match e.m_storage.u_left with
    | some l => wrapLeft opsU (selector l s)
    | none => Outcome.undefined
  else
    match e.m_storage.u_right with
    | some r =>
      match Either.ctorEmplaceRight (fun x => some (opsR.moveConstruct x).1) r with
      | some res => Outcome.returned s res
      | none => Outcome.threw s
    | none => Outcome.undefined

/-- Member `mapRight(selector) const&`: with Left live
`Either<Left_, U>(EitherTags::emplaceLeft, m_storage.u_left)`, a copy of the Left value,
otherwise `Either<Left_, U>(EitherTags::emplaceRight, selector(m_storage.u_right))`. -/
def mapRightCopy {σ U : Type} (opsL : ValueOps L) (opsU : ValueOps U) (e : Either L R)
    (selector : R → σ → Outcome σ U) (s : σ) : Outcome σ (Either L U) :=
  if e.m_hasLeft then
    match e.m_storage.u_left with
    | some l =>
      match Either.ctorEmplaceLeft opsL.copyConstruct l with
      | some res => Outcome.returned s res
      | none => Outcome.threw s
    | none => Outcome.undefined
  else
    match e.m_storage.u_right with
    | some r => wrapRight opsU (selector r s)
    | none => Outcome.undefined

/-- Member `mapRight(selector) &&`: with Left live
`Either<Left_, U>(EitherTags::emplaceLeft, std::move(m_storage.u_left))`, otherwise
`Either<Left_, U>(EitherTags::emplaceRight, selector(std::move(m_storage.u_right)))`. -/
def mapRightMove {σ U : Type} (opsL : ValueOps L) (opsU : ValueOps U) (e : Either L R)
    (selector : R → σ → Outcome σ U) (s : σ) : Outcome σ (Either L U) :=
  if e.m_hasLeft then
    match e.m_storage.u_left with
    | some l =>
      match Either.ctorEmplaceLeft (fun x => some (opsL.moveConstruct x).1) l with
      | some res => Outcome.returned s res
      | none => Outcome.threw s
    | none => Outcome.undefined
  else
    match e.m_storage.u_right with
    | some r => wrapRight opsU (selector r s)
    | none => Outcome.undefined

/-- Member `mapMatch(leftSelector, rightSelector)`, both the `const&` and the `&&` overload
(they differ in the value category of the argument handed to the selector): with Left live
`Either<L2, R2>(EitherTags::emplaceLeft, leftSelector(m_storage.u_left))`, otherwise
`Either<L2, R2>(EitherTags::emplaceRight, rightSelector(m_storage.u_right))`. -/
def mapMatch {σ L2 R2 : Type} (opsL2 : ValueOps L2) (opsR2 : ValueOps R2) (e : Either L R)
    (leftSelector : L → σ → Outcome σ L2) (rightSelector : R → σ → Outcome σ R2) (s : σ) :
    Outcome σ (Either L2 R2) :=
  if e.m_hasLeft then
    match e.m_storage.u_left with
    | some l => wrapLeft opsL2 (leftSelector l s)
    | none => Outcome.undefined
  else
    match e.m_storage.u_right with
    | some r => wrapRight opsR2 (rightSelector r s)
    | none => Outcome.undefined

/-- Member `flattenLeft() const&`:
`if (!m_hasLeft) { return Left_(EitherTags::emplaceRight, m_storage.u_right); }`
`return m_storage.u_left;`. The parameter `tagged` is the constructor of `Left_` that takes
the tag `EitherTags::emplaceRight` and a `Right_`. -/
def flattenLeftCopy (opsL : ValueOps L) (tagged : R → Option L) (e : Either L R) : Unwrap L :=
  if !e.m_hasLeft then
    match e.m_storage.u_right with
    | some r =>
      match tagged r with
      | some v => Unwrap.value v
      | none => Unwrap.raised
    | none => Unwrap.undefined
  else e.copyOutLeft opsL

/-- Member `flattenLeft() &&`:
`if (!m_hasLeft) { return Left_(EitherTags::emplaceRight, std::move(m_storage.u_right)); }`
`return std::move(m_storage.u_left);`. -/
def flattenLeftMove (opsL : ValueOps L) (tagged : R → Option L) (e : Either L R) : Unwrap L :=
  if !e.m_hasLeft then
    match e.m_storage.u_right with
    | some r =>
      match tagged r with
      | some v => Unwrap.value v
      | none => Unwrap.raised
    | none => Unwrap.undefined
  else e.moveOutLeft opsL

/-- Member `flattenRight() const&`:
`if (m_hasLeft) { return Right_(EitherTags::emplaceLeft, m_storage.u_left); }`
`return m_storage.u_right;`. The parameter `tagged` is the constructor of `Right_` that takes
the tag `EitherTags::emplaceLeft` and a `Left_`. -/
def flattenRightCopy (opsR : ValueOps R) (tagged : L → Option R) (e : Either L R) : Unwrap R :=
  if e.m_hasLeft then
    match e.m_storage.u_left with
    | some l =>
      match tagged l with
      | some v => Unwrap.value v
      | none => Unwrap.raised
    | none => Unwrap.undefined
  else e.copyOutRight opsR

/-- Member `flattenRight() &&`:
`if (m_hasLeft) { return Right_(EitherTags::emplaceLeft, std::move(m_storage.u_left)); }`
`return std::move(m_storage.u_right);`. -/
def flattenRightMove (opsR : ValueOps R) (tagged : L → Option R) (e : Either L R) : Unwrap R :=
  if e.m_hasLeft then
    match e.m_storage.u_left with
    | some l =>
      match tagged l with
      | some v => Unwrap.value v
      | none => Unwrap.raised
    | none => Unwrap.undefined
  else e.moveOutRight opsR

end Either

/-! ### The other combinators written with `mapMatch`

The specification calls `mapMatch` the universal eliminator: every other combinator can be
expressed with it. These are those expressions, to be compared with the member functions. -/

namespace Either

variable {L R : Type}

/-- The expression `e.mapMatch(f, identity)`, which is to equal `e.mapLeft(f)`. -/
def mapLeftViaMapMatch {σ U : Type} (opsR : ValueOps R) (opsU : ValueOps U) (e : Either L R)
    (f : L → σ → Outcome σ U) (s : σ) : Outcome σ (Either U R) :=
  e.mapMatch opsU opsR f (identity opsR) s

/-- The expression `e.mapMatch(identity, g)`, which is to equal `e.mapRight(g)`. -/
def mapRightViaMapMatch {σ U : Type} (opsL : ValueOps L) (opsU : ValueOps U) (e : Either L R)
    (g : R → σ → Outcome σ U) (s : σ) : Outcome σ (Either L U) :=
  e.mapMatch opsL opsU (identity opsL) g s

/-- The value held, in whichever alternative, by `e.mapMatch(identity, _ => fb())`, which is
to equal `e.joinLeft(fb)`. -/
def joinLeftViaMapMatch {σ : Type} (opsL : ValueOps L) (e : Either L R)
    (fb : σ → Outcome σ L) (s : σ) : Outcome σ (Option L) :=
  (e.mapMatch opsL opsL (identity opsL) (fun _ => fb) s).mapValue held

/-- The value held, in whichever alternative, by `e.mapMatch(_ => fb(), identity)`, which is
to equal `e.joinRight(fb)`. -/
def joinRightViaMapMatch {σ : Type} (opsR : ValueOps R) (e : Either L R)
    (fb : σ → Outcome σ R) (s : σ) : Outcome σ (Option R) :=
  (e.mapMatch opsR opsR (fun _ => fb) (identity opsR) s).mapValue held

end Either

/-! ## Implicit conversion and assignment of a raw value

The converting constructors (and likewise the raw-value assignment operators) form an
overload set: two plain members taking `Left_ const&` and `Left_&&`, and two member
templates taking `R const&` and `R&&` that take part only when `EnableOverloadRight_t<R>`
holds. Which of them an argument expression reaches is decided by overload resolution. -/

/-- Value category and constness of an argument expression. -/
inductive ArgCategory where
  /-- a prvalue or an xvalue, such as `n / d` or `std::move(x)` -/
  | rvalue
  /-- the name of a `const` object -/
  | constLvalue
  /-- the name of a non-`const` object -/
  | lvalue
deriving DecidableEq, Repr

/-- The alias `EnableOverloadRight_t<R>`:
`std::is_convertible_v<R, Right_> && !std::is_same_v<Right_, Left_>`. -/
def EnableOverloadRight_t (convertibleToRight sameType : Bool) : Bool :=
  convertibleToRight && !sameType

/-- The overload an argument of type `Left_` reaches. -/
inductive Selected (L R : Type) where
  /-- the member taking `Left_ const&` -/
  | leftCopy
  /-- the member taking `Left_&&` -/
  | leftMove
  /-- the member template taking `R&&`, with the conversion from `Left_` to `Right_` that
  its body applies to `std::move(right)` -/
  | rightMove (conv : L → R)

/-- Overload resolution for an argument expression of type `Left_`; `toRight` is the
implicit conversion from `Left_` to `Right_`, if there is one. An rvalue binds to
`Left_&&` and a `const` lvalue to `Left_ const&`: the templates, where enabled, offer the
same parameter type, and the non-template wins. For a non-`const` lvalue the parameter
`R&&` of the template is a forwarding reference, `R` is deduced as `Left_&`, and binding to
`Left_&` is preferred to binding to `Left_ const&`: the template wins whenever it is
enabled. -/
def selectForLeftArgument {L R : Type} (toRight : Option (L → R)) (sameType : Bool) :
    ArgCategory → Selected L R
  | ArgCategory.rvalue => Selected.leftMove
  | ArgCategory.constLvalue => Selected.leftCopy
  | ArgCategory.lvalue =>
    if EnableOverloadRight_t toRight.isSome sameType then
      match toRight with
      | some conv => Selected.rightMove conv
      | none => Selected.leftCopy
    else Selected.leftCopy

/-- The overload an argument of type `Right_` reaches, `Left_` and `Right_` being distinct
types. -/
inductive SelectedRight where
  /-- the member template taking `R const&` -/
  | rightCopy
  /-- the member template taking `R&&` -/
  | rightMove
deriving DecidableEq, Repr

/-- Overload resolution for an argument expression of type `Right_`, `Left_` and `Right_`
being distinct types: the two member templates are enabled and match without a conversion.
An rvalue binds to `R&&` with `R` deduced as `Right_`. A non-`const` lvalue binds to the
forwarding reference `R&&` with `R` deduced as `Right_&`, which is preferred to binding to
`Right_ const&`. For a `const` lvalue both templates offer the parameter type
`Right_ const&`, and the one taking `R const&` is the more specialised. -/
def selectForRightArgument : ArgCategory → SelectedRight
  | ArgCategory.rvalue => SelectedRight.rightMove
  | ArgCategory.constLvalue => SelectedRight.rightCopy
  | ArgCategory.lvalue => SelectedRight.rightMove

namespace Either

variable {L R : Type}

/-- The assignment `e = r` of an argument `r` of type `Right_`, `Left_` and `Right_` being
distinct types: the raw-value assignment operator that overload resolution selects, applied
to `r`. -/
def rawAssignmentRight (opsR : ValueOps R) (category : ArgCategory) (r : R)
    (e : Either L R) : Outcome (Either L R) Unit :=
  match selectForRightArgument category with
  | SelectedRight.rightCopy => e.assignRightCopy opsR opsR.copyConstruct r
  | SelectedRight.rightMove => e.assignRightMove opsR (fun v => (opsR.moveConstruct v).1) r

/-- The implicit conversion of an argument `v` of type `Left_` to `Either<Left_, Right_>`:
the converting constructor that overload resolution selects, applied to `v`. -/
def implicitConversion (opsL : ValueOps L) (toRight : Option (L → R)) (sameType : Bool)
    (category : ArgCategory) (v : L) : Option (Either L R) :=
  match selectForLeftArgument toRight sameType category with
  | Selected.leftCopy => Either.ctorLeftCopy opsL v
  | Selected.leftMove => Either.ctorLeftMove opsL v
  | Selected.rightMove conv => Either.ctorRightMove conv v

/-- The assignment `e = v` of an argument `v` of type `Left_`: the raw-value assignment
operator that overload resolution selects, applied to `v`. -/
def rawAssignment (opsL : ValueOps L) (opsR : ValueOps R) (toRight : Option (L → R))
    (sameType : Bool) (category : ArgCategory) (v : L) (e : Either L R) :
    Outcome (Either L R) Unit :=
  match selectForLeftArgument toRight sameType category with
  | Selected.leftCopy => e.assignLeftCopy opsL v
  | Selected.leftMove => e.assignLeftMove opsL v
  | Selected.rightMove conv => e.assignRightMove opsR conv v

end Either

/-- Whether `x` is a value of the type `int`, taken to be 32 bits wide. -/
def isInt (x : Int) : Bool := decide (-2147483648 ≤ x ∧ x ≤ 2147483647)

/-- The example of the header: `Either<int, std::string> tryDivide(int n, int d)`, for
arguments that are values of `int`. `return "divide by zero error";` converts the literal
through the constructor template taking `R const&`; `return n / d;` converts an rvalue
`int`, which is not convertible to `std::string`. The quotient of `int`s truncates toward
zero; when it is not a value of `int` (`INT_MIN / -1`) the division is undefined and the
call has no result, `none`. -/
def tryDivide (n d : Int) : Option (Either Int String) :=
  if !(isInt n && isInt d) then none
  else if 0 = d then
    Either.ctorRightCopy (fun (s : String) => some s) "divide by zero error"
  else if !isInt (Int.tdiv n d) then none
  else Either.implicitConversion (ValueOps.trivial Int) none false ArgCategory.rvalue
    (Int.tdiv n d)

/-! ## Grid (`cress/moo/grid.hpp`)

A `std::array<size_t, numDimensions_>` is a list of naturals whose length is
`numDimensions_`; `size_t` arithmetic wraps at `sizeModulus`. -/

/-- One more than the largest `size_t`; `size_t` is taken to be 64 bits wide. -/
def sizeModulus : Nat := 2 ^ 64

/-- The `size_t` that the mathematical result `x` of an arithmetic operation is stored as. -/
def wrapSize (x : Nat) : Nat := x % sizeModulus

namespace DimensionsUtils

/-- Function `calcSize`: `total` starts at 1 and is multiplied by every dimension. -/
def calcSize (dimensions : List Nat) : Nat :=
  dimensions.foldl (fun total dimension => wrapSize (total * dimension)) 1

/-- The inner loop of `calcLinearIndex`: `localOffset` starts at `coordinates[dimension]` and
is multiplied by `dimensions[i]` for every `i < dimension`. -/
def localOffset (dimensions coordinates : List Nat) (dimension : Nat) : Nat :=
  (List.range dimension).foldl
    (fun localOffset i => wrapSize (localOffset * dimensions.getD i 0))
    (coordinates.getD dimension 0)

/-- Function `calcLinearIndex`: `linearIndex` starts at `coordinates[0]`, and for every
`dimension` from 1 up to `dimensions.size()` the local offset is added to it. -/
def calcLinearIndex (dimensions coordinates : List Nat) : Nat :=
  (List.range' 1 (dimensions.length - 1)).foldl
    (fun linearIndex dimension =>
      wrapSize (linearIndex + localOffset dimensions coordinates dimension))
    (coordinates.getD 0 0)

/-- Function `isInRange`: false as soon as an ordinate is `>=` its dimension. -/
def isInRange (dimensions coordinates : List Nat) : Bool :=
  (List.range dimensions.length).all fun dimension =>
    decide (coordinates.getD dimension 0 < dimensions.getD dimension 0)

/-- The formula in the comment of `calcLinearIndex`, `i0 + i1 * n0 + i2 * n0 * n1 + ...`, in
unbounded arithmetic: the first coordinate varies fastest. -/
def linearFormula (dimensions coordinates : List Nat) : Nat :=
  ∑ d in Finset.range dimensions.length,
    coordinates.getD d 0 * ∏ i in Finset.range d, dimensions.getD i 0

end DimensionsUtils

/-- The class `IndexedCoordinates<numDimensions_>`. -/
structure IndexedCoordinates where
  m_linearIndex : Nat
  m_coordinates : List Nat
deriving DecidableEq, Repr

namespace IndexedCoordinates

/-- The operator `a == b`: `a.linearIndex() == b.linearIndex()`. -/
def eq (a b : IndexedCoordinates) : Bool := a.m_linearIndex == b.m_linearIndex

/-- The operator `a != b`: `a.linearIndex() != b.linearIndex()`. -/
def ne (a b : IndexedCoordinates) : Bool := a.m_linearIndex != b.m_linearIndex

/-- The operator `a < b`: `a.linearIndex() < b.linearIndex()`. -/
def lt (a b : IndexedCoordinates) : Bool := decide (a.m_linearIndex < b.m_linearIndex)

/-- The operator `a > b`: `a.linearIndex() > b.linearIndex()`. -/
def gt (a b : IndexedCoordinates) : Bool := decide (a.m_linearIndex > b.m_linearIndex)

/-- The operator `a <= b`: `a.linearIndex() <= b.linearIndex()`. -/
def le (a b : IndexedCoordinates) : Bool := decide (a.m_linearIndex ≤ b.m_linearIndex)

/-- The operator `a >= b`: `a.linearIndex() >= b.linearIndex()`. -/
def ge (a b : IndexedCoordinates) : Bool := decide (a.m_linearIndex ≥ b.m_linearIndex)

end IndexedCoordinates

/-- How a hook of `Require_traits_` of `Grid` ends. -/
inductive GridReaction where
  | terminates
  | throwsOutOfRange
  | returnsNormally
deriving DecidableEq, Repr

/-- The `Require_traits_` template parameter of `Grid`. -/
structure GridRequireTraits where
  onBadAccess : GridReaction
  onBadAccessThrow : GridReaction

/-- The struct `DefaultGridRequireTraits`: `onBadAccess` asserts and calls `std::terminate()`,
`onBadAccessThrow` throws `OutOfRangeGridIndexerException`. -/
def DefaultGridRequireTraits : GridRequireTraits where
  onBadAccess := GridReaction.terminates
  onBadAccessThrow := GridReaction.throwsOutOfRange

/-- How an indexing member function of `Grid` ends. -/
inductive GridAccess (T : Type) where
  /-- it returns `v` (for an element, a reference to it) -/
  | value (v : T)
  /-- the exception `OutOfRangeGridIndexerException` leaves the call -/
  | outOfRange
  /-- the process was terminated in a hook -/
  | terminated
  /-- the underlying array was indexed past its end -/
  | undefined
deriving DecidableEq, Repr

namespace GridAccess

/-- Sequencing: the rest of the function body runs on the value, if there is one. -/
def bind {α β : Type} (a : GridAccess α) (f : α → GridAccess β) : GridAccess β :=
  match a with
  | value v => f v
  | outOfRange => outOfRange
  | terminated => terminated
  | undefined => undefined

end GridAccess

/-- The data members of `Grid<numDimensions_, Value_type_, Alloc_, Require_traits_>`. -/
structure Grid (V : Type) where
  m_linearArray : List V
  m_dimensions : List Nat
deriving DecidableEq, Repr

namespace Grid

variable {V : Type}

/-- The call `m_linearArray.resize(n)`: the array is cut to `n` elements or filled up to
`n` elements with value-initialised ones. -/
def resize (dflt : V) (xs : List V) (n : Nat) : List V :=
  xs.take n ++ List.replicate (n - xs.length) dflt

/-- The end of every dimension-taking constructor:
`if (m_linearArray.empty()) { m_dimensions.fill(0); }`. -/
def fillIfEmpty (g : Grid V) : Grid V :=
  if g.m_linearArray.isEmpty then
    { g with m_dimensions := List.replicate g.m_dimensions.length 0 }
  else g

/-- Constructor `Grid(dimensions, al)`: `calcSize(dimensions)` value-initialised elements. -/
def ctorDimensions (dflt : V) (dimensions : List Nat) : Grid V :=
  fillIfEmpty ⟨List.replicate (DimensionsUtils.calcSize dimensions) dflt, dimensions⟩

/-- Constructor `Grid(dimensions, value, al)`: `calcSize(dimensions)` copies of `value`. -/
def ctorValue (dimensions : List Nat) (value : V) : Grid V :=
  fillIfEmpty ⟨List.replicate (DimensionsUtils.calcSize dimensions) value, dimensions⟩

/-- Constructor `Grid(dimensions, list, al)`: the elements of the initializer list, resized
to `calcSize(dimensions)`. -/
def ctorList (dflt : V) (dimensions : List Nat) (list : List V) : Grid V :=
  fillIfEmpty ⟨resize dflt list (DimensionsUtils.calcSize dimensions), dimensions⟩

/-- Constructor `Grid(dimensions, first, last, al)`: the elements of the iterator range,
resized to `calcSize(dimensions)`. -/
def ctorRange (dflt : V) (dimensions : List Nat) (range : List V) : Grid V :=
  fillIfEmpty ⟨resize dflt range (DimensionsUtils.calcSize dimensions), dimensions⟩

/-- Member `size()`. -/
def size (g : Grid V) : Nat := g.m_linearArray.length

/-- Member `dimensions()`. -/
def dimensions (g : Grid V) : List Nat := g.m_dimensions

/-- Member `isInRange(size_type linearIndex)`. -/
def isInRangeLinear (g : Grid V) (linearIndex : Nat) : Bool := decide (linearIndex < g.size)

/-- Member `isInRange(dimensions_type const& coordinates)`. -/
def isInRange (g : Grid V) (coordinates : List Nat) : Bool :=
  DimensionsUtils.isInRange g.m_dimensions coordinates

/-- Member `requireAccess(condition)`, followed by `rest`. The function is `noexcept`, so a
hook that raises terminates. -/
def requireAccess {α : Type} (traits : GridRequireTraits) (condition : Bool)
    (rest : GridAccess α) : GridAccess α :=
  if !condition then
    match traits.onBadAccess with
    | GridReaction.returnsNormally => rest
    | _ => GridAccess.terminated
  else rest

/-- Member `requireAccessElseThrow(condition)`, followed by `rest`. -/
def requireAccessElseThrow {α : Type} (traits : GridRequireTraits) (condition : Bool)
    (rest : GridAccess α) : GridAccess α :=
  if !condition then
    match traits.onBadAccessThrow with
    | GridReaction.terminates => GridAccess.terminated
    | GridReaction.throwsOutOfRange => GridAccess.outOfRange
    | GridReaction.returnsNormally => rest
  else rest

/-- The expression `m_linearArray[linearIndex]`. -/
def element (g : Grid V) (linearIndex : Nat) : GridAccess V :=
  match g.m_linearArray.get? linearIndex with
  | some v => GridAccess.value v
  | none => GridAccess.undefined

/-- Member `operator[](size_type linearIndex)`. -/
def subscriptLinear (traits : GridRequireTraits) (g : Grid V) (linearIndex : Nat) :
    GridAccess V :=
  requireAccess traits (g.isInRangeLinear linearIndex) (g.element linearIndex)

/-- Member `at(size_type linearIndex)`. -/
def atLinear (traits : GridRequireTraits) (g : Grid V) (linearIndex : Nat) : GridAccess V :=
  requireAccessElseThrow traits (g.isInRangeLinear linearIndex) (g.element linearIndex)

/-- Member `linearIndexUnchecked(coordinates)`. -/
def linearIndexUnchecked (traits : GridRequireTraits) (g : Grid V) (coordinates : List Nat) :
    GridAccess Nat :=
  requireAccess traits (g.isInRange coordinates)
    (GridAccess.value (DimensionsUtils.calcLinearIndex g.m_dimensions coordinates))

/-- Member `linearIndex(coordinates)`. -/
def linearIndex (traits : GridRequireTraits) (g : Grid V) (coordinates : List Nat) :
    GridAccess Nat :=
  requireAccessElseThrow traits (g.isInRange coordinates)
    (GridAccess.value (DimensionsUtils.calcLinearIndex g.m_dimensions coordinates))

/-- Member `operator[](dimensions_type const& coordinates)`:
`return operator[](linearIndexUnchecked(coordinates));`. -/
def subscript (traits : GridRequireTraits) (g : Grid V) (coordinates : List Nat) :
    GridAccess V :=
  (g.linearIndexUnchecked traits coordinates).bind fun li => g.subscriptLinear traits li

/-- Member `at(dimensions_type const& coordinates)`:
`requireAccessElseThrow(isInRange(coordinates)); return operator[](coordinates);`. -/
def atCoordinates (traits : GridRequireTraits) (g : Grid V) (coordinates : List Nat) :
    GridAccess V :=
  requireAccessElseThrow traits (g.isInRange coordinates) (g.subscript traits coordinates)

/-- Member `indexCoordinates(coordinates)`. -/
def indexCoordinates (traits : GridRequireTraits) (g : Grid V) (coordinates : List Nat) :
    GridAccess IndexedCoordinates :=
  requireAccessElseThrow traits (g.isInRange coordinates)
    ((g.linearIndexUnchecked traits coordinates).bind fun li =>
      GridAccess.value ⟨li, coordinates⟩)

/-- Member `isValid(ic)`: `isInRange(ic.coordinates()) &&
ic.linearIndex() == linearIndexUnchecked(ic.coordinates())`, the right operand being
evaluated only when the left one is true. -/
def isValid (traits : GridRequireTraits) (g : Grid V) (ic : IndexedCoordinates) :
    GridAccess Bool :=
  if g.isInRange ic.m_coordinates then
    (g.linearIndexUnchecked traits ic.m_coordinates).bind fun li =>
      GridAccess.value (ic.m_linearIndex == li)
  else GridAccess.value false

end Grid

/-! ## Delay (`cress/moo/delay.hpp`)

The template parameter `Duration_` is a type with a value-initialised value `Duration_()`
(written `0`), a subtraction and a linear order. -/

/-- The data member of `Delay<Duration_>`. -/
structure Delay (D : Type) where
  m_remaining : D
deriving DecidableEq, Repr

namespace Delay

variable {D : Type} [LinearOrder D] [Zero D] [Sub D]

/-- Member `getRemaining()`. -/
def getRemaining (t : Delay D) : D := t.m_remaining

/-- Member `isFinished()`: `m_remaining <= Duration_()`. -/
def isFinished (t : Delay D) : Bool := decide (t.m_remaining ≤ 0)

/-- Member `updateUnclamped(deltaTime)`: `m_remaining -= deltaTime`. -/
def updateUnclamped (t : Delay D) (deltaTime : D) : Delay D :=
  ⟨t.m_remaining - deltaTime⟩

/-- Member `updateUnclampedFinished(deltaTime)`: the object afterwards and the value
returned. -/
def updateUnclampedFinished (t : Delay D) (deltaTime : D) : Delay D × Bool :=
  let t1 := t.updateUnclamped deltaTime
  (t1, t1.isFinished)

/-- Member `updateClamped(deltaTime)`: `updateUnclamped`, then `m_remaining` is set to
`zero` if it is `< zero`. -/
def updateClamped (t : Delay D) (deltaTime : D) : Delay D :=
  let t1 := t.updateUnclamped deltaTime
  let zero : D := 0
  if t1.m_remaining < zero then ⟨zero⟩ else t1

/-- Member `updateClampedFinished(deltaTime)`: the object afterwards and the value
returned. -/
def updateClampedFinished (t : Delay D) (deltaTime : D) : Delay D × Bool :=
  let t1 := t.updateClamped deltaTime
  (t1, t1.isFinished)

end Delay

end cress.moo

namespace be

/-! ## Fraii (`be/mem/fraii.hpp`)

Objects of type `Fraii<T, Deleter>` live at addresses, so that the two references of
`a = std::move(b)` may name the same object. The handle type `T` is one that is copied when it
is moved from, as `GLuint` is, the handle type of every instantiation in `be/mem/gl.hpp`;
`null` is `T()`. -/

namespace mem

/-- The data members of `Fraii<T, Deleter>`. -/
structure Fraii (T D : Type) where
  m_deleter : D
  m_resource : T
deriving DecidableEq, Repr

/-- One call `deleter(resource)`. -/
structure DeleterCall (T D : Type) where
  deleter : D
  resource : T
deriving DecidableEq, Repr

/-- The `Fraii` object at every address, and the deleter calls made so far, oldest first. -/
structure Store (T D : Type) where
  objects : Nat → Fraii T D
  calls : List (DeleterCall T D)

namespace Store

variable {T D : Type}

/-- Writes the member `m_resource` of the object at `p`. -/
def setResource (s : Store T D) (p : Nat) (r : T) : Store T D :=
  { s with objects := fun q => if q = p then { s.objects p with m_resource := r }
      else s.objects q }

/-- Writes the member `m_deleter` of the object at `p`. -/
def setDeleter (s : Store T D) (p : Nat) (d : D) : Store T D :=
  { s with objects := fun q => if q = p then { s.objects p with m_deleter := d }
      else s.objects q }

/-- Calls `d(r)`. -/
def callDeleter (s : Store T D) (d : D) (r : T) : Store T D :=
  { s with calls := s.calls ++ [⟨d, r⟩] }

end Store

namespace Fraii

variable {T D : Type}

/-- Constructor `Fraii(resource, deleter)` of the object at `self`. -/
def ctorResource (self : Nat) (resource : T) (deleter : D) (s : Store T D) : Store T D :=
  (s.setDeleter self deleter).setResource self resource

/-- Constructor `Fraii(nullFraii, deleter)` of the object at `self`. -/
def ctorNull (null : T) (self : Nat) (deleter : D) (s : Store T D) : Store T D :=
  (s.setDeleter self deleter).setResource self null

/-- Member `release()`: `return std::exchange(m_resource, T());`. -/
def release (null : T) (self : Nat) (s : Store T D) : Store T D × T :=
  (s.setResource self null, (s.objects self).m_resource)

/-- Member `get()`. -/
def get (self : Nat) (s : Store T D) : T := (s.objects self).m_resource

/-- Destructor: `m_deleter(std::move(m_resource));`. -/
def dtor (self : Nat) (s : Store T D) : Store T D :=
  s.callDeleter (s.objects self).m_deleter (s.objects self).m_resource

/-- Move constructor of the object at `self` from the one at `b`:
`m_deleter(b.m_deleter), m_resource(b.release())`. -/
def ctorMove (null : T) (self b : Nat) (s : Store T D) : Store T D :=
  let s1 := s.setDeleter self (s.objects b).m_deleter
  let (s2, r) := release null b s1
  s2.setResource self r

/-- Move assignment `*this = std::move(b)`, `*this` being the object at `self`:
`m_deleter(std::move(m_resource)); m_deleter = b.m_deleter; m_resource = b.release();`. -/
def assignMove (null : T) (self b : Nat) (s : Store T D) : Store T D :=
  let s1 := s.callDeleter (s.objects self).m_deleter (s.objects self).m_resource
  let s2 := s1.setDeleter self (s1.objects b).m_deleter
  let (s3, r) := release null b s2
  s3.setResource self r

/-- Assignment `*this = nullFraii`: `m_deleter(release());`. -/
def assignNull (null : T) (self : Nat) (s : Store T D) : Store T D :=
  let (s1, r) := release null self s
  s1.callDeleter (s1.objects self).m_deleter r

/-- Member `swap(b)`: the deleters are swapped, then the resources. -/
def swap (self b : Nat) (s : Store T D) : Store T D :=
  let s1 := (s.setDeleter self (s.objects b).m_deleter).setDeleter b (s.objects self).m_deleter
  (s1.setResource self (s1.objects b).m_resource).setResource b (s1.objects self).m_resource

/-- The operator `v == nullFraii`: `v.get() == T()`. -/
def eqNull [DecidableEq T] (null : T) (v : Nat) (s : Store T D) : Bool :=
  decide (get v s = null)

end Fraii

end mem

/-! ## Input state (`be/input.hpp`) -/

/-- The enumeration `InputState`. -/
inductive InputState where
  | CurrentlyUp
  | CurrentlyDown
  | GoingUp
  | GoingDown
  | GoingUpAgain
  | GoingDownAgain
deriving DecidableEq, Repr

/-- The map `InputMap<Key>`, a `std::map<Key, InputState>`, as the partial function it
represents. -/
def InputMap (Key : Type) : Type := Key → Option InputState

namespace InputMap

variable {Key : Type} [DecidableEq Key]

/-- The map with `key` bound to `state`. -/
def set (states : InputMap Key) (key : Key) (state : InputState) : InputMap Key :=
  fun k => if k = key then some state else states k

/-- The expression `states[key]`: an absent key is first inserted with the
value-initialised state, whose underlying value 0 is that of `CurrentlyUp`. -/
def subscript (states : InputMap Key) (key : Key) : InputMap Key × InputState :=
  match states key with
  | some state => (states, state)
  | none => (states.set key InputState.CurrentlyUp, InputState.CurrentlyUp)

end InputMap

namespace input

variable {Key : Type} [DecidableEq Key]

/-- Function `isDownAtAll`. -/
def isDownAtAll : InputState → Bool
  | InputState.CurrentlyDown => true
  | InputState.GoingDown => true
  | InputState.GoingDownAgain => true
  | _ => false

/-- Function `isGoingDown`. -/
def isGoingDown (state : InputState) : Bool := decide (InputState.GoingDown = state)

/-- Function `isGoingUp`. -/
def isGoingUp (state : InputState) : Bool := decide (InputState.GoingUp = state)

/-- Function `getElseConsiderUp`. -/
def getElseConsiderUp (states : InputMap Key) (key : Key) : InputState :=
  match states key with
  | some state => state
  | none => InputState.CurrentlyUp

/-- Function `informGoingDown`: the map afterwards and the state returned. -/
def informGoingDown (states : InputMap Key) (key : Key) : InputMap Key × InputState :=
  let (states1, state) := states.subscript key
  let state1 :=
    match state with
    | InputState.CurrentlyDown => InputState.GoingDownAgain
    | InputState.GoingDown => InputState.GoingDownAgain
    | InputState.GoingDownAgain => InputState.GoingDownAgain
    | _ => InputState.GoingDown
  (states1.set key state1, state1)

/-- Function `informGoingUp`: the map afterwards and the state returned. -/
def informGoingUp (states : InputMap Key) (key : Key) : InputMap Key × InputState :=
  let (states1, state) := states.subscript key
  let state1 :=
    match state with
    | InputState.CurrentlyUp => InputState.GoingUpAgain
    | InputState.GoingUp => InputState.GoingUpAgain
    | InputState.GoingUpAgain => InputState.GoingUpAgain
    | _ => InputState.GoingUp
  (states1.set key state1, state1)

/-- Function `afterUpdate(InputState& state)`: the state afterwards. -/
def afterUpdate : InputState → InputState
  | InputState.GoingDown => InputState.CurrentlyDown
  | InputState.GoingDownAgain => InputState.CurrentlyDown
  | InputState.GoingUp => InputState.CurrentlyUp
  | InputState.GoingUpAgain => InputState.CurrentlyUp
  | state => state

/-- Function `afterUpdate(InputMap<Key>& states)`: every state in the map is updated. -/
def afterUpdateMap (states : InputMap Key) : InputMap Key :=
  fun k => (states k).map afterUpdate

end input

end be

namespace cress.moo

/-! ## Lemmas -/

theorem Outcome.discard_eq_returned {σ α : Type} (o : Outcome σ α) (s : σ)
    (hr : o.discard = Outcome.returned s ()) : ∃ v, o = Outcome.returned s v := by
  cases o <;> simp_all [Outcome.discard]

namespace Either

variable {L R : Type}

theorem invariant_iff (e : Either L R) :
    e.invariant = true ↔
      (e.m_hasLeft = true ∧ (∃ l, e.m_storage.u_left = some l) ∧ e.m_storage.u_right = none) ∨
      (e.m_hasLeft = false ∧ e.m_storage.u_left = none ∧ ∃ r, e.m_storage.u_right = some r) := by
  obtain ⟨b, ⟨ol, or⟩⟩ := e
  cases b <;> cases ol <;> cases or <;> simp [invariant, leftLive, rightLive, hasLeft]

theorem ctorEmplaceLeft_invariant {A : Type} (ctor : A → Option L) (a : A) (e : Either L R)
    (hr : Either.ctorEmplaceLeft ctor a = some e) : e.invariant = true := by
  simp only [ctorEmplaceLeft, Storage.emplaceLeft] at hr
  cases hc : ctor a <;> simp [hc] at hr
  subst hr
  simp [invariant, leftLive, rightLive, hasLeft]

theorem ctorEmplaceRight_invariant {A : Type} (ctor : A → Option R) (a : A) (e : Either L R)
    (hr : Either.ctorEmplaceRight ctor a = some e) : e.invariant = true := by
  simp only [ctorEmplaceRight, Storage.emplaceRight] at hr
  cases hc : ctor a <;> simp [hc] at hr
  subst hr
  simp [invariant, leftLive, rightLive, hasLeft]

theorem ctorCopy_invariant (opsL : ValueOps L) (opsR : ValueOps R) (that that' e : Either L R)
    (h : that.invariant = true)
    (hr : that.ctorCopy opsL opsR = Outcome.returned that' e) :
    that'.invariant = true ∧ e.invariant = true := by
  rcases that with ⟨_ | _, ⟨_ | l, _ | r⟩⟩ <;>
    simp [invariant, leftLive, rightLive, hasLeft] at h <;>
    simp [ctorCopy, Storage.uninitialised, Storage.newLeft, Storage.newRight] at hr <;>
    (split at hr) <;> simp_all [invariant, leftLive, rightLive, hasLeft] <;>
    (obtain ⟨rfl, rfl⟩ := hr; simp)

theorem ctorMove_invariant (opsL : ValueOps L) (opsR : ValueOps R) (that that' e : Either L R)
    (h : that.invariant = true)
    (hr : that.ctorMove opsL opsR = Outcome.returned that' e) :
    that'.invariant = true ∧ e.invariant = true := by
  rcases that with ⟨_ | _, ⟨_ | l, _ | r⟩⟩ <;>
    simp [invariant, leftLive, rightLive, hasLeft] at h <;>
    simp [ctorMove, Storage.uninitialised, Storage.newLeft, Storage.newRight,
      Storage.setLeft, Storage.setRight] at hr <;>
    (obtain ⟨rfl, rfl⟩ := hr; simp [invariant, leftLive, rightLive, hasLeft])

theorem assignMove_invariant (opsL : ValueOps L) (opsR : ValueOps R)
    (this that this' that' : Either L R) (h1 : this.invariant = true)
    (h2 : that.invariant = true)
    (hr : this.assignMove opsL opsR that = Outcome.returned (this', that') ()) :
    this'.invariant = true ∧ that'.invariant = true := by
  rcases this with ⟨_ | _, ⟨_ | l, _ | r⟩⟩ <;>
    simp [invariant, leftLive, rightLive, hasLeft] at h1 <;>
  rcases that with ⟨_ | _, ⟨_ | l', _ | r'⟩⟩ <;>
    simp [invariant, leftLive, rightLive, hasLeft] at h2 <;>
    simp [assignMove, Storage.destroyRight, Storage.destroyLeft, Storage.newLeft,
      Storage.setLeft, Storage.newRight, Storage.setRight] at hr <;>
    (obtain ⟨rfl, rfl⟩ := hr; simp [invariant, leftLive, rightLive, hasLeft])

theorem assignMoveSelf_invariant (opsL : ValueOps L) (opsR : ValueOps R)
    (this this' : Either L R) (h : this.invariant = true)
    (hr : this.assignMoveSelf opsL opsR = Outcome.returned this' ()) :
    this'.invariant = true := by
  rcases this with ⟨_ | _, ⟨_ | l, _ | r⟩⟩ <;>
    simp [invariant, leftLive, rightLive, hasLeft] at h <;>
    simp [assignMoveSelf, Storage.setLeft, Storage.setRight] at hr <;>
    (subst hr; simp [invariant, leftLive, rightLive, hasLeft])

theorem assignCopy_invariant (opsL : ValueOps L) (opsR : ValueOps R)
    (this that this' that' : Either L R) (h1 : this.invariant = true)
    (h2 : that.invariant = true)
    (hr : this.assignCopy opsL opsR that = Outcome.returned (this', that') ()) :
    this'.invariant = true ∧ that'.invariant = true := by
  rcases this with ⟨_ | _, ⟨_ | l, _ | r⟩⟩ <;>
    simp [invariant, leftLive, rightLive, hasLeft] at h1 <;>
  rcases that with ⟨_ | _, ⟨_ | l', _ | r'⟩⟩ <;>
    simp [invariant, leftLive, rightLive, hasLeft] at h2 <;>
    simp [assignCopy, Storage.destroyRight, Storage.destroyLeft, Storage.newLeft,
      Storage.setLeft, Storage.newRight, Storage.setRight] at hr <;>
    (try split at hr) <;> simp_all [invariant, leftLive, rightLive, hasLeft] <;>
    (obtain ⟨rfl, rfl⟩ := hr; simp)

theorem assignCopySelf_invariant (opsL : ValueOps L) (opsR : ValueOps R)
    (this this' : Either L R) (h : this.invariant = true)
    (hr : this.assignCopySelf opsL opsR = Outcome.returned this' ()) :
    this'.invariant = true := by
  rcases this with ⟨_ | _, ⟨_ | l, _ | r⟩⟩ <;>
    simp [invariant, leftLive, rightLive, hasLeft] at h <;>
    simp [assignCopySelf, Storage.setLeft, Storage.setRight] at hr
  · by_cases hp : (opsR.copyAssignSelf r).2 = true <;> simp [hp] at hr
    subst hr
    simp [invariant, leftLive, rightLive, hasLeft]
  · by_cases hp : (opsL.copyAssignSelf l).2 = true <;> simp [hp] at hr
    subst hr
    simp [invariant, leftLive, rightLive, hasLeft]

theorem swap_invariant (opsL : ValueOps L) (opsR : ValueOps R)
    (this that this' that' : Either L R) (h1 : this.invariant = true)
    (h2 : that.invariant = true)
    (hr : this.swap opsL opsR that = Outcome.returned (this', that') ()) :
    this'.invariant = true ∧ that'.invariant = true := by
  rcases this with ⟨_ | _, ⟨_ | l, _ | r⟩⟩ <;>
    simp [invariant, leftLive, rightLive, hasLeft] at h1 <;>
  rcases that with ⟨_ | _, ⟨_ | l', _ | r'⟩⟩ <;>
    simp [invariant, leftLive, rightLive, hasLeft] at h2 <;>
    simp [swap, Storage.destroyRight, Storage.destroyLeft, Storage.newLeft,
      Storage.setLeft, Storage.newRight, Storage.setRight] at hr <;>
    (obtain ⟨rfl, rfl⟩ := hr; simp [invariant, leftLive, rightLive, hasLeft])

theorem swapSelf_invariant (opsL : ValueOps L) (opsR : ValueOps R)
    (this this' : Either L R) (h : this.invariant = true)
    (hr : this.swapSelf opsL opsR = Outcome.returned this' ()) :
    this'.invariant = true := by
  rcases this with ⟨_ | _, ⟨_ | l, _ | r⟩⟩ <;>
    simp [invariant, leftLive, rightLive, hasLeft] at h <;>
    simp [swapSelf, Storage.setLeft, Storage.setRight] at hr <;>
    (subst hr; simp [invariant, leftLive, rightLive, hasLeft])

theorem emplaceLeft_invariant {A : Type} (opsL : ValueOps L) (ctor : A → Option L) (a : A)
    (e e' : Either L R) (v : L) (h : e.invariant = true)
    (hr : e.emplaceLeft opsL ctor a = Outcome.returned e' v) : e'.invariant = true := by
  rcases e with ⟨_ | _, ⟨_ | l, _ | r⟩⟩ <;>
    simp [invariant, leftLive, rightLive, hasLeft] at h <;>
    simp [emplaceLeft, Storage.destroyRight, Storage.newLeft, Storage.setLeft] at hr <;>
    (try split at hr) <;> simp_all [invariant, leftLive, rightLive, hasLeft] <;>
    (obtain ⟨rfl, rfl⟩ := hr; simp)

theorem emplaceRight_invariant {A : Type} (opsR : ValueOps R) (ctor : A → Option R) (a : A)
    (e e' : Either L R) (v : R) (h : e.invariant = true)
    (hr : e.emplaceRight opsR ctor a = Outcome.returned e' v) : e'.invariant = true := by
  rcases e with ⟨_ | _, ⟨_ | l, _ | r⟩⟩ <;>
    simp [invariant, leftLive, rightLive, hasLeft] at h <;>
    simp [emplaceRight, Storage.destroyLeft, Storage.newRight, Storage.setRight] at hr <;>
    (try split at hr) <;> simp_all [invariant, leftLive, rightLive, hasLeft] <;>
    (obtain ⟨rfl, rfl⟩ := hr; simp)

theorem assignLeftMove_eq_discard (opsL : ValueOps L) (left : L) (e : Either L R) :
    e.assignLeftMove opsL left =
      (e.emplaceLeft opsL (fun v => some (opsL.moveConstruct v).1) left).discard := by
  unfold assignLeftMove
  cases e.emplaceLeft opsL (fun v => some (opsL.moveConstruct v).1) left <;> rfl

theorem assignLeftCopy_eq_discard (opsL : ValueOps L) (left : L) (e : Either L R) :
    e.assignLeftCopy opsL left = (e.emplaceLeft opsL opsL.copyConstruct left).discard := by
  unfold assignLeftCopy
  cases e.emplaceLeft opsL opsL.copyConstruct left <;> rfl

theorem assignRightMove_eq_discard {R' : Type} (opsR : ValueOps R) (conv : R' → R)
    (right : R') (e : Either L R) :
    e.assignRightMove opsR conv right =
      (e.emplaceRight opsR (fun v => some (conv v)) right).discard := by
  unfold assignRightMove
  cases e.emplaceRight opsR (fun v => some (conv v)) right <;> rfl

theorem assignRightCopy_eq_discard {R' : Type} (opsR : ValueOps R) (conv : R' → Option R)
    (right : R') (e : Either L R) :
    e.assignRightCopy opsR conv right = (e.emplaceRight opsR conv right).discard := by
  unfold assignRightCopy
  cases e.emplaceRight opsR conv right <;> rfl

/-! ### What the operations return on a well-formed object -/

theorem emplaceLeft_returned {A : Type} (opsL : ValueOps L) (hL : opsL.Lawful)
    (ctor : A → Option L) (a : A) (l : L) (hc : ctor a = some l) (e : Either L R)
    (he : e.invariant = true) :
    e.emplaceLeft opsL ctor a = Outcome.returned ⟨true, ⟨some l, none⟩⟩ l := by
  rcases e with ⟨_ | _, ⟨_ | l0, _ | r0⟩⟩ <;>
    simp [invariant, leftLive, rightLive, hasLeft] at he <;>
    simp [emplaceLeft, Storage.destroyRight, Storage.newLeft, Storage.setLeft, hc,
      hL.moveAssign_fst]

theorem emplaceRight_returned {A : Type} (opsR : ValueOps R) (hR : opsR.Lawful)
    (ctor : A → Option R) (a : A) (r : R) (hc : ctor a = some r) (e : Either L R)
    (he : e.invariant = true) :
    e.emplaceRight opsR ctor a = Outcome.returned ⟨false, ⟨none, some r⟩⟩ r := by
  rcases e with ⟨_ | _, ⟨_ | l0, _ | r0⟩⟩ <;>
    simp [invariant, leftLive, rightLive, hasLeft] at he <;>
    simp [emplaceRight, Storage.destroyLeft, Storage.newRight, Storage.setRight, hc,
      hR.moveAssign_fst]

theorem accessLeft_of_left (traits : RequireTraits) (l : L) (s : Option R) :
    (⟨true, ⟨some l, s⟩⟩ : Either L R).accessLeft traits = Access.value l := by
  simp [accessLeft, checkAccessLeft, refLeft]

theorem accessRight_of_right (traits : RequireTraits) (r : R) (s : Option L) :
    (⟨false, ⟨s, some r⟩⟩ : Either L R).accessRight traits = Access.value r := by
  simp [accessRight, checkAccessRight, refRight]

theorem swap_returned (opsL : ValueOps L) (opsR : ValueOps R) (hL : opsL.Lawful)
    (hR : opsR.Lawful) (a b : Either L R) (ha : a.invariant = true)
    (hb : b.invariant = true) :
    a.swap opsL opsR b = Outcome.returned (b, a) () := by
  rcases a with ⟨_ | _, ⟨_ | l, _ | r⟩⟩ <;>
    simp [invariant, leftLive, rightLive, hasLeft] at ha <;>
  rcases b with ⟨_ | _, ⟨_ | l', _ | r'⟩⟩ <;>
    simp [invariant, leftLive, rightLive, hasLeft] at hb <;>
    simp [Either.swap, Storage.destroyRight, Storage.destroyLeft, Storage.newLeft,
      Storage.setLeft, Storage.newRight, Storage.setRight, hL.swap_eq, hR.swap_eq,
      hL.moveConstruct_fst, hR.moveConstruct_fst]

theorem ctorCopy_cases (opsL : ValueOps L) (opsR : ValueOps R) (hL : opsL.Lawful)
    (hR : opsR.Lawful) (other : Either L R) (h : other.invariant = true) :
    other.ctorCopy opsL opsR = Outcome.returned other other ∨
      other.ctorCopy opsL opsR = Outcome.threw other := by
  rcases other with ⟨_ | _, ⟨_ | l, _ | r⟩⟩ <;>
    simp [invariant, leftLive, rightLive, hasLeft] at h
  · cases hc : opsR.copyConstruct r with
    | none => right; simp [ctorCopy, hc]
    | some w =>
      left
      simp [ctorCopy, hc, Storage.uninitialised, Storage.newRight, hR.copyConstruct_eq r w hc]
  · cases hc : opsL.copyConstruct l with
    | none => right; simp [ctorCopy, hc]
    | some w =>
      left
      simp [ctorCopy, hc, Storage.uninitialised, Storage.newLeft, hL.copyConstruct_eq l w hc]

theorem ctorCopy_returned (opsL : ValueOps L) (opsR : ValueOps R) (hL : opsL.Lawful)
    (hR : opsR.Lawful) (hnL : opsL.NoThrow) (hnR : opsR.NoThrow) (other : Either L R)
    (h : other.invariant = true) :
    other.ctorCopy opsL opsR = Outcome.returned other other := by
  rcases other with ⟨_ | _, ⟨_ | l, _ | r⟩⟩ <;>
    simp [invariant, leftLive, rightLive, hasLeft] at h
  · have hs := hnR.copyConstruct_isSome r
    cases hc : opsR.copyConstruct r with
    | none => simp [hc] at hs
    | some w =>
      simp [ctorCopy, hc, Storage.uninitialised, Storage.newRight, hR.copyConstruct_eq r w hc]
  · have hs := hnL.copyConstruct_isSome l
    cases hc : opsL.copyConstruct l with
    | none => simp [hc] at hs
    | some w =>
      simp [ctorCopy, hc, Storage.uninitialised, Storage.newLeft, hL.copyConstruct_eq l w hc]

theorem ctorMove_returned (opsL : ValueOps L) (opsR : ValueOps R) (hL : opsL.Lawful)
    (hR : opsR.Lawful) (other : Either L R) (h : other.invariant = true) :
    other.ctorMove opsL opsR = Outcome.returned (other.movedFrom opsL opsR) other := by
  rcases other with ⟨_ | _, ⟨_ | l, _ | r⟩⟩ <;>
    simp [invariant, leftLive, rightLive, hasLeft] at h <;>
    simp [ctorMove, movedFrom, Storage.uninitialised, Storage.newLeft, Storage.newRight,
      Storage.setLeft, Storage.setRight, hL.moveConstruct_fst, hR.moveConstruct_fst]

theorem movedFrom_invariant (opsL : ValueOps L) (opsR : ValueOps R) (e : Either L R) :
    (e.movedFrom opsL opsR).invariant = e.invariant := by
  rcases e with ⟨_ | _, ⟨_ | l, _ | r⟩⟩ <;>
    simp [invariant, leftLive, rightLive, hasLeft, movedFrom]

/-- Every reachable state satisfies the invariant. -/
theorem Reachable.invariant_eq_true {opsL : ValueOps L} {opsR : ValueOps R} {e : Either L R}
    (h : Reachable opsL opsR e) : e.invariant = true := by
  induction h with
  | ctorEmplaceLeft ctor a e hr => exact ctorEmplaceLeft_invariant ctor a e hr
  | ctorEmplaceRight ctor a e hr => exact ctorEmplaceRight_invariant ctor a e hr
  | ctorDefault dflt e hr => exact ctorEmplaceRight_invariant dflt () e hr
  | ctorLeftCopy left e hr => exact ctorEmplaceLeft_invariant opsL.copyConstruct left e hr
  | ctorLeftMove left e hr =>
    exact ctorEmplaceLeft_invariant (fun v => some (opsL.moveConstruct v).1) left e hr
  | ctorRightCopy conv right e hr => exact ctorEmplaceRight_invariant conv right e hr
  | ctorRightMove conv right e hr =>
    exact ctorEmplaceRight_invariant (fun v => some (conv v)) right e hr
  | ctorCopy that that' e _ hr ih => exact (ctorCopy_invariant opsL opsR that that' e ih hr).2
  | ctorCopySource that that' e _ hr ih =>
    exact (ctorCopy_invariant opsL opsR that that' e ih hr).1
  | ctorMove that that' e _ hr ih => exact (ctorMove_invariant opsL opsR that that' e ih hr).2
  | ctorMoveSource that that' e _ hr ih =>
    exact (ctorMove_invariant opsL opsR that that' e ih hr).1
  | assignMove this that this' that' _ _ hr ih1 ih2 =>
    exact (assignMove_invariant opsL opsR this that this' that' ih1 ih2 hr).1
  | assignMoveSource this that this' that' _ _ hr ih1 ih2 =>
    exact (assignMove_invariant opsL opsR this that this' that' ih1 ih2 hr).2
  | assignMoveSelf this this' _ hr ih =>
    exact assignMoveSelf_invariant opsL opsR this this' ih hr
  | assignCopy this that this' that' _ _ hr ih1 ih2 =>
    exact (assignCopy_invariant opsL opsR this that this' that' ih1 ih2 hr).1
  | assignCopySource this that this' that' _ _ hr ih1 ih2 =>
    exact (assignCopy_invariant opsL opsR this that this' that' ih1 ih2 hr).2
  | assignCopySelf this this' _ hr ih =>
    exact assignCopySelf_invariant opsL opsR this this' ih hr
  | swap this that this' that' _ _ hr ih1 ih2 =>
    exact (swap_invariant opsL opsR this that this' that' ih1 ih2 hr).1
  | swapOther this that this' that' _ _ hr ih1 ih2 =>
    exact (swap_invariant opsL opsR this that this' that' ih1 ih2 hr).2
  | swapSelf this this' _ hr ih => exact swapSelf_invariant opsL opsR this this' ih hr
  | emplaceLeft ctor a e e' v _ hr ih => exact emplaceLeft_invariant opsL ctor a e e' v ih hr
  | emplaceRight ctor a e e' v _ hr ih => exact emplaceRight_invariant opsR ctor a e e' v ih hr
  | assignLeftMove left e e' _ hr ih =>
    rw [assignLeftMove_eq_discard] at hr
    obtain ⟨v, hv⟩ := Outcome.discard_eq_returned _ e' hr
    exact emplaceLeft_invariant opsL _ left e e' v ih hv
  | assignLeftCopy left e e' _ hr ih =>
    rw [assignLeftCopy_eq_discard] at hr
    obtain ⟨v, hv⟩ := Outcome.discard_eq_returned _ e' hr
    exact emplaceLeft_invariant opsL _ left e e' v ih hv
  | assignRightMove conv right e e' _ hr ih =>
    rw [assignRightMove_eq_discard] at hr
    obtain ⟨v, hv⟩ := Outcome.discard_eq_returned _ e' hr
    exact emplaceRight_invariant opsR _ right e e' v ih hv
  | assignRightCopy conv right e e' _ hr ih =>
    rw [assignRightCopy_eq_discard] at hr
    obtain ⟨v, hv⟩ := Outcome.discard_eq_returned _ e' hr
    exact emplaceRight_invariant opsR _ right e e' v ih hv

end Either

theorem ValueOps.trivial_lawful (T : Type) : (ValueOps.trivial T).Lawful where
  copyConstruct_eq := by intro v w h; simp [ValueOps.trivial] at h; exact h.symm
  moveConstruct_fst := by intro v; rfl
  copyAssign_fst := by intro d s _; rfl
  moveAssign_fst := by intro d s; rfl
  swap_eq := by intro a b; rfl
  copyAssignSelf_fst := by intro v _; rfl
  swapSelf_eq := by intro v; rfl

theorem ValueOps.trivial_noThrow (T : Type) : (ValueOps.trivial T).NoThrow where
  copyConstruct_isSome := by intro v; rfl
  copyAssign_snd := by intro d s; rfl
  copyAssignSelf_snd := by intro v; rfl

theorem ValueOps.throwingCopy_lawful {T : Type} (hollow : T) :
    (ValueOps.throwingCopy hollow).Lawful where
  copyConstruct_eq := by intro v w h; simp [ValueOps.throwingCopy] at h
  moveConstruct_fst := by intro v; rfl
  copyAssign_fst := by intro d s h; simp [ValueOps.throwingCopy] at h
  moveAssign_fst := by intro d s; rfl
  swap_eq := by intro a b; rfl
  copyAssignSelf_fst := by intro v h; simp [ValueOps.throwingCopy] at h
  swapSelf_eq := by intro v; rfl

theorem ValueOps.vectorLike_lawful : ValueOps.vectorLike.Lawful where
  copyConstruct_eq := by intro v w h; simp [ValueOps.vectorLike] at h; exact h.symm
  moveConstruct_fst := by intro v; rfl
  copyAssign_fst := by intro d s _; rfl
  moveAssign_fst := by intro d s; rfl
  swap_eq := by intro a b; rfl
  copyAssignSelf_fst := by intro v _; rfl
  swapSelf_eq := by intro v; rfl

theorem ValueOps.Lawful.copyConstruct_eq_some {T : Type} {ops : ValueOps T} (h : ops.Lawful)
    (v : T) (hv : ops.copyConstruct v ≠ none) : ops.copyConstruct v = some v := by
  cases hc : ops.copyConstruct v with
  | none => exact absurd hc hv
  | some w => rw [h.copyConstruct_eq v w hc]

theorem ValueOps.Lawful.moveConstruct_eq_some {T : Type} {ops : ValueOps T} (h : ops.Lawful)
    (v : T) : (fun x => some (ops.moveConstruct x).1) v = some v := by
  simp [h.moveConstruct_fst]

namespace Either

variable {L R : Type}

/-! ### Assignment between two objects, on well-formed operands -/

theorem assignCopy_returned (opsL : ValueOps L) (opsR : ValueOps R) (hL : opsL.Lawful)
    (hR : opsR.Lawful) (hnL : opsL.NoThrow) (hnR : opsR.NoThrow) (a b : Either L R)
    (ha : a.invariant = true) (hb : b.invariant = true) :
    a.assignCopy opsL opsR b = Outcome.returned (b, b) () := by
  rcases a with ⟨_ | _, ⟨_ | l, _ | r⟩⟩ <;>
    simp [invariant, leftLive, rightLive, hasLeft] at ha <;>
  rcases b with ⟨_ | _, ⟨_ | l', _ | r'⟩⟩ <;>
    simp [invariant, leftLive, rightLive, hasLeft] at hb
  · have h1 := hnR.copyAssign_snd r r'
    simp [assignCopy, h1, Storage.setRight, hR.copyAssign_fst r r' h1]
  · have h1 := hL.copyConstruct_eq_some l' (by
      have := hnL.copyConstruct_isSome l'
      intro h; simp [h] at this)
    simp [assignCopy, Storage.destroyRight, Storage.newLeft, h1]
  · have h1 := hR.copyConstruct_eq_some r' (by
      have := hnR.copyConstruct_isSome r'
      intro h; simp [h] at this)
    simp [assignCopy, Storage.destroyLeft, Storage.newRight, h1]
  · have h1 := hnL.copyAssign_snd l l'
    simp [assignCopy, h1, Storage.setLeft, hL.copyAssign_fst l l' h1]

theorem assignCopySelf_returned (opsL : ValueOps L) (opsR : ValueOps R) (hL : opsL.Lawful)
    (hR : opsR.Lawful) (hnL : opsL.NoThrow) (hnR : opsR.NoThrow) (a : Either L R)
    (ha : a.invariant = true) :
    a.assignCopySelf opsL opsR = Outcome.returned a () := by
  rcases a with ⟨_ | _, ⟨_ | l, _ | r⟩⟩ <;>
    simp [invariant, leftLive, rightLive, hasLeft] at ha
  · have h1 := hnR.copyAssignSelf_snd r
    simp [assignCopySelf, h1, Storage.setRight, hR.copyAssignSelf_fst r h1]
  · have h1 := hnL.copyAssignSelf_snd l
    simp [assignCopySelf, h1, Storage.setLeft, hL.copyAssignSelf_fst l h1]

theorem assignCopy_of_returned (opsL : ValueOps L) (opsR : ValueOps R) (hL : opsL.Lawful)
    (hR : opsR.Lawful) (a b : Either L R) (ha : a.invariant = true)
    (hb : b.invariant = true) (a' b' : Either L R)
    (h : a.assignCopy opsL opsR b = Outcome.returned (a', b') ()) : a' = b ∧ b' = b := by
  rcases a with ⟨_ | _, ⟨_ | l, _ | r⟩⟩ <;>
    simp [invariant, leftLive, rightLive, hasLeft] at ha <;>
  rcases b with ⟨_ | _, ⟨_ | l', _ | r'⟩⟩ <;>
    simp [invariant, leftLive, rightLive, hasLeft] at hb
  · by_cases hp : (opsR.copyAssign r r').2 = true
    · simp [assignCopy, hp] at h
    · have hp' : (opsR.copyAssign r r').2 = false := by simpa using hp
      simp only [assignCopy, hp', Storage.setRight, Bool.false_eq_true, if_false,
        Outcome.returned.injEq, Prod.mk.injEq, and_true] at h
      rw [hR.copyAssign_fst r r' hp'] at h
      exact ⟨h.1.symm, h.2.symm⟩
  · cases hc : opsL.copyConstruct l' with
    | none => simp [assignCopy, Storage.destroyRight, hc] at h
    | some v =>
      have hv := hL.copyConstruct_eq l' v hc
      subst hv
      simp only [assignCopy, Storage.destroyRight, Storage.newLeft, hc, if_true,
        Bool.false_eq_true, if_false, Outcome.returned.injEq, Prod.mk.injEq, and_true] at h
      exact ⟨h.1.symm, h.2.symm⟩
  · cases hc : opsR.copyConstruct r' with
    | none => simp [assignCopy, Storage.destroyLeft, hc] at h
    | some v =>
      have hv := hR.copyConstruct_eq r' v hc
      subst hv
      simp only [assignCopy, Storage.destroyLeft, Storage.newRight, hc, if_true,
        Bool.false_eq_true, if_false, Outcome.returned.injEq, Prod.mk.injEq, and_true] at h
      exact ⟨h.1.symm, h.2.symm⟩
  · by_cases hp : (opsL.copyAssign l l').2 = true
    · simp [assignCopy, hp] at h
    · have hp' : (opsL.copyAssign l l').2 = false := by simpa using hp
      simp only [assignCopy, hp', Storage.setLeft, if_true, Bool.false_eq_true, if_false,
        Outcome.returned.injEq, Prod.mk.injEq, and_true] at h
      rw [hL.copyAssign_fst l l' hp'] at h
      exact ⟨h.1.symm, h.2.symm⟩

theorem assignCopy_threw_that (opsL : ValueOps L) (opsR : ValueOps R) (a b : Either L R)
    (a' b' : Either L R) (h : a.assignCopy opsL opsR b = Outcome.threw (a', b')) :
    b' = b := by
  unfold assignCopy at h
  dsimp only at h
  repeat' split at h
  all_goals first
    | (simp only [Outcome.threw.injEq, Prod.mk.injEq] at h; exact h.2.symm)
    | exact Outcome.noConfusion h

theorem assignCopySelf_of_returned (opsL : ValueOps L) (opsR : ValueOps R)
    (hL : opsL.Lawful) (hR : opsR.Lawful) (a : Either L R) (ha : a.invariant = true)
    (a' : Either L R) (h : a.assignCopySelf opsL opsR = Outcome.returned a' ()) :
    a' = a := by
  rcases a with ⟨_ | _, ⟨_ | l, _ | r⟩⟩ <;>
    simp [invariant, leftLive, rightLive, hasLeft] at ha
  · by_cases hp : (opsR.copyAssignSelf r).2 = true
    · simp [assignCopySelf, hp] at h
    · have hp' : (opsR.copyAssignSelf r).2 = false := by simpa using hp
      simp only [assignCopySelf, hp', Storage.setRight, Bool.false_eq_true, if_false,
        Outcome.returned.injEq, and_true] at h
      rw [hR.copyAssignSelf_fst r hp'] at h
      exact h.symm
  · by_cases hp : (opsL.copyAssignSelf l).2 = true
    · simp [assignCopySelf, hp] at h
    · have hp' : (opsL.copyAssignSelf l).2 = false := by simpa using hp
      simp only [assignCopySelf, hp', Storage.setLeft, if_true, Bool.false_eq_true, if_false,
        Outcome.returned.injEq, and_true] at h
      rw [hL.copyAssignSelf_fst l hp'] at h
      exact h.symm

theorem assignMove_returned (opsL : ValueOps L) (opsR : ValueOps R) (hL : opsL.Lawful)
    (hR : opsR.Lawful) (a b : Either L R) (ha : a.invariant = true)
    (hb : b.invariant = true) :
    ∃ b' : Either L R, a.assignMove opsL opsR b = Outcome.returned (b, b') () ∧
      b'.hasLeft = b.hasLeft ∧ b'.invariant = true := by
  rcases a with ⟨_ | _, ⟨_ | l, _ | r⟩⟩ <;>
    simp [invariant, leftLive, rightLive, hasLeft] at ha <;>
  rcases b with ⟨_ | _, ⟨_ | l', _ | r'⟩⟩ <;>
    simp [invariant, leftLive, rightLive, hasLeft] at hb <;>
    simp [assignMove, Storage.destroyLeft, Storage.destroyRight, Storage.newLeft,
      Storage.newRight, Storage.setLeft, Storage.setRight, hL.moveAssign_fst,
      hR.moveAssign_fst, hL.moveConstruct_fst, hR.moveConstruct_fst, hasLeft, invariant,
      leftLive, rightLive]

theorem assignMoveSelf_returned (opsL : ValueOps L) (opsR : ValueOps R) (a : Either L R)
    (ha : a.invariant = true) :
    a.assignMoveSelf opsL opsR = Outcome.returned
      ⟨a.m_hasLeft, ⟨a.m_storage.u_left.map opsL.moveAssignSelf,
        a.m_storage.u_right.map opsR.moveAssignSelf⟩⟩ () := by
  rcases a with ⟨_ | _, ⟨_ | l, _ | r⟩⟩ <;>
    simp [invariant, leftLive, rightLive, hasLeft] at ha <;>
    simp [assignMoveSelf, Storage.setLeft, Storage.setRight]

end Either

namespace Either

variable {L R : Type}

/-! ### Which alternative the result of an operation holds -/

theorem ctorCopy_hasLeft (opsL : ValueOps L) (opsR : ValueOps R) (that that' e : Either L R)
    (hr : that.ctorCopy opsL opsR = Outcome.returned that' e) : e.hasLeft = that.hasLeft := by
  rcases that with ⟨_ | _, ⟨_ | l, _ | r⟩⟩ <;> simp [ctorCopy] at hr <;>
    (split at hr) <;> simp_all [hasLeft] <;> (obtain ⟨_, rfl⟩ := hr; rfl)

theorem ctorMove_hasLeft (opsL : ValueOps L) (opsR : ValueOps R) (that that' e : Either L R)
    (hr : that.ctorMove opsL opsR = Outcome.returned that' e) : e.hasLeft = that.hasLeft := by
  rcases that with ⟨_ | _, ⟨_ | l, _ | r⟩⟩ <;> simp [ctorMove] at hr <;>
    (obtain ⟨_, rfl⟩ := hr; rfl)

theorem assignCopy_hasLeft (opsL : ValueOps L) (opsR : ValueOps R) (a b a' b' : Either L R)
    (hr : a.assignCopy opsL opsR b = Outcome.returned (a', b') ()) :
    a'.hasLeft = b.hasLeft := by
  rcases a with ⟨_ | _, ⟨_ | l, _ | r⟩⟩ <;> rcases b with ⟨_ | _, ⟨_ | l', _ | r'⟩⟩ <;>
    simp [assignCopy, Storage.destroyLeft, Storage.destroyRight] at hr <;>
    (try split at hr) <;> simp_all [hasLeft] <;> (obtain ⟨rfl, _⟩ := hr; rfl)

theorem assignMove_hasLeft (opsL : ValueOps L) (opsR : ValueOps R) (a b a' b' : Either L R)
    (hr : a.assignMove opsL opsR b = Outcome.returned (a', b') ()) :
    a'.hasLeft = b.hasLeft := by
  rcases a with ⟨_ | _, ⟨_ | l, _ | r⟩⟩ <;> rcases b with ⟨_ | _, ⟨_ | l', _ | r'⟩⟩ <;>
    simp [assignMove, Storage.destroyLeft, Storage.destroyRight] at hr <;>
    (obtain ⟨rfl, _⟩ := hr; rfl)

theorem swap_hasLeft (opsL : ValueOps L) (opsR : ValueOps R) (a b a' b' : Either L R)
    (hr : a.swap opsL opsR b = Outcome.returned (a', b') ()) :
    a'.hasLeft = b.hasLeft ∧ b'.hasLeft = a.hasLeft := by
  rcases a with ⟨_ | _, ⟨_ | l, _ | r⟩⟩ <;> rcases b with ⟨_ | _, ⟨_ | l', _ | r'⟩⟩ <;>
    simp [Either.swap, Storage.destroyLeft, Storage.destroyRight, Storage.setLeft,
      Storage.setRight, Storage.newLeft, Storage.newRight] at hr <;>
    (obtain ⟨rfl, rfl⟩ := hr; exact ⟨rfl, rfl⟩)

theorem ctorEmplaceLeft_hasLeft {A : Type} (ctor : A → Option L) (a : A) (e : Either L R)
    (hr : Either.ctorEmplaceLeft ctor a = some e) : e.hasLeft = true := by
  simp only [ctorEmplaceLeft, Storage.emplaceLeft] at hr
  cases hc : ctor a <;> simp [hc] at hr
  subst hr
  rfl

theorem emplaceLeft_hasLeft {A : Type} (opsL : ValueOps L) (ctor : A → Option L) (a : A)
    (e e' : Either L R) (v : L) (hr : e.emplaceLeft opsL ctor a = Outcome.returned e' v) :
    e'.hasLeft = true := by
  rcases e with ⟨_ | _, ⟨_ | l, _ | r⟩⟩ <;>
    simp [emplaceLeft, Storage.destroyRight] at hr <;>
    (try split at hr) <;> simp_all [hasLeft] <;> (obtain ⟨rfl, _⟩ := hr; rfl)

end Either

/-! ### Instrumented callables -/

theorem invocations_counted {σ β : Type} (f : σ → Outcome σ β) (n : Nat) (s : σ)
    (h : f s ≠ Outcome.undefined) : invocations (counted f (n, s)) = some (n + 1) := by
  cases hf : f s <;> simp_all [invocations, counted, Outcome.state?]

theorem invocations_uncounted {σ β : Type} (f : σ → Outcome σ β) (n : Nat) (s : σ)
    (h : f s ≠ Outcome.undefined) : invocations (uncounted f (n, s)) = some n := by
  cases hf : f s <;> simp_all [invocations, uncounted, Outcome.state?]

theorem invocations_wrapLeft {σ U V : Type} (opsU : ValueOps U) (o : Outcome (Nat × σ) U) :
    invocations (Either.wrapLeft opsU o : Outcome (Nat × σ) (Either U V)) = invocations o := by
  cases o <;> simp [invocations, Either.wrapLeft, Either.ctorEmplaceLeft, Storage.emplaceLeft,
    Outcome.state?]

theorem invocations_wrapRight {σ U V : Type} (opsV : ValueOps V) (o : Outcome (Nat × σ) V) :
    invocations (Either.wrapRight opsV o : Outcome (Nat × σ) (Either U V)) = invocations o := by
  cases o <;> simp [invocations, Either.wrapRight, Either.ctorEmplaceRight,
    Storage.emplaceRight, Outcome.state?]

theorem wrapLeft_returned {σ U V : Type} (opsU : ValueOps U) (hU : opsU.Lawful) (s : σ)
    (u : U) :
    (Either.wrapLeft opsU (Outcome.returned s u) : Outcome σ (Either U V))
      = Outcome.returned s ⟨true, ⟨some u, none⟩⟩ := by
  simp [Either.wrapLeft, Either.ctorEmplaceLeft, Storage.emplaceLeft, hU.moveConstruct_fst]

theorem wrapRight_returned {σ U V : Type} (opsV : ValueOps V) (hV : opsV.Lawful) (s : σ)
    (v : V) :
    (Either.wrapRight opsV (Outcome.returned s v) : Outcome σ (Either U V))
      = Outcome.returned s ⟨false, ⟨none, some v⟩⟩ := by
  simp [Either.wrapRight, Either.ctorEmplaceRight, Storage.emplaceRight,
    hV.moveConstruct_fst]

/-! ### Grid arithmetic -/

namespace DimensionsUtils

theorem foldl_wrapMul_modEq (g : Nat → Nat) :
    ∀ (l : List Nat) (a : Nat),
      l.foldl (fun acc i => wrapSize (acc * g i)) a ≡ a * (l.map g).prod [MOD sizeModulus]
  | [], a => by simp [Nat.ModEq.refl]
  | x :: xs, a => by
    simp only [List.foldl_cons, List.map_cons, List.prod_cons]
    refine (foldl_wrapMul_modEq g xs _).trans ?_
    rw [← Nat.mul_assoc]
    exact (Nat.mod_modEq _ _).mul_right _

theorem foldl_wrapAdd_modEq (g h : Nat → Nat) (hgh : ∀ d, g d ≡ h d [MOD sizeModulus]) :
    ∀ (l : List Nat) (a : Nat),
      l.foldl (fun acc d => wrapSize (acc + g d)) a ≡ a + (l.map h).sum [MOD sizeModulus]
  | [], a => by simp [Nat.ModEq.refl]
  | x :: xs, a => by
    simp only [List.foldl_cons, List.map_cons, List.sum_cons]
    refine (foldl_wrapAdd_modEq g h hgh xs _).trans ?_
    rw [← Nat.add_assoc]
    exact ((Nat.mod_modEq _ _).trans ((Nat.ModEq.refl a).add (hgh x))).add_right _

theorem foldl_wrapMul_lt (g : Nat → Nat) :
    ∀ (l : List Nat) (a : Nat), a < sizeModulus →
      l.foldl (fun acc i => wrapSize (acc * g i)) a < sizeModulus
  | [], _, ha => by simpa using ha
  | x :: xs, a, _ => by
    simp only [List.foldl_cons]
    exact foldl_wrapMul_lt g xs _ (Nat.mod_lt _ (by decide))

theorem foldl_wrapAdd_lt (g : Nat → Nat) :
    ∀ (l : List Nat) (a : Nat), a < sizeModulus →
      l.foldl (fun acc d => wrapSize (acc + g d)) a < sizeModulus
  | [], _, ha => by simpa using ha
  | x :: xs, a, _ => by
    simp only [List.foldl_cons]
    exact foldl_wrapAdd_lt g xs _ (Nat.mod_lt _ (by decide))

theorem prod_map_range (f : Nat → Nat) (n : Nat) :
    ((List.range n).map f).prod = ∏ i in Finset.range n, f i := by
  induction n with
  | zero => simp
  | succ n ih => rw [List.prod_range_succ, Finset.prod_range_succ, ih]

theorem sum_map_range (f : Nat → Nat) (n : Nat) :
    ((List.range n).map f).sum = ∑ i in Finset.range n, f i := by
  induction n with
  | zero => simp
  | succ n ih => rw [List.sum_range_succ, Finset.sum_range_succ, ih]

theorem prod_eq_prod_range :
    ∀ dimensions : List Nat,
      dimensions.prod = ∏ i in Finset.range dimensions.length, dimensions.getD i 0
  | [] => by simp
  | x :: xs => by
    rw [List.length_cons, Finset.prod_range_succ', List.prod_cons, prod_eq_prod_range xs]
    simp [Nat.mul_comm]

theorem calcSize_modEq (dimensions : List Nat) :
    calcSize dimensions ≡ dimensions.prod [MOD sizeModulus] := by
  have h := foldl_wrapMul_modEq id dimensions 1
  simpa [calcSize] using h

theorem calcSize_lt (dimensions : List Nat) : calcSize dimensions < sizeModulus :=
  foldl_wrapMul_lt id dimensions 1 (by decide)

theorem calcSize_eq_prod (dimensions : List Nat) (h : dimensions.prod < sizeModulus) :
    calcSize dimensions = dimensions.prod := by
  have h1 := calcSize_modEq dimensions
  rwa [Nat.ModEq, Nat.mod_eq_of_lt (calcSize_lt dimensions), Nat.mod_eq_of_lt h] at h1

theorem localOffset_modEq (dimensions coordinates : List Nat) (d : Nat) :
    localOffset dimensions coordinates d ≡
      coordinates.getD d 0 * ∏ i in Finset.range d, dimensions.getD i 0 [MOD sizeModulus] := by
  have h := foldl_wrapMul_modEq (fun i => dimensions.getD i 0) (List.range d)
    (coordinates.getD d 0)
  rwa [prod_map_range] at h

theorem calcLinearIndex_modEq (dimensions coordinates : List Nat) (hN : dimensions ≠ []) :
    calcLinearIndex dimensions coordinates ≡ linearFormula dimensions coordinates
      [MOD sizeModulus] := by
  have h := foldl_wrapAdd_modEq (localOffset dimensions coordinates)
    (fun d => coordinates.getD d 0 * ∏ i in Finset.range d, dimensions.getD i 0)
    (localOffset_modEq dimensions coordinates) (List.range' 1 (dimensions.length - 1))
    (coordinates.getD 0 0)
  have hlen : dimensions.length = (dimensions.length - 1) + 1 := by
    have := List.length_pos.mpr hN
    omega
  unfold calcLinearIndex linearFormula
  refine h.trans ?_
  rw [hlen, Finset.sum_range_succ', List.range'_eq_map_range, List.map_map, sum_map_range]
  simp only [Function.comp, Nat.add_comm 1, Finset.range_zero, Finset.prod_empty, Nat.mul_one,
    Nat.add_comm (coordinates.getD 0 0)]
  exact Nat.ModEq.refl _

theorem isInRange_iff (dimensions coordinates : List Nat) :
    isInRange dimensions coordinates = true ↔
      ∀ d, d < dimensions.length → coordinates.getD d 0 < dimensions.getD d 0 := by
  simp [isInRange, List.all_eq_true]

/-- The mixed-radix value of the first `N` digits. -/
theorem radix_lt (n c : Nat → Nat) :
    ∀ N, (∀ d, d < N → c d < n d) →
      (∑ d in Finset.range N, c d * ∏ i in Finset.range d, n i) < ∏ i in Finset.range N, n i
  | 0, _ => by simp
  | N + 1, h => by
    rw [Finset.sum_range_succ, Finset.prod_range_succ]
    have ih := radix_lt n c N (fun d hd => h d (Nat.lt_succ_of_lt hd))
    have hN := h N (Nat.lt_succ_self N)
    calc _ < (∏ i in Finset.range N, n i) + c N * ∏ i in Finset.range N, n i := by omega
      _ = (c N + 1) * ∏ i in Finset.range N, n i := by ring
      _ ≤ (∏ i in Finset.range N, n i) * n N := by
        rw [Nat.mul_comm]; exact Nat.mul_le_mul_left _ hN

theorem radix_inj (n c c' : Nat → Nat) :
    ∀ N, (∀ d, d < N → c d < n d) → (∀ d, d < N → c' d < n d) →
      (∑ d in Finset.range N, c d * ∏ i in Finset.range d, n i) =
        (∑ d in Finset.range N, c' d * ∏ i in Finset.range d, n i) →
      ∀ d, d < N → c d = c' d
  | 0, _, _, _ => fun d hd => absurd hd (Nat.not_lt_zero d)
  | N + 1, h, h', heq => by
    rw [Finset.sum_range_succ, Finset.sum_range_succ] at heq
    have b := radix_lt n c N (fun d hd => h d (Nat.lt_succ_of_lt hd))
    have b' := radix_lt n c' N (fun d hd => h' d (Nat.lt_succ_of_lt hd))
    have hmod := congrArg (· % ∏ i in Finset.range N, n i) heq
    simp only [Nat.add_mul_mod_self_right, Nat.mod_eq_of_lt b, Nat.mod_eq_of_lt b'] at hmod
    have hpos : 0 < ∏ i in Finset.range N, n i := Nat.lt_of_le_of_lt (Nat.zero_le _) b
    have hq : c N = c' N := by
      rw [hmod] at heq
      exact Nat.eq_of_mul_eq_mul_right hpos (Nat.add_left_cancel heq)
    intro d hd
    rcases Nat.lt_succ_iff_lt_or_eq.mp hd with hlt | rfl
    · exact radix_inj n c c' N (fun d hd => h d (Nat.lt_succ_of_lt hd))
        (fun d hd => h' d (Nat.lt_succ_of_lt hd)) hmod d hlt
    · exact hq

theorem linearFormula_lt (dimensions coordinates : List Nat)
    (h : isInRange dimensions coordinates = true) :
    linearFormula dimensions coordinates < dimensions.prod := by
  rw [prod_eq_prod_range]
  exact radix_lt _ _ _ ((isInRange_iff _ _).mp h)

theorem calcLinearIndex_eq_linearFormula (dimensions coordinates : List Nat)
    (hN : dimensions ≠ []) (hno : dimensions.prod ≤ sizeModulus)
    (h : isInRange dimensions coordinates = true) :
    calcLinearIndex dimensions coordinates = linearFormula dimensions coordinates := by
  have hf := linearFormula_lt dimensions coordinates h
  have h0 : coordinates.getD 0 0 < sizeModulus := by
    have hle : coordinates.getD 0 0 * ∏ i in Finset.range 0, dimensions.getD i 0 ≤
        linearFormula dimensions coordinates :=
      Finset.single_le_sum
        (f := fun d => coordinates.getD d 0 * ∏ i in Finset.range d, dimensions.getD i 0)
        (fun _ _ => Nat.zero_le _) (Finset.mem_range.mpr (List.length_pos.mpr hN))
    simp only [Finset.range_zero, Finset.prod_empty, Nat.mul_one] at hle
    omega
  have hlt : calcLinearIndex dimensions coordinates < sizeModulus :=
    foldl_wrapAdd_lt _ _ _ h0
  have hm := calcLinearIndex_modEq dimensions coordinates hN
  rwa [Nat.ModEq, Nat.mod_eq_of_lt hlt, Nat.mod_eq_of_lt (by omega)] at hm

theorem linearFormula_inj (dimensions c1 c2 : List Nat)
    (hl1 : c1.length = dimensions.length) (hl2 : c2.length = dimensions.length)
    (h1 : isInRange dimensions c1 = true) (h2 : isInRange dimensions c2 = true)
    (heq : linearFormula dimensions c1 = linearFormula dimensions c2) : c1 = c2 := by
  have h := radix_inj (fun i => dimensions.getD i 0) (fun i => c1.getD i 0)
    (fun i => c2.getD i 0) dimensions.length ((isInRange_iff _ _).mp h1)
    ((isInRange_iff _ _).mp h2) heq
  apply List.ext_getElem (hl1.trans hl2.symm)
  intro i hi1 hi2
  have hi := h i (hl1 ▸ hi1)
  simp only at hi
  rwa [List.getD_eq_getElem _ _ hi1, List.getD_eq_getElem _ _ hi2] at hi

end DimensionsUtils

theorem IndexedCoordinates.le_eq_not_lt (a b : IndexedCoordinates) :
    a.le b = !b.lt a := by
  simp only [IndexedCoordinates.le, IndexedCoordinates.lt]
  by_cases h : b.m_linearIndex < a.m_linearIndex
  · have h' : ¬ a.m_linearIndex ≤ b.m_linearIndex := Nat.not_le.mpr h
    simp [h, h']
  · have h' : a.m_linearIndex ≤ b.m_linearIndex := Nat.not_lt.mp h
    simp [h, h']

namespace Grid

variable {V : Type}

theorem length_resize (dflt : V) (xs : List V) (n : Nat) : (resize dflt xs n).length = n := by
  simp only [resize, List.length_append, List.length_take, List.length_replicate]
  omega

theorem resize_length (dflt : V) (xs : List V) : resize dflt xs xs.length = xs := by
  simp [resize]

/-- Every dimension-taking constructor stores `calcSize(dimensions)` elements and the
requested dimensions, then runs the common last statement. -/
theorem built_shape (dflt value : V) (dimensions : List Nat) (list range : List V) (g : Grid V)
    (hg : g = ctorDimensions dflt dimensions ∨ g = ctorValue dimensions value ∨
      g = ctorList dflt dimensions list ∨ g = ctorRange dflt dimensions range) :
    ∃ arr : List V, arr.length = DimensionsUtils.calcSize dimensions ∧
      g = fillIfEmpty ⟨arr, dimensions⟩ := by
  rcases hg with rfl | rfl | rfl | rfl
  · exact ⟨_, List.length_replicate _ _, rfl⟩
  · exact ⟨_, List.length_replicate _ _, rfl⟩
  · exact ⟨_, length_resize _ _ _, rfl⟩
  · exact ⟨_, length_resize _ _ _, rfl⟩

theorem fillIfEmpty_of_zero_mem (arr : List V) (dimensions : List Nat)
    (hlen : arr.length = DimensionsUtils.calcSize dimensions)
    (hno : dimensions.prod < sizeModulus) (h0 : 0 ∈ dimensions) :
    fillIfEmpty ⟨arr, dimensions⟩ = ⟨[], List.replicate dimensions.length 0⟩ := by
  have hp : dimensions.prod = 0 := List.prod_eq_zero_iff.mpr h0
  rw [DimensionsUtils.calcSize_eq_prod dimensions hno, hp] at hlen
  have harr : arr = [] := List.length_eq_zero.mp hlen
  subst harr
  simp [fillIfEmpty]

theorem fillIfEmpty_of_zero_not_mem (arr : List V) (dimensions : List Nat)
    (hlen : arr.length = DimensionsUtils.calcSize dimensions)
    (hno : dimensions.prod < sizeModulus) (h0 : 0 ∉ dimensions) :
    fillIfEmpty ⟨arr, dimensions⟩ = ⟨arr, dimensions⟩ := by
  have hp : dimensions.prod ≠ 0 := fun h => h0 (List.prod_eq_zero_iff.mp h)
  rw [DimensionsUtils.calcSize_eq_prod dimensions hno] at hlen
  have harr : arr ≠ [] := fun h => hp (by rw [← hlen, h]; rfl)
  cases arr with
  | nil => exact absurd rfl harr
  | cons x xs => simp [fillIfEmpty]

theorem built_size (arr : List V) (dimensions : List Nat)
    (hlen : arr.length = DimensionsUtils.calcSize dimensions)
    (hno : dimensions.prod < sizeModulus) :
    (fillIfEmpty ⟨arr, dimensions⟩).size = (fillIfEmpty ⟨arr, dimensions⟩).m_dimensions.prod ∧
      (fillIfEmpty ⟨arr, dimensions⟩).m_dimensions.prod < sizeModulus ∧
      (fillIfEmpty ⟨arr, dimensions⟩).m_dimensions.length = dimensions.length := by
  by_cases h0 : 0 ∈ dimensions
  · rw [fillIfEmpty_of_zero_mem arr dimensions hlen hno h0]
    have hpos : dimensions.length ≠ 0 := by
      intro h
      rw [List.length_eq_zero.mp h] at h0
      exact absurd h0 (List.not_mem_nil 0)
    simp [size, List.prod_replicate, hpos, sizeModulus]
  · rw [fillIfEmpty_of_zero_not_mem arr dimensions hlen hno h0]
    exact ⟨by simp [size, hlen, DimensionsUtils.calcSize_eq_prod dimensions hno], hno, rfl⟩

/-- Access by in-range coordinates to a grid whose array has as many elements as the product
of its dimensions. -/
theorem access_in_range (traits : GridRequireTraits) (g : Grid V) (coordinates : List Nat)
    (hN : g.m_dimensions ≠ []) (hsize : g.size = g.m_dimensions.prod)
    (hno : g.m_dimensions.prod ≤ sizeModulus) (h : g.isInRange coordinates = true) :
    DimensionsUtils.linearFormula g.m_dimensions coordinates < g.size ∧
      g.linearIndex traits coordinates =
        GridAccess.value (DimensionsUtils.linearFormula g.m_dimensions coordinates) ∧
      ∃ v, g.m_linearArray.get? (DimensionsUtils.linearFormula g.m_dimensions coordinates) =
          some v ∧
        g.subscript traits coordinates = GridAccess.value v ∧
        g.atCoordinates traits coordinates = GridAccess.value v := by
  have hlt : DimensionsUtils.linearFormula g.m_dimensions coordinates < g.size := by
    rw [hsize]
    exact DimensionsUtils.linearFormula_lt _ _ h
  have hcalc := DimensionsUtils.calcLinearIndex_eq_linearFormula g.m_dimensions coordinates
    hN hno h
  refine ⟨hlt, by simp [linearIndex, requireAccessElseThrow, h, hcalc], ?_⟩
  have hget : g.m_linearArray.get? (DimensionsUtils.linearFormula g.m_dimensions coordinates) =
      some (g.m_linearArray.get ⟨_, hlt⟩) := List.get?_eq_get hlt
  refine ⟨_, hget, ?_, ?_⟩ <;>
    simp only [atCoordinates, subscript, linearIndexUnchecked, subscriptLinear, requireAccess,
      requireAccessElseThrow, GridAccess.bind, isInRangeLinear, element, h, hcalc, hlt, hget,
      Bool.not_true, Bool.false_eq_true, if_false, decide_True]

end Grid

/-! ## The claims -/

namespace Either

variable {L R : Type}

/-- C1 (invariants I1 and I2): every `Either` produced by a constructor (tagged, converting,
copy, move, default) and then taken through any finite sequence of copy/move assignment,
raw-value assignment, `emplaceLeft`, `emplaceRight` and `swap`, each call returning
normally, has exactly one of the two storage alternatives live, and it is the one the
discriminant names: Left is live iff `hasLeft()`, Right is live iff `hasRight()`. -/
theorem reachable_exactly_one_live (opsL : ValueOps L) (opsR : ValueOps R) (e : Either L R)
    (h : Reachable opsL opsR e) :
    (e.leftLive != e.rightLive) = true ∧
      (e.leftLive = true ↔ e.hasLeft = true) ∧ (e.rightLive = true ↔ e.hasRight = true) := by
  have hi := h.invariant_eq_true
  rcases e with ⟨_ | _, ⟨_ | l, _ | r⟩⟩ <;>
    simp [invariant, leftLive, rightLive, hasLeft, hasRight] at hi ⊢

/-- Witness for C1: an `Either<Nat, Bool>` built as Left 5, switched to Right by
`emplaceRight(true)` and then swapped with a Left-holding object is reachable, and holds
exactly the alternative its discriminant names. -/
theorem reachable_exactly_one_live_witness :
    Reachable (ValueOps.trivial Nat) (ValueOps.trivial Bool)
        (⟨true, ⟨some 7, none⟩⟩ : Either Nat Bool) ∧
      ((⟨true, ⟨some 7, none⟩⟩ : Either Nat Bool).leftLive !=
          (⟨true, ⟨some 7, none⟩⟩ : Either Nat Bool).rightLive) = true ∧
      ((⟨true, ⟨some 7, none⟩⟩ : Either Nat Bool).leftLive = true ↔
          (⟨true, ⟨some 7, none⟩⟩ : Either Nat Bool).hasLeft = true) ∧
      ((⟨true, ⟨some 7, none⟩⟩ : Either Nat Bool).rightLive = true ↔
          (⟨true, ⟨some 7, none⟩⟩ : Either Nat Bool).hasRight = true) :=
  have h5 : Reachable (ValueOps.trivial Nat) (ValueOps.trivial Bool)
      (⟨true, ⟨some 5, none⟩⟩ : Either Nat Bool) :=
    Reachable.ctorEmplaceLeft (fun n : Nat => some n) 5 _ rfl
  have h7 : Reachable (ValueOps.trivial Nat) (ValueOps.trivial Bool)
      (⟨true, ⟨some 7, none⟩⟩ : Either Nat Bool) :=
    Reachable.ctorLeftCopy 7 _ rfl
  have hr : Reachable (ValueOps.trivial Nat) (ValueOps.trivial Bool)
      (⟨false, ⟨none, some true⟩⟩ : Either Nat Bool) :=
    Reachable.emplaceRight (fun b : Bool => some b) true _ _ true h5 rfl
  have hs : Reachable (ValueOps.trivial Nat) (ValueOps.trivial Bool)
      (⟨true, ⟨some 7, none⟩⟩ : Either Nat Bool) :=
    Reachable.swap _ _ _ ⟨false, ⟨none, some true⟩⟩ hr h7 rfl
  ⟨hs, reachable_exactly_one_live _ _ _ hs⟩

/-- C2 (single liveness as seen through the queries): in every state of an `Either`, and so
in every state reachable through any sequence of operations, `hasLeft() != hasRight()`:
the two are never both true and never both false. -/
theorem hasLeft_ne_hasRight (e : Either L R) :
    e.hasLeft ≠ e.hasRight ∧ ¬ (e.hasLeft = true ∧ e.hasRight = true) ∧
      ¬ (e.hasLeft = false ∧ e.hasRight = false) := by
  cases h : e.m_hasLeft <;> simp [hasLeft, hasRight, h]

/-- C3 (round trip construct/access): for every value, an `Either` constructed with the
`emplaceLeft` tag from it (by move, or by a copy that does not raise) exists, has
`hasLeft()` true and `accessLeft()` equal to the value; constructed with the `emplaceRight`
tag it has `hasRight()` true and `accessRight()` equal to the value. `L` and `R` are
arbitrary, so this includes `Left_` and `Right_` being the same type. -/
theorem tagged_ctor_roundtrip (opsL : ValueOps L) (opsR : ValueOps R) (hL : opsL.Lawful)
    (hR : opsR.Lawful) (traits : RequireTraits) (l : L) (r : R) :
    (∃ e : Either L R,
        Either.ctorEmplaceLeft (fun x => some (opsL.moveConstruct x).1) l = some e ∧
        e.hasLeft = true ∧ e.accessLeft traits = Access.value l) ∧
    (opsL.copyConstruct l ≠ none → ∃ e : Either L R,
        Either.ctorEmplaceLeft opsL.copyConstruct l = some e ∧
        e.hasLeft = true ∧ e.accessLeft traits = Access.value l) ∧
    (∃ e : Either L R,
        Either.ctorEmplaceRight (fun x => some (opsR.moveConstruct x).1) r = some e ∧
        e.hasRight = true ∧ e.accessRight traits = Access.value r) ∧
    (opsR.copyConstruct r ≠ none → ∃ e : Either L R,
        Either.ctorEmplaceRight opsR.copyConstruct r = some e ∧
        e.hasRight = true ∧ e.accessRight traits = Access.value r) := by
  refine ⟨⟨⟨true, ⟨some l, none⟩⟩, ?_, rfl, accessLeft_of_left traits l none⟩, fun h =>
    ⟨⟨true, ⟨some l, none⟩⟩, ?_, rfl, accessLeft_of_left traits l none⟩,
    ⟨⟨false, ⟨none, some r⟩⟩, ?_, rfl, accessRight_of_right traits r none⟩, fun h =>
    ⟨⟨false, ⟨none, some r⟩⟩, ?_, rfl, accessRight_of_right traits r none⟩⟩
  · simp [ctorEmplaceLeft, Storage.emplaceLeft, hL.moveConstruct_fst]
  · simp [ctorEmplaceLeft, Storage.emplaceLeft, hL.copyConstruct_eq_some l h]
  · simp [ctorEmplaceRight, Storage.emplaceRight, hR.moveConstruct_fst]
  · simp [ctorEmplaceRight, Storage.emplaceRight, hR.copyConstruct_eq_some r h]

/-- Witness for C3 with `Left_` and `Right_` the same type, under the default policy: by
move and by copy, Left 2 and Right 9. -/
theorem tagged_ctor_roundtrip_witness :
    (∃ e : Either Nat Nat,
        Either.ctorEmplaceLeft (fun x => some ((ValueOps.trivial Nat).moveConstruct x).1) 2
          = some e ∧
        e.hasLeft = true ∧ e.accessLeft DefaultEitherRequireTraits = Access.value 2) ∧
    (∃ e : Either Nat Nat,
        Either.ctorEmplaceLeft (ValueOps.trivial Nat).copyConstruct 2 = some e ∧
        e.hasLeft = true ∧ e.accessLeft DefaultEitherRequireTraits = Access.value 2) ∧
    (∃ e : Either Nat Nat,
        Either.ctorEmplaceRight (fun x => some ((ValueOps.trivial Nat).moveConstruct x).1) 9
          = some e ∧
        e.hasRight = true ∧ e.accessRight DefaultEitherRequireTraits = Access.value 9) ∧
    (∃ e : Either Nat Nat,
        Either.ctorEmplaceRight (ValueOps.trivial Nat).copyConstruct 9 = some e ∧
        e.hasRight = true ∧ e.accessRight DefaultEitherRequireTraits = Access.value 9) :=
  have h := tagged_ctor_roundtrip (ValueOps.trivial Nat) (ValueOps.trivial Nat)
    (ValueOps.trivial_lawful Nat) (ValueOps.trivial_lawful Nat) DefaultEitherRequireTraits 2 9
  ⟨h.1, h.2.1 (by simp [ValueOps.trivial]), h.2.2.1, h.2.2.2 (by simp [ValueOps.trivial])⟩

/-- C4 (switch preserves value): for every well-formed `Either`, whichever alternative it
holds, `emplaceRight(r)` (by move, or by a copy that does not raise) returns a reference
denoting `r` and leaves an object with `hasRight()` true and `accessRight()` equal to `r`
whose storage holds `r` and nothing else, so the value held before is no longer observable;
`emplaceLeft(l)` mirrors this. -/
theorem emplace_replaces (opsL : ValueOps L) (opsR : ValueOps R) (hL : opsL.Lawful)
    (hR : opsR.Lawful) (traits : RequireTraits) (e : Either L R) (he : e.invariant = true)
    (l : L) (r : R) :
    (∃ e' : Either L R,
        e.emplaceRight opsR (fun x => some (opsR.moveConstruct x).1) r = Outcome.returned e' r ∧
        (opsR.copyConstruct r ≠ none →
          e.emplaceRight opsR opsR.copyConstruct r = Outcome.returned e' r) ∧
        e'.hasRight = true ∧ e'.accessRight traits = Access.value r ∧
        e'.m_storage = ⟨none, some r⟩) ∧
    (∃ e' : Either L R,
        e.emplaceLeft opsL (fun x => some (opsL.moveConstruct x).1) l = Outcome.returned e' l ∧
        (opsL.copyConstruct l ≠ none →
          e.emplaceLeft opsL opsL.copyConstruct l = Outcome.returned e' l) ∧
        e'.hasLeft = true ∧ e'.accessLeft traits = Access.value l ∧
        e'.m_storage = ⟨some l, none⟩) :=
  ⟨⟨⟨false, ⟨none, some r⟩⟩,
      emplaceRight_returned opsR hR _ r r (hR.moveConstruct_eq_some r) e he,
      fun h => emplaceRight_returned opsR hR _ r r (hR.copyConstruct_eq_some r h) e he,
      rfl, accessRight_of_right traits r none, rfl⟩,
    ⟨⟨true, ⟨some l, none⟩⟩,
      emplaceLeft_returned opsL hL _ l l (hL.moveConstruct_eq_some l) e he,
      fun h => emplaceLeft_returned opsL hL _ l l (hL.copyConstruct_eq_some l h) e he,
      rfl, accessLeft_of_left traits l none, rfl⟩⟩

/-- Witness for C4: an `Either<Nat, Bool>` holding Left 2, with `emplaceRight(true)` (a
switch of alternative) and `emplaceLeft(5)` (the same alternative), by move and by copy. -/
theorem emplace_replaces_witness :
    (⟨true, ⟨some 2, none⟩⟩ : Either Nat Bool).invariant = true ∧
    (∃ e' : Either Nat Bool,
        (⟨true, ⟨some 2, none⟩⟩ : Either Nat Bool).emplaceRight (ValueOps.trivial Bool)
          (fun x => some ((ValueOps.trivial Bool).moveConstruct x).1) true
            = Outcome.returned e' true ∧
        (⟨true, ⟨some 2, none⟩⟩ : Either Nat Bool).emplaceRight (ValueOps.trivial Bool)
            (ValueOps.trivial Bool).copyConstruct true = Outcome.returned e' true ∧
        e'.hasRight = true ∧ e'.accessRight DefaultEitherRequireTraits = Access.value true ∧
        e'.m_storage = ⟨none, some true⟩) ∧
    (∃ e' : Either Nat Bool,
        (⟨true, ⟨some 2, none⟩⟩ : Either Nat Bool).emplaceLeft (ValueOps.trivial Nat)
          (fun x => some ((ValueOps.trivial Nat).moveConstruct x).1) 5
            = Outcome.returned e' 5 ∧
        (⟨true, ⟨some 2, none⟩⟩ : Either Nat Bool).emplaceLeft (ValueOps.trivial Nat)
            (ValueOps.trivial Nat).copyConstruct 5 = Outcome.returned e' 5 ∧
        e'.hasLeft = true ∧ e'.accessLeft DefaultEitherRequireTraits = Access.value 5 ∧
        e'.m_storage = ⟨some 5, none⟩) :=
  have h := emplace_replaces (ValueOps.trivial Nat) (ValueOps.trivial Bool)
    (ValueOps.trivial_lawful Nat) (ValueOps.trivial_lawful Bool) DefaultEitherRequireTraits
    ⟨true, ⟨some 2, none⟩⟩ rfl 5 true
  ⟨rfl,
    h.1.elim fun e' he => ⟨e', he.1, he.2.1 (by simp [ValueOps.trivial]), he.2.2⟩,
    h.2.elim fun e' he => ⟨e', he.1, he.2.1 (by simp [ValueOps.trivial]), he.2.2⟩⟩

/-- C5 (swap symmetry): for any two well-formed `Either` objects `a` and `b` of the same
type, `a.swap(b)` and the free function `swap(a, b)` return and leave `a` with the
alternative and value `b` held and `b` with the alternative and value `a` held, whatever
the alternatives of the two (Left/Left, Left/Right, Right/Left, Right/Right). -/
theorem swap_exchanges (opsL : ValueOps L) (opsR : ValueOps R) (hL : opsL.Lawful)
    (hR : opsR.Lawful) (a b : Either L R) (ha : a.invariant = true)
    (hb : b.invariant = true) :
    a.swap opsL opsR b = Outcome.returned (b, a) () ∧
      cress.moo.swap opsL opsR a b = Outcome.returned (b, a) () :=
  ⟨swap_returned opsL opsR hL hR a b ha hb, swap_returned opsL opsR hL hR a b ha hb⟩

/-- Witness for C5 in a mixed case: Left 2 swapped with Right true. -/
theorem swap_exchanges_witness :
    (⟨true, ⟨some 2, none⟩⟩ : Either Nat Bool).invariant = true ∧
    (⟨false, ⟨none, some true⟩⟩ : Either Nat Bool).invariant = true ∧
    (⟨true, ⟨some 2, none⟩⟩ : Either Nat Bool).swap (ValueOps.trivial Nat)
        (ValueOps.trivial Bool) ⟨false, ⟨none, some true⟩⟩
      = Outcome.returned (⟨false, ⟨none, some true⟩⟩, ⟨true, ⟨some 2, none⟩⟩) () ∧
    cress.moo.swap (ValueOps.trivial Nat) (ValueOps.trivial Bool)
        (⟨true, ⟨some 2, none⟩⟩ : Either Nat Bool) ⟨false, ⟨none, some true⟩⟩
      = Outcome.returned (⟨false, ⟨none, some true⟩⟩, ⟨true, ⟨some 2, none⟩⟩) () :=
  ⟨rfl, rfl, swap_exchanges (ValueOps.trivial Nat) (ValueOps.trivial Bool)
    (ValueOps.trivial_lawful Nat) (ValueOps.trivial_lawful Bool) ⟨true, ⟨some 2, none⟩⟩
    ⟨false, ⟨none, some true⟩⟩ rfl rfl⟩

/-- C6 (copy construction): for every well-formed `Either` `other`, the copy constructor
either raises (the copy of the live value raised) and creates nothing, or returns a new
object with the same alternative and an equal live value; it returns whenever the contained
types do not raise; in every case `other` is left as it was. -/
theorem ctorCopy_copies (opsL : ValueOps L) (opsR : ValueOps R) (hL : opsL.Lawful)
    (hR : opsR.Lawful) (other : Either L R) (h : other.invariant = true) :
    (∀ other' e, other.ctorCopy opsL opsR = Outcome.returned other' e →
        e.hasLeft = other.hasLeft ∧ e.m_storage = other.m_storage ∧ other' = other) ∧
      (opsL.NoThrow → opsR.NoThrow →
        other.ctorCopy opsL opsR = Outcome.returned other other) ∧
      (other.ctorCopy opsL opsR).state? = some other := by
  refine ⟨?_, fun hnL hnR => ctorCopy_returned opsL opsR hL hR hnL hnR other h, ?_⟩
  · intro other' e hr
    rcases ctorCopy_cases opsL opsR hL hR other h with hc | hc <;> rw [hc] at hr
    · injection hr with h1 h2
      subst h1 h2
      exact ⟨rfl, rfl, rfl⟩
    · cases hr
  · rcases ctorCopy_cases opsL opsR hL hR other h with hc | hc <;> rw [hc] <;> rfl

/-- Witness for C6: copying an `Either<Nat, Bool>` that holds Right true. -/
theorem ctorCopy_copies_witness :
    (⟨false, ⟨none, some true⟩⟩ : Either Nat Bool).invariant = true ∧
    (∀ other' e, (⟨false, ⟨none, some true⟩⟩ : Either Nat Bool).ctorCopy
          (ValueOps.trivial Nat) (ValueOps.trivial Bool) = Outcome.returned other' e →
        e.hasLeft = (⟨false, ⟨none, some true⟩⟩ : Either Nat Bool).hasLeft ∧
        e.m_storage = (⟨false, ⟨none, some true⟩⟩ : Either Nat Bool).m_storage ∧
        other' = ⟨false, ⟨none, some true⟩⟩) ∧
      (⟨false, ⟨none, some true⟩⟩ : Either Nat Bool).ctorCopy
          (ValueOps.trivial Nat) (ValueOps.trivial Bool)
          = Outcome.returned ⟨false, ⟨none, some true⟩⟩ ⟨false, ⟨none, some true⟩⟩ ∧
      ((⟨false, ⟨none, some true⟩⟩ : Either Nat Bool).ctorCopy
          (ValueOps.trivial Nat) (ValueOps.trivial Bool)).state?
        = some ⟨false, ⟨none, some true⟩⟩ :=
  have h := ctorCopy_copies (ValueOps.trivial Nat) (ValueOps.trivial Bool)
    (ValueOps.trivial_lawful Nat) (ValueOps.trivial_lawful Bool)
    ⟨false, ⟨none, some true⟩⟩ rfl
  ⟨rfl, h.1, h.2.1 (ValueOps.trivial_noThrow Nat) (ValueOps.trivial_noThrow Bool), h.2.2⟩

/-- C7 (move construction): for every well-formed `Either` `other`, the move constructor
returns a new object that has the alternative `other` had and the value `other` held, and
afterwards `other.hasLeft()` is unchanged and `other` still holds exactly one live value, of
the same alternative: the moved-from state of the value it held. -/
theorem ctorMove_moves (opsL : ValueOps L) (opsR : ValueOps R) (hL : opsL.Lawful)
    (hR : opsR.Lawful) (other : Either L R) (h : other.invariant = true) :
    ∃ other' : Either L R,
      other.ctorMove opsL opsR = Outcome.returned other' other ∧
      other'.hasLeft = other.hasLeft ∧ other'.invariant = true ∧
      other'.m_storage.u_left = other.m_storage.u_left.map (fun l => (opsL.moveConstruct l).2) ∧
      other'.m_storage.u_right =
        other.m_storage.u_right.map (fun r => (opsR.moveConstruct r).2) :=
  ⟨other.movedFrom opsL opsR, ctorMove_returned opsL opsR hL hR other h, rfl,
    (movedFrom_invariant opsL opsR other).trans h, rfl, rfl⟩

/-- Witness for C7: moving from an `Either` that holds Left 4, the contained type leaving
0 behind in a moved-from object. -/
theorem ctorMove_moves_witness :
    (⟨true, ⟨some 4, none⟩⟩ : Either Nat Bool).invariant = true ∧
    ∃ other' : Either Nat Bool,
      (⟨true, ⟨some 4, none⟩⟩ : Either Nat Bool).ctorMove (ValueOps.throwingCopy 0)
          (ValueOps.trivial Bool) = Outcome.returned other' ⟨true, ⟨some 4, none⟩⟩ ∧
      other'.hasLeft = (⟨true, ⟨some 4, none⟩⟩ : Either Nat Bool).hasLeft ∧
      other'.invariant = true ∧
      other'.m_storage.u_left = (⟨true, ⟨some 4, none⟩⟩ : Either Nat Bool).m_storage.u_left.map
        (fun l => ((ValueOps.throwingCopy 0).moveConstruct l).2) ∧
      other'.m_storage.u_right =
        (⟨true, ⟨some 4, none⟩⟩ : Either Nat Bool).m_storage.u_right.map
          (fun r => ((ValueOps.trivial Bool).moveConstruct r).2) :=
  ⟨rfl, ctorMove_moves (ValueOps.throwingCopy 0) (ValueOps.trivial Bool)
    (ValueOps.throwingCopy_lawful 0) (ValueOps.trivial_lawful Bool) ⟨true, ⟨some 4, none⟩⟩ rfl⟩

/-- C8, the code at a failing input: `Left_` is `int`, `Right_` is `long` (distinct types,
`int` convertible to `long`), `e` holds Left 1 and `l` is a non-`const` `int` variable
holding 5. The assignment `e = l` reaches the operator template taking `R&&`, which calls
`emplaceRight(std::move(right))`: `e` holds Right 5 afterwards, where `e.emplaceLeft(l)`
leaves Left 5. For every `Either` and argument: a non-`const` lvalue of a `Left_`
convertible to `Right_` ends as `emplaceRight` of the converted value ends; a non-`const`
lvalue of a `Left_` that is not convertible, a `const` lvalue and an rvalue end as
`emplaceLeft` ends; and an argument of type `Right_` ends as `emplaceRight` ends, of a copy
for a `const` lvalue and of `std::move(r)` otherwise (the returned reference apart). -/
theorem raw_assignment_of_left_lvalue_runs_emplaceRight (opsL : ValueOps L)
    (opsR : ValueOps R) (toRight : Option (L → R)) (conv : L → R) (e : Either L R) (l : L)
    (r : R) :
    (⟨true, ⟨some 1, none⟩⟩ : Either Int Int).rawAssignment (ValueOps.trivial Int)
        (ValueOps.trivial Int) (some fun x => x) false ArgCategory.lvalue 5
      = Outcome.returned ⟨false, ⟨none, some 5⟩⟩ () ∧
    (⟨true, ⟨some 1, none⟩⟩ : Either Int Int).emplaceLeft (ValueOps.trivial Int)
        (ValueOps.trivial Int).copyConstruct 5
      = Outcome.returned ⟨true, ⟨some 5, none⟩⟩ 5 ∧
    (⟨true, ⟨some 1, none⟩⟩ : Either Int Int).rawAssignment (ValueOps.trivial Int)
        (ValueOps.trivial Int) (some fun x => x) false ArgCategory.constLvalue 5
      = Outcome.returned ⟨true, ⟨some 5, none⟩⟩ () ∧
    (⟨true, ⟨some 1, none⟩⟩ : Either Int Int).rawAssignment (ValueOps.trivial Int)
        (ValueOps.trivial Int) (some fun x => x) false ArgCategory.rvalue 5
      = Outcome.returned ⟨true, ⟨some 5, none⟩⟩ () ∧
    e.rawAssignment opsL opsR (some conv) false ArgCategory.lvalue l =
      (e.emplaceRight opsR (fun v => some (conv v)) l).discard ∧
    e.rawAssignment opsL opsR none false ArgCategory.lvalue l =
      (e.emplaceLeft opsL opsL.copyConstruct l).discard ∧
    e.rawAssignment opsL opsR toRight false ArgCategory.constLvalue l =
      (e.emplaceLeft opsL opsL.copyConstruct l).discard ∧
    e.rawAssignment opsL opsR toRight false ArgCategory.rvalue l =
      (e.emplaceLeft opsL (fun v => some (opsL.moveConstruct v).1) l).discard ∧
    e.rawAssignmentRight opsR ArgCategory.constLvalue r =
      (e.emplaceRight opsR opsR.copyConstruct r).discard ∧
    e.rawAssignmentRight opsR ArgCategory.lvalue r =
      (e.emplaceRight opsR (fun v => some (opsR.moveConstruct v).1) r).discard ∧
    e.rawAssignmentRight opsR ArgCategory.rvalue r =
      (e.emplaceRight opsR (fun v => some (opsR.moveConstruct v).1) r).discard := by
  refine ⟨rfl, rfl, rfl, rfl, ?_, ?_, ?_, ?_, ?_, ?_, ?_⟩
  · simp only [rawAssignment, selectForLeftArgument, EnableOverloadRight_t, Option.isSome,
      Bool.not_false, Bool.and_self, if_true]
    exact assignRightMove_eq_discard opsR conv l e
  · simp only [rawAssignment, selectForLeftArgument, EnableOverloadRight_t, Option.isSome,
      Bool.false_and, Bool.false_eq_true, if_false]
    exact assignLeftCopy_eq_discard opsL l e
  · simp only [rawAssignment, selectForLeftArgument]
    exact assignLeftCopy_eq_discard opsL l e
  · simp only [rawAssignment, selectForLeftArgument]
    exact assignLeftMove_eq_discard opsL l e
  · simp only [rawAssignmentRight, selectForRightArgument]
    exact assignRightCopy_eq_discard opsR opsR.copyConstruct r e
  · simp only [rawAssignmentRight, selectForRightArgument]
    exact assignRightMove_eq_discard opsR _ r e
  · simp only [rawAssignmentRight, selectForRightArgument]
    exact assignRightMove_eq_discard opsR _ r e

/-- C9, the code at a failing input: an `Either<vector, int>` holds Right 3 and
`emplaceLeft(9)` asks for a vector longer than the capacity, so the constructor raises. The
call has destroyed the Right value before constructing, so what is left has no live
alternative while the discriminant still names Right, and the destructor of that object
would destroy an object that is not live. The mirror call `emplaceRight` on a Left-holding
object behaves the same way. Only when the alternative is not switched does a raising
constructor leave the object as it was. -/
theorem emplace_switch_failure_leaves_nothing_live :
    (⟨false, ⟨none, some 3⟩⟩ : Either (List Nat) Nat).emplaceLeft (ValueOps.trivial (List Nat))
        (boundedVector 4) 9 = Outcome.threw ⟨false, ⟨none, none⟩⟩ ∧
    (⟨false, ⟨none, none⟩⟩ : Either (List Nat) Nat).invariant = false ∧
    (⟨false, ⟨none, none⟩⟩ : Either (List Nat) Nat).hasRight = true ∧
    (⟨false, ⟨none, none⟩⟩ : Either (List Nat) Nat).rightLive = false ∧
    (⟨false, ⟨none, none⟩⟩ : Either (List Nat) Nat).destructor = none ∧
    (⟨true, ⟨some 3, none⟩⟩ : Either Nat (List Nat)).emplaceRight (ValueOps.trivial (List Nat))
        (boundedVector 4) 9 = Outcome.threw ⟨true, ⟨none, none⟩⟩ ∧
    (⟨true, ⟨none, none⟩⟩ : Either Nat (List Nat)).invariant = false ∧
    (⟨true, ⟨none, none⟩⟩ : Either Nat (List Nat)).destructor = none ∧
    (⟨true, ⟨some [1], none⟩⟩ : Either (List Nat) Nat).emplaceLeft (ValueOps.trivial (List Nat))
        (boundedVector 4) 9 = Outcome.threw ⟨true, ⟨some [1], none⟩⟩ := by
  refine ⟨rfl, rfl, rfl, rfl, rfl, rfl, rfl, rfl, rfl⟩

/-- C10, the code at a failing input: `a` holds Left 2, `b` holds Right 7, and the copy
constructor of `Right_` raises. The copy assignment `a = b` has destroyed the Left value of
`a` before copy-constructing, so `a` is left with no live alternative while its
discriminant still names Left, and its destructor would destroy an object that is not live;
`b` is unchanged. The mirror case (`a` holds Right, `b` holds Left) behaves the same way. -/
theorem assignCopy_switch_failure_leaves_nothing_live :
    (⟨true, ⟨some 2, none⟩⟩ : Either Nat Nat).assignCopy (ValueOps.trivial Nat)
        (ValueOps.throwingCopy 0) ⟨false, ⟨none, some 7⟩⟩
      = Outcome.threw (⟨true, ⟨none, none⟩⟩, ⟨false, ⟨none, some 7⟩⟩) ∧
    (⟨true, ⟨none, none⟩⟩ : Either Nat Nat).invariant = false ∧
    (⟨true, ⟨none, none⟩⟩ : Either Nat Nat).hasLeft = true ∧
    (⟨true, ⟨none, none⟩⟩ : Either Nat Nat).leftLive = false ∧
    (⟨true, ⟨none, none⟩⟩ : Either Nat Nat).rightLive = false ∧
    (⟨true, ⟨none, none⟩⟩ : Either Nat Nat).destructor = none ∧
    (⟨false, ⟨none, some 7⟩⟩ : Either Nat Nat).assignCopy (ValueOps.throwingCopy 0)
        (ValueOps.trivial Nat) ⟨true, ⟨some 2, none⟩⟩
      = Outcome.threw (⟨false, ⟨none, none⟩⟩, ⟨true, ⟨some 2, none⟩⟩) := by
  refine ⟨rfl, rfl, rfl, rfl, rfl, rfl, rfl⟩

/-- C11 (unwrap under the default policy): for every well-formed `Either`, `unwrapLeft()`
returns the Left value when `hasLeft()` (the `&&` overload always, the `const&` overload
whenever the copy does not raise) and raises `BadEitherException` if and only if Right is
live, the hook being called as `onBadUnwrap(true)`; `unwrapRight()` returns the Right value
when `hasRight()` and raises `BadEitherException` if and only if Left is live, the hook
being called as `onBadUnwrap(false)`. -/
theorem unwrap_default_policy (opsL : ValueOps L) (opsR : ValueOps R) (hL : opsL.Lawful)
    (hR : opsR.Lawful) (e : Either L R) (he : e.invariant = true) :
    (e.hasLeft = true → ∃ l, e.m_storage.u_left = some l ∧
        e.unwrapLeftMove DefaultEitherRequireTraits opsL = Unwrap.value l ∧
        (opsL.copyConstruct l ≠ none →
          e.unwrapLeftCopy DefaultEitherRequireTraits opsL = Unwrap.value l)) ∧
    ((∃ c, e.unwrapLeftCopy DefaultEitherRequireTraits opsL = Unwrap.badEither c) ↔
        e.rightLive = true) ∧
    ((∃ c, e.unwrapLeftMove DefaultEitherRequireTraits opsL = Unwrap.badEither c) ↔
        e.rightLive = true) ∧
    (e.rightLive = true →
        e.unwrapLeftCopy DefaultEitherRequireTraits opsL
          = Unwrap.badEither (PolicyCall.onBadUnwrap true) ∧
        e.unwrapLeftMove DefaultEitherRequireTraits opsL
          = Unwrap.badEither (PolicyCall.onBadUnwrap true)) ∧
    (e.hasRight = true → ∃ r, e.m_storage.u_right = some r ∧
        e.unwrapRightMove DefaultEitherRequireTraits opsR = Unwrap.value r ∧
        (opsR.copyConstruct r ≠ none →
          e.unwrapRightCopy DefaultEitherRequireTraits opsR = Unwrap.value r)) ∧
    ((∃ c, e.unwrapRightCopy DefaultEitherRequireTraits opsR = Unwrap.badEither c) ↔
        e.leftLive = true) ∧
    ((∃ c, e.unwrapRightMove DefaultEitherRequireTraits opsR = Unwrap.badEither c) ↔
        e.leftLive = true) ∧
    (e.leftLive = true →
        e.unwrapRightCopy DefaultEitherRequireTraits opsR
          = Unwrap.badEither (PolicyCall.onBadUnwrap false) ∧
        e.unwrapRightMove DefaultEitherRequireTraits opsR
          = Unwrap.badEither (PolicyCall.onBadUnwrap false)) := by
  rcases e with ⟨_ | _, ⟨_ | l, _ | r⟩⟩ <;>
    simp [invariant, leftLive, rightLive, hasLeft] at he
  · refine ⟨by simp [hasLeft], ?_, ?_, ?_, ?_, ?_, ?_, ?_⟩
    · simp [unwrapLeftCopy, requireUnwrapLeft, DefaultEitherRequireTraits, rightLive]
    · simp [unwrapLeftMove, requireUnwrapLeft, DefaultEitherRequireTraits, rightLive]
    · simp [unwrapLeftCopy, unwrapLeftMove, requireUnwrapLeft, DefaultEitherRequireTraits]
    · intro _
      refine ⟨r, rfl, ?_, ?_⟩
      · simp [unwrapRightMove, requireUnwrapRight, moveOutRight, hR.moveConstruct_fst]
      · intro h
        simp [unwrapRightCopy, requireUnwrapRight, copyOutRight, hR.copyConstruct_eq_some r h]
    · simp only [unwrapRightCopy, requireUnwrapRight, copyOutRight, leftLive]
      cases opsR.copyConstruct r <;> simp
    · simp [unwrapRightMove, requireUnwrapRight, moveOutRight, leftLive]
    · simp [leftLive]
  · refine ⟨?_, ?_, ?_, ?_, by simp [hasRight], ?_, ?_, ?_⟩
    · intro _
      refine ⟨l, rfl, ?_, ?_⟩
      · simp [unwrapLeftMove, requireUnwrapLeft, moveOutLeft, hL.moveConstruct_fst]
      · intro h
        simp [unwrapLeftCopy, requireUnwrapLeft, copyOutLeft, hL.copyConstruct_eq_some l h]
    · simp only [unwrapLeftCopy, requireUnwrapLeft, copyOutLeft, rightLive]
      cases opsL.copyConstruct l <;> simp
    · simp [unwrapLeftMove, requireUnwrapLeft, moveOutLeft, rightLive]
    · simp [rightLive]
    · simp [unwrapRightCopy, requireUnwrapRight, DefaultEitherRequireTraits, leftLive]
    · simp [unwrapRightMove, requireUnwrapRight, DefaultEitherRequireTraits, leftLive]
    · simp [unwrapRightCopy, unwrapRightMove, requireUnwrapRight, DefaultEitherRequireTraits]

/-- Witness for C11: an `Either<Nat, Bool>` holding Right true, as in the scenario of the
specification (`e2.unwrapLeft()` raises "bad-either"). -/
theorem unwrap_default_policy_witness :
    (⟨false, ⟨none, some true⟩⟩ : Either Nat Bool).invariant = true ∧
    (⟨false, ⟨none, some true⟩⟩ : Either Nat Bool).unwrapLeftCopy DefaultEitherRequireTraits
        (ValueOps.trivial Nat) = Unwrap.badEither (PolicyCall.onBadUnwrap true) ∧
    (⟨false, ⟨none, some true⟩⟩ : Either Nat Bool).unwrapLeftMove DefaultEitherRequireTraits
        (ValueOps.trivial Nat) = Unwrap.badEither (PolicyCall.onBadUnwrap true) ∧
    (∃ r, (⟨false, ⟨none, some true⟩⟩ : Either Nat Bool).m_storage.u_right = some r ∧
        (⟨false, ⟨none, some true⟩⟩ : Either Nat Bool).unwrapRightMove
          DefaultEitherRequireTraits (ValueOps.trivial Bool) = Unwrap.value r ∧
        (⟨false, ⟨none, some true⟩⟩ : Either Nat Bool).unwrapRightCopy
          DefaultEitherRequireTraits (ValueOps.trivial Bool) = Unwrap.value r) :=
  have h := unwrap_default_policy (ValueOps.trivial Nat) (ValueOps.trivial Bool)
    (ValueOps.trivial_lawful Nat) (ValueOps.trivial_lawful Bool)
    (⟨false, ⟨none, some true⟩⟩ : Either Nat Bool) rfl
  ⟨rfl, (h.2.2.2.1 rfl).1, (h.2.2.2.1 rfl).2,
    (h.2.2.2.2.1 rfl).elim fun r hr =>
      ⟨r, hr.1, hr.2.1, hr.2.2 (by simp [ValueOps.trivial])⟩⟩

/-- C12 (access under the default policy): `accessRight()` on an `Either` whose
discriminant names Left, and `accessLeft()` on one whose discriminant names Right, end in
the termination of the process inside `onBadAccess` and yield no reference; on a well-formed
`Either` whose requested alternative is live the access returns the live value, and the
outcome is not a termination. -/
theorem access_default_policy (e : Either L R) (he : e.invariant = true) :
    (e.hasLeft = true →
        e.accessRight DefaultEitherRequireTraits
          = Access.terminated (PolicyCall.onBadAccess false) ∧
        ∀ v, e.accessRight DefaultEitherRequireTraits ≠ Access.value v) ∧
    (e.hasRight = true →
        e.accessLeft DefaultEitherRequireTraits
          = Access.terminated (PolicyCall.onBadAccess true) ∧
        ∀ v, e.accessLeft DefaultEitherRequireTraits ≠ Access.value v) ∧
    (e.leftLive = true → ∃ l, e.m_storage.u_left = some l ∧
        e.accessLeft DefaultEitherRequireTraits = Access.value l ∧
        ∀ c, e.accessLeft DefaultEitherRequireTraits ≠ Access.terminated c) ∧
    (e.rightLive = true → ∃ r, e.m_storage.u_right = some r ∧
        e.accessRight DefaultEitherRequireTraits = Access.value r ∧
        ∀ c, e.accessRight DefaultEitherRequireTraits ≠ Access.terminated c) := by
  rcases e with ⟨_ | _, ⟨_ | l, _ | r⟩⟩ <;>
    simp [invariant, leftLive, rightLive, hasLeft] at he <;>
    simp [accessLeft, accessRight, checkAccessLeft, checkAccessRight, refLeft, refRight,
      DefaultEitherRequireTraits, hasLeft, hasRight, leftLive, rightLive]

/-- Witness for C12: an `Either<Nat, Bool>` holding Left 2. -/
theorem access_default_policy_witness :
    (⟨true, ⟨some 2, none⟩⟩ : Either Nat Bool).invariant = true ∧
    (⟨true, ⟨some 2, none⟩⟩ : Either Nat Bool).accessRight DefaultEitherRequireTraits
        = Access.terminated (PolicyCall.onBadAccess false) ∧
    (∃ l, (⟨true, ⟨some 2, none⟩⟩ : Either Nat Bool).m_storage.u_left = some l ∧
        (⟨true, ⟨some 2, none⟩⟩ : Either Nat Bool).accessLeft DefaultEitherRequireTraits
          = Access.value l ∧
        ∀ c, (⟨true, ⟨some 2, none⟩⟩ : Either Nat Bool).accessLeft DefaultEitherRequireTraits
          ≠ Access.terminated c) :=
  have h := access_default_policy (⟨true, ⟨some 2, none⟩⟩ : Either Nat Bool) rfl
  ⟨rfl, (h.1 rfl).1, h.2.2.1 rfl⟩

/-- C13 (the policy is invoked only on misuse): for every policy and every well-formed
`Either`, `checkAccessLeft` / `checkAccessRight` (called first thing by `accessLeft` /
`accessRight`) call `onBadAccess`, and `requireUnwrapLeft` / `requireUnwrapRight` (called
first thing by `unwrapLeft` / `unwrapRight`) call `onBadUnwrap`, exactly when the requested
alternative is not live, with `isLeft = true` when Left was requested and `false` when Right
was; when the requested alternative is live the accessors do not depend on the policy; whenever
an accessor ends in a hook, it is that hook with that argument and the requested alternative
is not live; and when the requested alternative is not live every accessor ends as the hook
called with that argument decides: terminated or raising with the hook, and, for a hook
that returns normally, going on to the member that is not live. The other member functions of the embedding (`hasLeft`, `emplace`,
`swap`, `join`, `map`, `mapMatch`) take no policy: the source functions contain no call
of `RequireTraits_`. -/
theorem policy_invoked_only_on_misuse (traits : RequireTraits) (opsL : ValueOps L)
    (opsR : ValueOps R) (e : Either L R) (he : e.invariant = true) :
    (e.checkAccessLeft = if e.leftLive then none else some (PolicyCall.onBadAccess true)) ∧
    (e.checkAccessRight = if e.rightLive then none else some (PolicyCall.onBadAccess false)) ∧
    (e.requireUnwrapLeft = if e.leftLive then none else some (PolicyCall.onBadUnwrap true)) ∧
    (e.requireUnwrapRight =
      if e.rightLive then none else some (PolicyCall.onBadUnwrap false)) ∧
    (e.leftLive = true →
      e.accessLeft traits = e.refLeft ∧ e.unwrapLeftCopy traits opsL = e.copyOutLeft opsL ∧
      e.unwrapLeftMove traits opsL = e.moveOutLeft opsL) ∧
    (e.rightLive = true →
      e.accessRight traits = e.refRight ∧ e.unwrapRightCopy traits opsR = e.copyOutRight opsR ∧
      e.unwrapRightMove traits opsR = e.moveOutRight opsR) ∧
    (∀ c, e.accessLeft traits = Access.terminated c →
      c = PolicyCall.onBadAccess true ∧ e.leftLive = false) ∧
    (∀ c, e.accessRight traits = Access.terminated c →
      c = PolicyCall.onBadAccess false ∧ e.rightLive = false) ∧
    (∀ c, (e.unwrapLeftCopy traits opsL = Unwrap.badEither c ∨
        e.unwrapLeftCopy traits opsL = Unwrap.terminated c ∨
        e.unwrapLeftMove traits opsL = Unwrap.badEither c ∨
        e.unwrapLeftMove traits opsL = Unwrap.terminated c) →
      c = PolicyCall.onBadUnwrap true ∧ e.leftLive = false) ∧
    (∀ c, (e.unwrapRightCopy traits opsR = Unwrap.badEither c ∨
        e.unwrapRightCopy traits opsR = Unwrap.terminated c ∨
        e.unwrapRightMove traits opsR = Unwrap.badEither c ∨
        e.unwrapRightMove traits opsR = Unwrap.terminated c) →
      c = PolicyCall.onBadUnwrap false ∧ e.rightLive = false) ∧
    (e.leftLive = false →
      e.accessLeft traits =
        (match traits.onBadAccess true with
          | Reaction.returnsNormally => Access.dangling
          | _ => Access.terminated (PolicyCall.onBadAccess true)) ∧
      e.unwrapLeftCopy traits opsL =
        (match traits.onBadUnwrap true with
          | Reaction.terminates => Unwrap.terminated (PolicyCall.onBadUnwrap true)
          | Reaction.throwsBadEither => Unwrap.badEither (PolicyCall.onBadUnwrap true)
          | Reaction.returnsNormally => Unwrap.undefined) ∧
      e.unwrapLeftMove traits opsL =
        (match traits.onBadUnwrap true with
          | Reaction.terminates => Unwrap.terminated (PolicyCall.onBadUnwrap true)
          | Reaction.throwsBadEither => Unwrap.badEither (PolicyCall.onBadUnwrap true)
          | Reaction.returnsNormally => Unwrap.undefined)) ∧
    (e.rightLive = false →
      e.accessRight traits =
        (match traits.onBadAccess false with
          | Reaction.returnsNormally => Access.dangling
          | _ => Access.terminated (PolicyCall.onBadAccess false)) ∧
      e.unwrapRightCopy traits opsR =
        (match traits.onBadUnwrap false with
          | Reaction.terminates => Unwrap.terminated (PolicyCall.onBadUnwrap false)
          | Reaction.throwsBadEither => Unwrap.badEither (PolicyCall.onBadUnwrap false)
          | Reaction.returnsNormally => Unwrap.undefined) ∧
      e.unwrapRightMove traits opsR =
        (match traits.onBadUnwrap false with
          | Reaction.terminates => Unwrap.terminated (PolicyCall.onBadUnwrap false)
          | Reaction.throwsBadEither => Unwrap.badEither (PolicyCall.onBadUnwrap false)
          | Reaction.returnsNormally => Unwrap.undefined)) := by
  rcases e with ⟨_ | _, ⟨_ | l, _ | r⟩⟩ <;>
    simp [invariant, leftLive, rightLive, hasLeft] at he
  · refine ⟨by simp [checkAccessLeft, leftLive], by simp [checkAccessRight, rightLive],
      by simp [requireUnwrapLeft, leftLive], by simp [requireUnwrapRight, rightLive],
      by simp [leftLive],
      fun _ => ⟨by simp [accessRight, checkAccessRight],
        by simp [unwrapRightCopy, requireUnwrapRight],
        by simp [unwrapRightMove, requireUnwrapRight]⟩, ?_, ?_, ?_, ?_, ?_,
      by simp [rightLive]⟩
    rotate_left 4
    · intro _
      cases h1 : traits.onBadAccess true <;> cases h2 : traits.onBadUnwrap true <;>
        simp [accessLeft, checkAccessLeft, refLeft, unwrapLeftCopy, unwrapLeftMove,
          requireUnwrapLeft, copyOutLeft, moveOutLeft, h1, h2]
    · intro c
      cases h : traits.onBadAccess true <;>
        simp [accessLeft, checkAccessLeft, refLeft, leftLive, h] <;> intro hc <;> exact hc.symm
    · intro c
      simp [accessRight, checkAccessRight, refRight]
    · intro c
      cases h : traits.onBadUnwrap true <;>
        simp [unwrapLeftCopy, unwrapLeftMove, requireUnwrapLeft, copyOutLeft, moveOutLeft,
          leftLive, h] <;> intro hc <;> exact hc.symm
    · intro c
      simp only [unwrapRightCopy, unwrapRightMove, requireUnwrapRight, copyOutRight,
        moveOutRight]
      cases opsR.copyConstruct r <;> simp
  · refine ⟨by simp [checkAccessLeft, leftLive], by simp [checkAccessRight, rightLive],
      by simp [requireUnwrapLeft, leftLive], by simp [requireUnwrapRight, rightLive],
      fun _ => ⟨by simp [accessLeft, checkAccessLeft],
        by simp [unwrapLeftCopy, requireUnwrapLeft],
        by simp [unwrapLeftMove, requireUnwrapLeft]⟩,
      by simp [rightLive], ?_, ?_, ?_, ?_, by simp [leftLive], ?_⟩
    rotate_left 4
    · intro _
      cases h1 : traits.onBadAccess false <;> cases h2 : traits.onBadUnwrap false <;>
        simp [accessRight, checkAccessRight, refRight, unwrapRightCopy, unwrapRightMove,
          requireUnwrapRight, copyOutRight, moveOutRight, h1, h2]
    · intro c
      simp [accessLeft, checkAccessLeft, refLeft]
    · intro c
      cases h : traits.onBadAccess false <;>
        simp [accessRight, checkAccessRight, refRight, rightLive, h] <;>
        intro hc <;> exact hc.symm
    · intro c
      simp only [unwrapLeftCopy, unwrapLeftMove, requireUnwrapLeft, copyOutLeft, moveOutLeft]
      cases opsL.copyConstruct l <;> simp
    · intro c
      cases h : traits.onBadUnwrap false <;>
        simp [unwrapRightCopy, unwrapRightMove, requireUnwrapRight, copyOutRight,
          moveOutRight, rightLive, h] <;> intro hc <;> exact hc.symm

/-- Witness for C13: an `Either<Nat, Bool>` holding Right true, under a policy whose
`onBadAccess` returns normally and whose `onBadUnwrap` terminates, and under the default
policy. -/
theorem policy_invoked_only_on_misuse_witness :
    (⟨false, ⟨none, some true⟩⟩ : Either Nat Bool).invariant = true ∧
    (⟨false, ⟨none, some true⟩⟩ : Either Nat Bool).checkAccessLeft
        = some (PolicyCall.onBadAccess true) ∧
    (⟨false, ⟨none, some true⟩⟩ : Either Nat Bool).checkAccessRight = none ∧
    (⟨false, ⟨none, some true⟩⟩ : Either Nat Bool).requireUnwrapLeft
        = some (PolicyCall.onBadUnwrap true) ∧
    (⟨false, ⟨none, some true⟩⟩ : Either Nat Bool).requireUnwrapRight = none ∧
    (⟨false, ⟨none, some true⟩⟩ : Either Nat Bool).accessRight
        ⟨fun _ => Reaction.returnsNormally, fun _ => Reaction.terminates⟩
      = (⟨false, ⟨none, some true⟩⟩ : Either Nat Bool).refRight ∧
    (⟨false, ⟨none, some true⟩⟩ : Either Nat Bool).accessLeft
        ⟨fun _ => Reaction.returnsNormally, fun _ => Reaction.terminates⟩
      = Access.dangling ∧
    (⟨false, ⟨none, some true⟩⟩ : Either Nat Bool).unwrapLeftCopy
        ⟨fun _ => Reaction.returnsNormally, fun _ => Reaction.terminates⟩
        (ValueOps.trivial Nat)
      = Unwrap.terminated (PolicyCall.onBadUnwrap true) ∧
    (⟨false, ⟨none, some true⟩⟩ : Either Nat Bool).accessLeft DefaultEitherRequireTraits
      = Access.terminated (PolicyCall.onBadAccess true) ∧
    (⟨false, ⟨none, some true⟩⟩ : Either Nat Bool).unwrapLeftMove DefaultEitherRequireTraits
        (ValueOps.trivial Nat)
      = Unwrap.badEither (PolicyCall.onBadUnwrap true) :=
  have h := policy_invoked_only_on_misuse
    ⟨fun _ => Reaction.returnsNormally, fun _ => Reaction.terminates⟩
    (ValueOps.trivial Nat) (ValueOps.trivial Bool)
    (⟨false, ⟨none, some true⟩⟩ : Either Nat Bool) rfl
  have hd := policy_invoked_only_on_misuse DefaultEitherRequireTraits
    (ValueOps.trivial Nat) (ValueOps.trivial Bool)
    (⟨false, ⟨none, some true⟩⟩ : Either Nat Bool) rfl
  ⟨rfl, h.1, h.2.1, h.2.2.1, h.2.2.2.1, (h.2.2.2.2.2.1 rfl).1,
    (h.2.2.2.2.2.2.2.2.2.2.1 rfl).1, (h.2.2.2.2.2.2.2.2.2.2.1 rfl).2.1,
    (hd.2.2.2.2.2.2.2.2.2.2.1 rfl).1, (hd.2.2.2.2.2.2.2.2.2.2.1 rfl).2.2⟩

/-- C14 (joinLeft is lazy): for every well-formed `Either` and fallback callable `fb`, when
Left is live `joinLeft(fb)` returns the Left value (the `&&` overload always, the `const&`
overload whenever the copy does not raise) and leaves the state `fb` acts on untouched, the
invocation counter of `fb` included; when Right is live the call is exactly one run of
`fb`: it ends as `fb()` ends, with the effects of `fb()`, and the counter goes up by one.
So `fb` is invoked if and only if Right is live. -/
theorem joinLeft_lazy {σ : Type} (opsL : ValueOps L) (hL : opsL.Lawful) (e : Either L R)
    (he : e.invariant = true) (fb : σ → Outcome σ L) (s : σ) (n : Nat) :
    (e.leftLive = true → ∃ l, e.m_storage.u_left = some l ∧
        e.joinLeftMove opsL fb s = Outcome.returned s l ∧
        (opsL.copyConstruct l ≠ none → e.joinLeftCopy opsL fb s = Outcome.returned s l) ∧
        invocations (e.joinLeftMove opsL (counted fb) (n, s)) = some n ∧
        invocations (e.joinLeftCopy opsL (counted fb) (n, s)) = some n) ∧
    (e.rightLive = true →
        e.joinLeftCopy opsL fb s = fb s ∧ e.joinLeftMove opsL fb s = fb s ∧
        (fb s ≠ Outcome.undefined →
          invocations (e.joinLeftCopy opsL (counted fb) (n, s)) = some (n + 1) ∧
          invocations (e.joinLeftMove opsL (counted fb) (n, s)) = some (n + 1))) := by
  rcases e with ⟨_ | _, ⟨_ | l, _ | r⟩⟩ <;>
    simp [invariant, leftLive, rightLive, hasLeft] at he
  · refine ⟨by simp [leftLive], fun _ => ⟨by simp [joinLeftCopy], by simp [joinLeftMove],
      fun h => ?_⟩⟩
    simp only [joinLeftCopy, joinLeftMove]
    exact ⟨invocations_counted fb n s h, invocations_counted fb n s h⟩
  · refine ⟨fun _ => ⟨l, rfl, by simp [joinLeftMove, hL.moveConstruct_fst], fun h => ?_,
      by simp [joinLeftMove, invocations, Outcome.state?], ?_⟩, by simp [rightLive]⟩
    · simp [joinLeftCopy, hL.copyConstruct_eq_some l h]
    · simp only [joinLeftCopy]
      cases opsL.copyConstruct l <;> simp [invocations, Outcome.state?]

/-- Witness for C14, after the example of the header: a Left 1 joined with `[]{ return 13; }`
gives 1 and the fallback is not invoked; a Right joined with it gives 13 and the fallback
is invoked once. -/
theorem joinLeft_lazy_witness :
    (⟨true, ⟨some 1, none⟩⟩ : Either Nat Bool).invariant = true ∧
    (⟨false, ⟨none, some true⟩⟩ : Either Nat Bool).invariant = true ∧
    (∃ l, (⟨true, ⟨some 1, none⟩⟩ : Either Nat Bool).m_storage.u_left = some l ∧
      (⟨true, ⟨some 1, none⟩⟩ : Either Nat Bool).joinLeftCopy (ValueOps.trivial Nat)
        (fun s : Unit => Outcome.returned s 13) () = Outcome.returned () l ∧
      invocations ((⟨true, ⟨some 1, none⟩⟩ : Either Nat Bool).joinLeftCopy
        (ValueOps.trivial Nat) (counted fun s : Unit => Outcome.returned s 13) (0, ()))
        = some 0) ∧
    (⟨false, ⟨none, some true⟩⟩ : Either Nat Bool).joinLeftCopy (ValueOps.trivial Nat)
        (fun s : Unit => Outcome.returned s 13) () = Outcome.returned () 13 ∧
    invocations ((⟨false, ⟨none, some true⟩⟩ : Either Nat Bool).joinLeftCopy
        (ValueOps.trivial Nat) (counted fun s : Unit => Outcome.returned s 13) (0, ()))
        = some (0 + 1) :=
  have h1 := joinLeft_lazy (ValueOps.trivial Nat) (ValueOps.trivial_lawful Nat)
    (⟨true, ⟨some 1, none⟩⟩ : Either Nat Bool) rfl (fun s : Unit => Outcome.returned s 13) () 0
  have h2 := joinLeft_lazy (ValueOps.trivial Nat) (ValueOps.trivial_lawful Nat)
    (⟨false, ⟨none, some true⟩⟩ : Either Nat Bool) rfl
    (fun s : Unit => Outcome.returned s 13) () 0
  ⟨rfl, rfl,
    (h1.1 rfl).elim fun l hl =>
      ⟨l, hl.1, hl.2.2.1 (by simp [ValueOps.trivial]), hl.2.2.2.2⟩,
    (h2.2 rfl).1, ((h2.2 rfl).2.2 (by simp)).1⟩

/-- C15 (joinRight is lazy): for every well-formed `Either` and fallback callable `fb`, when
Right is live `joinRight(fb)` returns the Right value (the `&&` overload always, the
`const&` overload whenever the copy does not raise) and leaves the state `fb` acts on
untouched, the invocation counter of `fb` included; when Left is live the call is exactly
one run of `fb`: it ends as `fb()` ends, with the effects of `fb()`, and the counter goes
up by one. -/
theorem joinRight_lazy {σ : Type} (opsR : ValueOps R) (hR : opsR.Lawful) (e : Either L R)
    (he : e.invariant = true) (fb : σ → Outcome σ R) (s : σ) (n : Nat) :
    (e.rightLive = true → ∃ r, e.m_storage.u_right = some r ∧
        e.joinRightMove opsR fb s = Outcome.returned s r ∧
        (opsR.copyConstruct r ≠ none → e.joinRightCopy opsR fb s = Outcome.returned s r) ∧
        invocations (e.joinRightMove opsR (counted fb) (n, s)) = some n ∧
        invocations (e.joinRightCopy opsR (counted fb) (n, s)) = some n) ∧
    (e.leftLive = true →
        e.joinRightCopy opsR fb s = fb s ∧ e.joinRightMove opsR fb s = fb s ∧
        (fb s ≠ Outcome.undefined →
          invocations (e.joinRightCopy opsR (counted fb) (n, s)) = some (n + 1) ∧
          invocations (e.joinRightMove opsR (counted fb) (n, s)) = some (n + 1))) := by
  rcases e with ⟨_ | _, ⟨_ | l, _ | r⟩⟩ <;>
    simp [invariant, leftLive, rightLive, hasLeft] at he
  · refine ⟨fun _ => ⟨r, rfl, by simp [joinRightMove, hR.moveConstruct_fst], fun h => ?_,
      by simp [joinRightMove, invocations, Outcome.state?], ?_⟩, by simp [leftLive]⟩
    · simp [joinRightCopy, hR.copyConstruct_eq_some r h]
    · simp only [joinRightCopy]
      cases opsR.copyConstruct r <;> simp [invocations, Outcome.state?]
  · refine ⟨by simp [rightLive], fun _ => ⟨by simp [joinRightCopy], by simp [joinRightMove],
      fun h => ?_⟩⟩
    simp only [joinRightCopy, joinRightMove]
    exact ⟨invocations_counted fb n s h, invocations_counted fb n s h⟩

/-- Witness for C15: a Right true joined with a fallback gives true and the fallback is not
invoked; a Left 1 joined with a fallback returning false gives false, the fallback being
invoked once. -/
theorem joinRight_lazy_witness :
    (⟨true, ⟨some 1, none⟩⟩ : Either Nat Bool).invariant = true ∧
    (⟨false, ⟨none, some true⟩⟩ : Either Nat Bool).invariant = true ∧
    (∃ r, (⟨false, ⟨none, some true⟩⟩ : Either Nat Bool).m_storage.u_right = some r ∧
      (⟨false, ⟨none, some true⟩⟩ : Either Nat Bool).joinRightCopy (ValueOps.trivial Bool)
        (fun s : Unit => Outcome.returned s false) () = Outcome.returned () r ∧
      invocations ((⟨false, ⟨none, some true⟩⟩ : Either Nat Bool).joinRightCopy
        (ValueOps.trivial Bool) (counted fun s : Unit => Outcome.returned s false) (0, ()))
        = some 0) ∧
    (⟨true, ⟨some 1, none⟩⟩ : Either Nat Bool).joinRightCopy (ValueOps.trivial Bool)
        (fun s : Unit => Outcome.returned s false) () = Outcome.returned () false ∧
    invocations ((⟨true, ⟨some 1, none⟩⟩ : Either Nat Bool).joinRightCopy
        (ValueOps.trivial Bool) (counted fun s : Unit => Outcome.returned s false) (0, ()))
        = some (0 + 1) :=
  have h1 := joinRight_lazy (ValueOps.trivial Bool) (ValueOps.trivial_lawful Bool)
    (⟨false, ⟨none, some true⟩⟩ : Either Nat Bool) rfl
    (fun s : Unit => Outcome.returned s false) () 0
  have h2 := joinRight_lazy (ValueOps.trivial Bool) (ValueOps.trivial_lawful Bool)
    (⟨true, ⟨some 1, none⟩⟩ : Either Nat Bool) rfl
    (fun s : Unit => Outcome.returned s false) () 0
  ⟨rfl, rfl,
    (h1.1 rfl).elim fun r hr =>
      ⟨r, hr.1, hr.2.2.1 (by simp [ValueOps.trivial]), hr.2.2.2.2⟩,
    (h2.2 rfl).1, ((h2.2 rfl).2.2 (by simp)).1⟩

/-- C16 (mapLeft): for every well-formed `Either<L,R>` and transform `f`: when Left is live
with value `l`, `mapLeft(f)` is exactly one run of `f` on `l` (the invocation counter of
`f` goes up by one), and when that run returns `u` the result is an `Either<U,R>` holding
Left `u`; a run that raises makes `mapLeft` raise. When Right is live with value `r` the
result holds Right `r` (the `&&` overload always, the `const&` overload whenever the copy
of `r` does not raise), and `f` is not run: the state it acts on, its counter included, is
untouched. -/
theorem mapLeft_maps {σ U : Type} (opsR : ValueOps R) (opsU : ValueOps U) (hR : opsR.Lawful)
    (hU : opsU.Lawful) (e : Either L R) (he : e.invariant = true) (f : L → σ → Outcome σ U)
    (s : σ) (n : Nat) :
    (e.leftLive = true → ∃ l, e.m_storage.u_left = some l ∧
        (∀ s' u, f l s = Outcome.returned s' u →
          e.mapLeftCopy opsR opsU f s = Outcome.returned s' ⟨true, ⟨some u, none⟩⟩ ∧
          e.mapLeftMove opsR opsU f s = Outcome.returned s' ⟨true, ⟨some u, none⟩⟩) ∧
        (∀ s', f l s = Outcome.threw s' →
          e.mapLeftCopy opsR opsU f s = Outcome.threw s' ∧
          e.mapLeftMove opsR opsU f s = Outcome.threw s') ∧
        (f l s ≠ Outcome.undefined →
          invocations (e.mapLeftCopy opsR opsU (countedUnary f) (n, s)) = some (n + 1) ∧
          invocations (e.mapLeftMove opsR opsU (countedUnary f) (n, s)) = some (n + 1))) ∧
    (e.rightLive = true → ∃ r, e.m_storage.u_right = some r ∧
        e.mapLeftMove opsR opsU f s = Outcome.returned s ⟨false, ⟨none, some r⟩⟩ ∧
        (opsR.copyConstruct r ≠ none →
          e.mapLeftCopy opsR opsU f s = Outcome.returned s ⟨false, ⟨none, some r⟩⟩) ∧
        invocations (e.mapLeftMove opsR opsU (countedUnary f) (n, s)) = some n ∧
        invocations (e.mapLeftCopy opsR opsU (countedUnary f) (n, s)) = some n) := by
  rcases e with ⟨_ | _, ⟨_ | l, _ | r⟩⟩ <;>
    simp [invariant, leftLive, rightLive, hasLeft] at he
  · refine ⟨by simp [leftLive], fun _ => ⟨r, rfl, ?_, fun h => ?_, ?_, ?_⟩⟩
    · simp [mapLeftMove, ctorEmplaceRight, Storage.emplaceRight, hR.moveConstruct_fst]
    · simp [mapLeftCopy, ctorEmplaceRight, Storage.emplaceRight,
        hR.copyConstruct_eq_some r h]
    · simp [mapLeftMove, ctorEmplaceRight, Storage.emplaceRight, invocations, Outcome.state?]
    · simp only [mapLeftCopy, ctorEmplaceRight, Storage.emplaceRight]
      cases opsR.copyConstruct r <;> simp [invocations, Outcome.state?]
  · refine ⟨fun _ => ⟨l, rfl, ?_, ?_, fun h => ?_⟩, by simp [rightLive]⟩
    · intro s' u hf
      simp [mapLeftCopy, mapLeftMove, hf, wrapLeft_returned opsU hU]
    · intro s' hf
      simp [mapLeftCopy, mapLeftMove, hf, wrapLeft]
    · simp only [mapLeftCopy, mapLeftMove, countedUnary, if_true, invocations_wrapLeft]
      exact ⟨invocations_counted (f l) n s h, invocations_counted (f l) n s h⟩

/-- Witness for C16, the scenario of the specification: Left 2 mapped with `x * 2` gives
Left 4, the transform being run once; Right true mapped with it stays Right true, the
transform not being run. -/
theorem mapLeft_maps_witness :
    (⟨true, ⟨some 2, none⟩⟩ : Either Nat Bool).invariant = true ∧
    (⟨false, ⟨none, some true⟩⟩ : Either Nat Bool).invariant = true ∧
    (⟨true, ⟨some 2, none⟩⟩ : Either Nat Bool).mapLeftCopy (ValueOps.trivial Bool)
        (ValueOps.trivial Nat) (fun x (s : Unit) => Outcome.returned s (x * 2)) ()
      = Outcome.returned () ⟨true, ⟨some 4, none⟩⟩ ∧
    invocations ((⟨true, ⟨some 2, none⟩⟩ : Either Nat Bool).mapLeftCopy (ValueOps.trivial Bool)
        (ValueOps.trivial Nat)
        (countedUnary fun x (s : Unit) => Outcome.returned s (x * 2)) (0, ()))
      = some (0 + 1) ∧
    (∃ r, (⟨false, ⟨none, some true⟩⟩ : Either Nat Bool).m_storage.u_right = some r ∧
      (⟨false, ⟨none, some true⟩⟩ : Either Nat Bool).mapLeftCopy (ValueOps.trivial Bool)
          (ValueOps.trivial Nat) (fun x (s : Unit) => Outcome.returned s (x * 2)) ()
        = Outcome.returned () ⟨false, ⟨none, some r⟩⟩ ∧
      invocations ((⟨false, ⟨none, some true⟩⟩ : Either Nat Bool).mapLeftCopy
          (ValueOps.trivial Bool) (ValueOps.trivial Nat)
          (countedUnary fun x (s : Unit) => Outcome.returned s (x * 2)) (0, ()))
        = some 0) :=
  have h1 := mapLeft_maps (ValueOps.trivial Bool) (ValueOps.trivial Nat)
    (ValueOps.trivial_lawful Bool) (ValueOps.trivial_lawful Nat)
    (⟨true, ⟨some 2, none⟩⟩ : Either Nat Bool) rfl
    (fun x (s : Unit) => Outcome.returned s (x * 2)) () 0
  have h2 := mapLeft_maps (ValueOps.trivial Bool) (ValueOps.trivial Nat)
    (ValueOps.trivial_lawful Bool) (ValueOps.trivial_lawful Nat)
    (⟨false, ⟨none, some true⟩⟩ : Either Nat Bool) rfl
    (fun x (s : Unit) => Outcome.returned s (x * 2)) () 0
  ⟨rfl, rfl,
    (h1.1 rfl).elim fun l hl =>
      (hl.2.1 () (l * 2) rfl).1.trans (by cases hl.1; rfl),
    (h1.1 rfl).elim fun l hl => (hl.2.2.2 (by simp)).1,
    (h2.2 rfl).elim fun r hr =>
      ⟨r, hr.1, hr.2.2.1 (by simp [ValueOps.trivial]), hr.2.2.2.2⟩⟩

/-- C17 (mapRight): for every well-formed `Either<L,R>` and transform `g`: when Right is
live with value `r`, `mapRight(g)` is exactly one run of `g` on `r` (the invocation counter
of `g` goes up by one), and when that run returns `u` the result is an `Either<L,U>`
holding Right `u`; a run that raises makes `mapRight` raise. When Left is live with value
`l` the result holds Left `l` (the `&&` overload always, the `const&` overload whenever the
copy of `l` does not raise), and `g` is not run: the state it acts on, its counter
included, is untouched. -/
theorem mapRight_maps {σ U : Type} (opsL : ValueOps L) (opsU : ValueOps U) (hL : opsL.Lawful)
    (hU : opsU.Lawful) (e : Either L R) (he : e.invariant = true) (g : R → σ → Outcome σ U)
    (s : σ) (n : Nat) :
    (e.rightLive = true → ∃ r, e.m_storage.u_right = some r ∧
        (∀ s' u, g r s = Outcome.returned s' u →
          e.mapRightCopy opsL opsU g s = Outcome.returned s' ⟨false, ⟨none, some u⟩⟩ ∧
          e.mapRightMove opsL opsU g s = Outcome.returned s' ⟨false, ⟨none, some u⟩⟩) ∧
        (∀ s', g r s = Outcome.threw s' →
          e.mapRightCopy opsL opsU g s = Outcome.threw s' ∧
          e.mapRightMove opsL opsU g s = Outcome.threw s') ∧
        (g r s ≠ Outcome.undefined →
          invocations (e.mapRightCopy opsL opsU (countedUnary g) (n, s)) = some (n + 1) ∧
          invocations (e.mapRightMove opsL opsU (countedUnary g) (n, s)) = some (n + 1))) ∧
    (e.leftLive = true → ∃ l, e.m_storage.u_left = some l ∧
        e.mapRightMove opsL opsU g s = Outcome.returned s ⟨true, ⟨some l, none⟩⟩ ∧
        (opsL.copyConstruct l ≠ none →
          e.mapRightCopy opsL opsU g s = Outcome.returned s ⟨true, ⟨some l, none⟩⟩) ∧
        invocations (e.mapRightMove opsL opsU (countedUnary g) (n, s)) = some n ∧
        invocations (e.mapRightCopy opsL opsU (countedUnary g) (n, s)) = some n) := by
  rcases e with ⟨_ | _, ⟨_ | l, _ | r⟩⟩ <;>
    simp [invariant, leftLive, rightLive, hasLeft] at he
  · refine ⟨fun _ => ⟨r, rfl, ?_, ?_, fun h => ?_⟩, by simp [leftLive]⟩
    · intro s' u hg
      simp [mapRightCopy, mapRightMove, hg, wrapRight_returned opsU hU]
    · intro s' hg
      simp [mapRightCopy, mapRightMove, hg, wrapRight]
    · simp only [mapRightCopy, mapRightMove, countedUnary, Bool.false_eq_true, if_false,
        invocations_wrapRight]
      exact ⟨invocations_counted (g r) n s h, invocations_counted (g r) n s h⟩
  · refine ⟨by simp [rightLive], fun _ => ⟨l, rfl, ?_, fun h => ?_, ?_, ?_⟩⟩
    · simp [mapRightMove, ctorEmplaceLeft, Storage.emplaceLeft, hL.moveConstruct_fst]
    · simp [mapRightCopy, ctorEmplaceLeft, Storage.emplaceLeft,
        hL.copyConstruct_eq_some l h]
    · simp [mapRightMove, ctorEmplaceLeft, Storage.emplaceLeft, invocations, Outcome.state?]
    · simp only [mapRightCopy, ctorEmplaceLeft, Storage.emplaceLeft]
      cases opsL.copyConstruct l <;> simp [invocations, Outcome.state?]

/-- Witness for C17: Right true mapped with negation gives Right false, the transform being
run once; Left 2 mapped with it stays Left 2, the transform not being run. -/
theorem mapRight_maps_witness :
    (⟨true, ⟨some 2, none⟩⟩ : Either Nat Bool).invariant = true ∧
    (⟨false, ⟨none, some true⟩⟩ : Either Nat Bool).invariant = true ∧
    (⟨false, ⟨none, some true⟩⟩ : Either Nat Bool).mapRightCopy (ValueOps.trivial Nat)
        (ValueOps.trivial Bool) (fun x (s : Unit) => Outcome.returned s (!x)) ()
      = Outcome.returned () ⟨false, ⟨none, some false⟩⟩ ∧
    invocations ((⟨false, ⟨none, some true⟩⟩ : Either Nat Bool).mapRightCopy
        (ValueOps.trivial Nat) (ValueOps.trivial Bool)
        (countedUnary fun x (s : Unit) => Outcome.returned s (!x)) (0, ()))
      = some (0 + 1) ∧
    (∃ l, (⟨true, ⟨some 2, none⟩⟩ : Either Nat Bool).m_storage.u_left = some l ∧
      (⟨true, ⟨some 2, none⟩⟩ : Either Nat Bool).mapRightCopy (ValueOps.trivial Nat)
          (ValueOps.trivial Bool) (fun x (s : Unit) => Outcome.returned s (!x)) ()
        = Outcome.returned () ⟨true, ⟨some l, none⟩⟩ ∧
      invocations ((⟨true, ⟨some 2, none⟩⟩ : Either Nat Bool).mapRightCopy
          (ValueOps.trivial Nat) (ValueOps.trivial Bool)
          (countedUnary fun x (s : Unit) => Outcome.returned s (!x)) (0, ()))
        = some 0) :=
  have h1 := mapRight_maps (ValueOps.trivial Nat) (ValueOps.trivial Bool)
    (ValueOps.trivial_lawful Nat) (ValueOps.trivial_lawful Bool)
    (⟨false, ⟨none, some true⟩⟩ : Either Nat Bool) rfl
    (fun x (s : Unit) => Outcome.returned s (!x)) () 0
  have h2 := mapRight_maps (ValueOps.trivial Nat) (ValueOps.trivial Bool)
    (ValueOps.trivial_lawful Nat) (ValueOps.trivial_lawful Bool)
    (⟨true, ⟨some 2, none⟩⟩ : Either Nat Bool) rfl
    (fun x (s : Unit) => Outcome.returned s (!x)) () 0
  ⟨rfl, rfl,
    (h1.1 rfl).elim fun r hr =>
      (hr.2.1 () (!r) rfl).1.trans (by cases hr.1; rfl),
    (h1.1 rfl).elim fun r hr => (hr.2.2.2 (by simp)).1,
    (h2.2 rfl).elim fun l hl =>
      ⟨l, hl.1, hl.2.2.1 (by simp [ValueOps.trivial]), hl.2.2.2.2⟩⟩

/-- C18 (mapMatch exhaustiveness): for every well-formed `Either` and transforms `f`, `g`:
on a Left-valued `e` holding `l`, `mapMatch(f, g)` is exactly one run of `f` on `l` (the
counter of `f` goes up by one, the counter of `g` stays), the result holds Left `f(l)`, and
`g` does not execute; on a Right-valued `e` holding `r` it is exactly one run of `g` on `r`,
the result holds Right `g(r)`, and `f` does not execute; a run that raises makes `mapMatch`
raise; and whenever `mapMatch` returns, the result is well-formed and its alternative is
that of `e`. -/
theorem mapMatch_runs_one {σ L2 R2 : Type} (opsL2 : ValueOps L2) (opsR2 : ValueOps R2)
    (hL2 : opsL2.Lawful) (hR2 : opsR2.Lawful) (e : Either L R) (he : e.invariant = true)
    (f : L → σ → Outcome σ L2) (g : R → σ → Outcome σ R2) (s : σ) (n : Nat) :
    (e.leftLive = true → ∃ l, e.m_storage.u_left = some l ∧
        (∀ s' u, f l s = Outcome.returned s' u →
          e.mapMatch opsL2 opsR2 f g s = Outcome.returned s' ⟨true, ⟨some u, none⟩⟩) ∧
        (∀ s', f l s = Outcome.threw s' → e.mapMatch opsL2 opsR2 f g s = Outcome.threw s') ∧
        (f l s ≠ Outcome.undefined →
          invocations (e.mapMatch opsL2 opsR2 (countedUnary f) (uncountedUnary g) (n, s))
            = some (n + 1) ∧
          invocations (e.mapMatch opsL2 opsR2 (uncountedUnary f) (countedUnary g) (n, s))
            = some n)) ∧
    (e.rightLive = true → ∃ r, e.m_storage.u_right = some r ∧
        (∀ s' u, g r s = Outcome.returned s' u →
          e.mapMatch opsL2 opsR2 f g s = Outcome.returned s' ⟨false, ⟨none, some u⟩⟩) ∧
        (∀ s', g r s = Outcome.threw s' → e.mapMatch opsL2 opsR2 f g s = Outcome.threw s') ∧
        (g r s ≠ Outcome.undefined →
          invocations (e.mapMatch opsL2 opsR2 (uncountedUnary f) (countedUnary g) (n, s))
            = some (n + 1) ∧
          invocations (e.mapMatch opsL2 opsR2 (countedUnary f) (uncountedUnary g) (n, s))
            = some n)) ∧
    (∀ s' m, e.mapMatch opsL2 opsR2 f g s = Outcome.returned s' m →
        m.hasLeft = e.hasLeft ∧ m.invariant = true) := by
  rcases e with ⟨_ | _, ⟨_ | l, _ | r⟩⟩ <;>
    simp [invariant, leftLive, rightLive, hasLeft] at he
  · refine ⟨by simp [leftLive], fun _ => ⟨r, rfl, ?_, ?_, fun h => ?_⟩, ?_⟩
    · intro s' u hg
      simp [mapMatch, hg, wrapRight_returned opsR2 hR2]
    · intro s' hg
      simp [mapMatch, hg, wrapRight]
    · simp only [mapMatch, countedUnary, uncountedUnary, Bool.false_eq_true, if_false,
        invocations_wrapRight]
      exact ⟨invocations_counted (g r) n s h, invocations_uncounted (g r) n s h⟩
    · intro s' m hm
      simp only [mapMatch, Bool.false_eq_true, if_false] at hm
      cases hg : g r s with
      | returned s'' u =>
        rw [hg, wrapRight_returned opsR2 hR2] at hm
        injection hm with _ h2
        subst h2
        simp [hasLeft, invariant, leftLive, rightLive]
      | threw s'' => simp [hg, wrapRight] at hm
      | undefined => simp [hg, wrapRight] at hm
  · refine ⟨fun _ => ⟨l, rfl, ?_, ?_, fun h => ?_⟩, by simp [rightLive], ?_⟩
    · intro s' u hf
      simp [mapMatch, hf, wrapLeft_returned opsL2 hL2]
    · intro s' hf
      simp [mapMatch, hf, wrapLeft]
    · simp only [mapMatch, countedUnary, uncountedUnary, if_true, invocations_wrapLeft]
      exact ⟨invocations_counted (f l) n s h, invocations_uncounted (f l) n s h⟩
    · intro s' m hm
      simp only [mapMatch, if_true] at hm
      cases hf : f l s with
      | returned s'' u =>
        rw [hf, wrapLeft_returned opsL2 hL2] at hm
        injection hm with _ h2
        subst h2
        simp [hasLeft, invariant, leftLive, rightLive]
      | threw s'' => simp [hf, wrapLeft] at hm
      | undefined => simp [hf, wrapLeft] at hm

/-- Witness for C18: on Left 2, `mapMatch(x * 2, negation)` gives Left 4, the left transform
being run once and the right one not at all. -/
theorem mapMatch_runs_one_witness :
    (⟨true, ⟨some 2, none⟩⟩ : Either Nat Bool).invariant = true ∧
    (⟨true, ⟨some 2, none⟩⟩ : Either Nat Bool).mapMatch (ValueOps.trivial Nat)
        (ValueOps.trivial Bool) (fun x (s : Unit) => Outcome.returned s (x * 2))
        (fun x (s : Unit) => Outcome.returned s (!x)) ()
      = Outcome.returned () ⟨true, ⟨some 4, none⟩⟩ ∧
    invocations ((⟨true, ⟨some 2, none⟩⟩ : Either Nat Bool).mapMatch (ValueOps.trivial Nat)
        (ValueOps.trivial Bool)
        (countedUnary fun x (s : Unit) => Outcome.returned s (x * 2))
        (uncountedUnary fun x (s : Unit) => Outcome.returned s (!x)) (0, ()))
      = some (0 + 1) ∧
    invocations ((⟨true, ⟨some 2, none⟩⟩ : Either Nat Bool).mapMatch (ValueOps.trivial Nat)
        (ValueOps.trivial Bool)
        (uncountedUnary fun x (s : Unit) => Outcome.returned s (x * 2))
        (countedUnary fun x (s : Unit) => Outcome.returned s (!x)) (0, ()))
      = some 0 :=
  have h := mapMatch_runs_one (ValueOps.trivial Nat) (ValueOps.trivial Bool)
    (ValueOps.trivial_lawful Nat) (ValueOps.trivial_lawful Bool)
    (⟨true, ⟨some 2, none⟩⟩ : Either Nat Bool) rfl
    (fun x (s : Unit) => Outcome.returned s (x * 2))
    (fun x (s : Unit) => Outcome.returned s (!x)) () 0
  ⟨rfl,
    (h.1 rfl).elim fun l hl => (hl.2.1 () (l * 2) rfl).trans (by cases hl.1; rfl),
    (h.1 rfl).elim fun l hl => (hl.2.2.2 (by simp)).1,
    (h.1 rfl).elim fun l hl => (hl.2.2.2 (by simp)).2⟩

/-- C19 (mapMatch is the universal eliminator): for every `Either` `e`, transforms `f`, `g`
and fallback `fb`, with the effects of the callables included: `e.mapLeft(f)` ends as
`e.mapMatch(f, identity)` ends and `e.mapRight(g)` as `e.mapMatch(identity, g)`; and on a
well-formed `e`, `e.joinLeft(fb)` ends as `e.mapMatch(identity, _ => fb())` ends, returning
the value that result holds in whichever alternative, and `e.joinRight(fb)` likewise with
`e.mapMatch(_ => fb(), identity)`. -/
theorem mapMatch_universal {σ U : Type} (opsL : ValueOps L) (opsR : ValueOps R)
    (opsU : ValueOps U) (hL : opsL.Lawful) (hR : opsR.Lawful) (e : Either L R)
    (he : e.invariant = true) (f : L → σ → Outcome σ U) (g : R → σ → Outcome σ U)
    (fbL : σ → Outcome σ L) (fbR : σ → Outcome σ R) (s : σ) :
    e.mapLeftCopy opsR opsU f s = e.mapLeftViaMapMatch opsR opsU f s ∧
    e.mapRightCopy opsL opsU g s = e.mapRightViaMapMatch opsL opsU g s ∧
    (e.joinLeftCopy opsL fbL s).mapValue some = e.joinLeftViaMapMatch opsL fbL s ∧
    (e.joinRightCopy opsR fbR s).mapValue some = e.joinRightViaMapMatch opsR fbR s := by
  rcases e with ⟨_ | _, ⟨_ | l, _ | r⟩⟩ <;>
    simp [invariant, leftLive, rightLive, hasLeft] at he
  · refine ⟨?_, ?_, ?_, ?_⟩
    · simp only [mapLeftCopy, mapLeftViaMapMatch, mapMatch, identity, ctorEmplaceRight,
        Storage.emplaceRight]
      cases opsR.copyConstruct r <;>
        simp [wrapRight, ctorEmplaceRight, Storage.emplaceRight, hR.moveConstruct_fst]
    · simp [mapRightCopy, mapRightViaMapMatch, mapMatch]
    · simp only [joinLeftCopy, joinLeftViaMapMatch, mapMatch]
      cases fbL s <;>
        simp [wrapRight, ctorEmplaceRight, Storage.emplaceRight, hL.moveConstruct_fst,
          Outcome.mapValue, held]
    · simp only [joinRightCopy, joinRightViaMapMatch, mapMatch, identity]
      cases opsR.copyConstruct r <;>
        simp [wrapRight, ctorEmplaceRight, Storage.emplaceRight, hR.moveConstruct_fst,
          Outcome.mapValue, held]
  · refine ⟨?_, ?_, ?_, ?_⟩
    · simp [mapLeftCopy, mapLeftViaMapMatch, mapMatch]
    · simp only [mapRightCopy, mapRightViaMapMatch, mapMatch, identity, ctorEmplaceLeft,
        Storage.emplaceLeft]
      cases opsL.copyConstruct l <;>
        simp [wrapLeft, ctorEmplaceLeft, Storage.emplaceLeft, hL.moveConstruct_fst]
    · simp only [joinLeftCopy, joinLeftViaMapMatch, mapMatch, identity]
      cases opsL.copyConstruct l <;>
        simp [wrapLeft, ctorEmplaceLeft, Storage.emplaceLeft, hL.moveConstruct_fst,
          Outcome.mapValue, held]
    · simp only [joinRightCopy, joinRightViaMapMatch, mapMatch]
      cases fbR s <;>
        simp [wrapLeft, ctorEmplaceLeft, Storage.emplaceLeft, hR.moveConstruct_fst,
          Outcome.mapValue, held]

/-- Witness for C19: on a Right-holding `Either<Nat, Bool>`, with transforms `x * 2` and
negation and fallbacks returning 13 and false. -/
theorem mapMatch_universal_witness :
    (⟨false, ⟨none, some true⟩⟩ : Either Nat Bool).invariant = true ∧
    (⟨false, ⟨none, some true⟩⟩ : Either Nat Bool).mapLeftCopy (ValueOps.trivial Bool)
        (ValueOps.trivial Nat) (fun x (s : Unit) => Outcome.returned s (x * 2)) ()
      = (⟨false, ⟨none, some true⟩⟩ : Either Nat Bool).mapLeftViaMapMatch
        (ValueOps.trivial Bool) (ValueOps.trivial Nat)
        (fun x (s : Unit) => Outcome.returned s (x * 2)) () ∧
    (⟨false, ⟨none, some true⟩⟩ : Either Nat Bool).mapRightCopy (ValueOps.trivial Nat)
        (ValueOps.trivial Nat) (fun x (s : Unit) => Outcome.returned s (if x then 1 else 0)) ()
      = (⟨false, ⟨none, some true⟩⟩ : Either Nat Bool).mapRightViaMapMatch
        (ValueOps.trivial Nat) (ValueOps.trivial Nat)
        (fun x (s : Unit) => Outcome.returned s (if x then 1 else 0)) () ∧
    ((⟨false, ⟨none, some true⟩⟩ : Either Nat Bool).joinLeftCopy (ValueOps.trivial Nat)
        (fun s : Unit => Outcome.returned s 13) ()).mapValue some
      = (⟨false, ⟨none, some true⟩⟩ : Either Nat Bool).joinLeftViaMapMatch
        (ValueOps.trivial Nat) (fun s : Unit => Outcome.returned s 13) () ∧
    ((⟨false, ⟨none, some true⟩⟩ : Either Nat Bool).joinRightCopy (ValueOps.trivial Bool)
        (fun s : Unit => Outcome.returned s false) ()).mapValue some
      = (⟨false, ⟨none, some true⟩⟩ : Either Nat Bool).joinRightViaMapMatch
        (ValueOps.trivial Bool) (fun s : Unit => Outcome.returned s false) () ∧
    (⟨false, ⟨none, some true⟩⟩ : Either Nat Bool).joinLeftViaMapMatch
        (ValueOps.trivial Nat) (fun s : Unit => Outcome.returned s 13) ()
      = Outcome.returned () (some 13) :=
  have h := mapMatch_universal (ValueOps.trivial Nat) (ValueOps.trivial Bool)
    (ValueOps.trivial Nat) (ValueOps.trivial_lawful Nat) (ValueOps.trivial_lawful Bool)
    (⟨false, ⟨none, some true⟩⟩ : Either Nat Bool) rfl
    (fun x (s : Unit) => Outcome.returned s (x * 2))
    (fun x (s : Unit) => Outcome.returned s (if x then 1 else 0))
    (fun s : Unit => Outcome.returned s 13) (fun s : Unit => Outcome.returned s false) ()
  ⟨rfl, h.1, h.2.1, h.2.2.1, h.2.2.2, rfl⟩

/-- C20 (flatten): for every well-formed `Either<L,R>`, `flattenLeft()` returns the Left
value unchanged when Left is live (the `&&` overload always, the `const&` overload unless
the copy raises), and otherwise returns the `L` that the constructor
`Left_(EitherTags::emplaceRight, r)` builds from the Right value `r`. In the nested case
`L = Either<X,R>` a Right-holding outer value `r` becomes a Right-holding `Either<X,R>` with
the same `r`, and a Left-holding outer value gives the inner `Either<X,R>`.
`flattenRight()` is the mirror: on `Either<L, Either<L,X>>` an outer Left `l` becomes a
Left-holding `Either<L,X>` with the same `l`. -/
theorem flatten_flattens {X : Type} (opsL : ValueOps L) (opsR : ValueOps R)
    (hL : opsL.Lawful) (hR : opsR.Lawful)
    (e : Either L R) (he : e.invariant = true)
    (taggedRight : R → Option L) (taggedLeft : L → Option R)
    (opsN : ValueOps (Either X R)) (hN : opsN.Lawful)
    (eN : Either (Either X R) R) (heN : eN.invariant = true)
    (opsM : ValueOps (Either L X)) (hM : opsM.Lawful)
    (eM : Either L (Either L X)) (heM : eM.invariant = true) :
    (e.leftLive = true → ∃ l, e.m_storage.u_left = some l ∧
        e.flattenLeftMove opsL taggedRight = Unwrap.value l ∧
        (opsL.copyConstruct l ≠ none → e.flattenLeftCopy opsL taggedRight = Unwrap.value l)) ∧
    (e.rightLive = true → ∃ r, e.m_storage.u_right = some r ∧
        ∀ v, taggedRight r = some v →
          e.flattenLeftCopy opsL taggedRight = Unwrap.value v ∧
          e.flattenLeftMove opsL taggedRight = Unwrap.value v) ∧
    (e.rightLive = true → ∃ r, e.m_storage.u_right = some r ∧
        e.flattenRightMove opsR taggedLeft = Unwrap.value r ∧
        (opsR.copyConstruct r ≠ none → e.flattenRightCopy opsR taggedLeft = Unwrap.value r)) ∧
    (e.leftLive = true → ∃ l, e.m_storage.u_left = some l ∧
        ∀ v, taggedLeft l = some v →
          e.flattenRightCopy opsR taggedLeft = Unwrap.value v ∧
          e.flattenRightMove opsR taggedLeft = Unwrap.value v) ∧
    (eN.rightLive = true → ∃ r, eN.m_storage.u_right = some r ∧
        eN.flattenLeftMove opsN
            (fun x => Either.ctorEmplaceRight (fun y => some (opsR.moveConstruct y).1) x)
          = Unwrap.value ⟨false, ⟨none, some r⟩⟩ ∧
        (opsR.copyConstruct r ≠ none →
          eN.flattenLeftCopy opsN (fun x => Either.ctorEmplaceRight opsR.copyConstruct x)
            = Unwrap.value ⟨false, ⟨none, some r⟩⟩)) ∧
    (eN.leftLive = true → ∃ inner, eN.m_storage.u_left = some inner ∧
        eN.flattenLeftMove opsN
            (fun x => Either.ctorEmplaceRight (fun y => some (opsR.moveConstruct y).1) x)
          = Unwrap.value inner) ∧
    (eM.leftLive = true → ∃ l, eM.m_storage.u_left = some l ∧
        eM.flattenRightMove opsM
            (fun x => Either.ctorEmplaceLeft (fun y => some (opsL.moveConstruct y).1) x)
          = Unwrap.value ⟨true, ⟨some l, none⟩⟩ ∧
        (opsL.copyConstruct l ≠ none →
          eM.flattenRightCopy opsM (fun x => Either.ctorEmplaceLeft opsL.copyConstruct x)
            = Unwrap.value ⟨true, ⟨some l, none⟩⟩)) ∧
    (eM.rightLive = true → ∃ inner, eM.m_storage.u_right = some inner ∧
        eM.flattenRightMove opsM
            (fun x => Either.ctorEmplaceLeft (fun y => some (opsL.moveConstruct y).1) x)
          = Unwrap.value inner) := by
  refine ⟨?_, ?_, ?_, ?_, ?_, ?_, ?_, ?_⟩
  · rcases e with ⟨_ | _, ⟨_ | l, _ | r⟩⟩ <;>
      simp [invariant, leftLive, rightLive, hasLeft] at he
    · simp [leftLive]
    · intro _
      refine ⟨l, rfl, by simp [flattenLeftMove, moveOutLeft, hL.moveConstruct_fst], fun h => ?_⟩
      simp [flattenLeftCopy, copyOutLeft, hL.copyConstruct_eq_some l h]
  · rcases e with ⟨_ | _, ⟨_ | l, _ | r⟩⟩ <;>
      simp [invariant, leftLive, rightLive, hasLeft] at he
    · intro _
      refine ⟨r, rfl, fun v hv => ?_⟩
      simp [flattenLeftCopy, flattenLeftMove, hv]
    · simp [rightLive]
  · rcases e with ⟨_ | _, ⟨_ | l, _ | r⟩⟩ <;>
      simp [invariant, leftLive, rightLive, hasLeft] at he
    · intro _
      refine ⟨r, rfl, by simp [flattenRightMove, moveOutRight, hR.moveConstruct_fst],
        fun h => ?_⟩
      simp [flattenRightCopy, copyOutRight, hR.copyConstruct_eq_some r h]
    · simp [rightLive]
  · rcases e with ⟨_ | _, ⟨_ | l, _ | r⟩⟩ <;>
      simp [invariant, leftLive, rightLive, hasLeft] at he
    · simp [leftLive]
    · intro _
      refine ⟨l, rfl, fun v hv => ?_⟩
      simp [flattenRightCopy, flattenRightMove, hv]
  · rcases eN with ⟨_ | _, ⟨_ | l, _ | r⟩⟩ <;>
      simp [invariant, leftLive, rightLive, hasLeft] at heN
    · intro _
      refine ⟨r, rfl, ?_, fun h => ?_⟩
      · simp [flattenLeftMove, ctorEmplaceRight, Storage.emplaceRight, hR.moveConstruct_fst]
      · simp [flattenLeftCopy, ctorEmplaceRight, Storage.emplaceRight,
          hR.copyConstruct_eq_some r h]
    · simp [rightLive]
  · rcases eN with ⟨_ | _, ⟨_ | l, _ | r⟩⟩ <;>
      simp [invariant, leftLive, rightLive, hasLeft] at heN
    · simp [leftLive]
    · intro _
      exact ⟨l, rfl, by simp [flattenLeftMove, moveOutLeft, hN.moveConstruct_fst]⟩
  · rcases eM with ⟨_ | _, ⟨_ | l, _ | r⟩⟩ <;>
      simp [invariant, leftLive, rightLive, hasLeft] at heM
    · simp [leftLive]
    · intro _
      refine ⟨l, rfl, ?_, fun h => ?_⟩
      · simp [flattenRightMove, ctorEmplaceLeft, Storage.emplaceLeft, hL.moveConstruct_fst]
      · simp [flattenRightCopy, ctorEmplaceLeft, Storage.emplaceLeft,
          hL.copyConstruct_eq_some l h]
  · rcases eM with ⟨_ | _, ⟨_ | l, _ | r⟩⟩ <;>
      simp [invariant, leftLive, rightLive, hasLeft] at heM
    · intro _
      exact ⟨r, rfl, by simp [flattenRightMove, moveOutRight, hM.moveConstruct_fst]⟩
    · simp [rightLive]

/-- Witness for C20: a Right-holding `Either<Either<Nat,Bool>,Bool>` with `true` flattens to
the Right-holding `Either<Nat,Bool>` with `true`; a Left-holding
`Either<Nat,Either<Nat,Nat>>` with 2 flattens to the Left-holding `Either<Nat,Nat>` with
2; and a Left-holding `Either<Nat,Bool>` with 2 flattens to 2. -/
theorem flatten_flattens_witness :
    (⟨true, ⟨some 2, none⟩⟩ : Either Nat Bool).invariant = true ∧
    (⟨false, ⟨none, some true⟩⟩ : Either (Either Nat Bool) Bool).invariant = true ∧
    (⟨true, ⟨some 2, none⟩⟩ : Either Nat (Either Nat Nat)).invariant = true ∧
    (∃ l, (⟨true, ⟨some 2, none⟩⟩ : Either Nat Bool).m_storage.u_left = some l ∧
      (⟨true, ⟨some 2, none⟩⟩ : Either Nat Bool).flattenLeftCopy (ValueOps.trivial Nat)
        (fun b => some (if b then 1 else 0)) = Unwrap.value l) ∧
    (∃ r, (⟨false, ⟨none, some true⟩⟩ : Either (Either Nat Bool) Bool).m_storage.u_right
        = some r ∧
      (⟨false, ⟨none, some true⟩⟩ : Either (Either Nat Bool) Bool).flattenLeftCopy
        (ValueOps.trivial (Either Nat Bool))
        (fun x => Either.ctorEmplaceRight (ValueOps.trivial Bool).copyConstruct x)
        = Unwrap.value ⟨false, ⟨none, some r⟩⟩) ∧
    (∃ l, (⟨true, ⟨some 2, none⟩⟩ : Either Nat (Either Nat Nat)).m_storage.u_left = some l ∧
      (⟨true, ⟨some 2, none⟩⟩ : Either Nat (Either Nat Nat)).flattenRightCopy
        (ValueOps.trivial (Either Nat Nat))
        (fun x => Either.ctorEmplaceLeft (ValueOps.trivial Nat).copyConstruct x)
        = Unwrap.value ⟨true, ⟨some l, none⟩⟩) :=
  have h := flatten_flattens (ValueOps.trivial Nat) (ValueOps.trivial Bool)
    (ValueOps.trivial_lawful Nat) (ValueOps.trivial_lawful Bool)
    (⟨true, ⟨some 2, none⟩⟩ : Either Nat Bool) rfl
    (fun b => some (if b then 1 else 0)) (fun n => some (n == 0))
    (ValueOps.trivial (Either Nat Bool)) (ValueOps.trivial_lawful (Either Nat Bool))
    (⟨false, ⟨none, some true⟩⟩ : Either (Either Nat Bool) Bool) rfl
    (ValueOps.trivial (Either Nat Nat)) (ValueOps.trivial_lawful (Either Nat Nat))
    (⟨true, ⟨some 2, none⟩⟩ : Either Nat (Either Nat Nat)) rfl
  ⟨rfl, rfl, rfl,
    (h.1 rfl).elim fun l hl => ⟨l, hl.1, hl.2.2 (by simp [ValueOps.trivial])⟩,
    (h.2.2.2.2.1 rfl).elim fun r hr => ⟨r, hr.1, hr.2.2 (by simp [ValueOps.trivial])⟩,
    (h.2.2.2.2.2.2.1 rfl).elim fun l hl => ⟨l, hl.1, hl.2.2 (by simp [ValueOps.trivial])⟩⟩

/-- C25, counterexample: an `Either<vector, Nat>` holding Left `[1, 2]` is move-assigned to
itself. `operator=(Either&&)` runs `m_storage.u_left = std::move(that.m_storage.u_left)` on
one and the same object, and the vector's move assignment to itself leaves it empty: the
`Either` still holds Left, but no longer the value it had. -/
theorem assignMoveSelf_loses_value :
    ValueOps.vectorLike.Lawful ∧
    (⟨true, ⟨some [1, 2], none⟩⟩ : Either (List Nat) Nat).invariant = true ∧
    (⟨true, ⟨some [1, 2], none⟩⟩ : Either (List Nat) Nat).assignMoveSelf ValueOps.vectorLike
        (ValueOps.trivial Nat) = Outcome.returned ⟨true, ⟨some [], none⟩⟩ () ∧
    (⟨true, ⟨some [1, 2], none⟩⟩ : Either (List Nat) Nat).assignMoveSelf ValueOps.vectorLike
        (ValueOps.trivial Nat) ≠ Outcome.returned ⟨true, ⟨some [1, 2], none⟩⟩ () :=
  ⟨ValueOps.vectorLike_lawful, rfl, rfl, by decide⟩

/-- C25, as amended: for well-formed `Either` objects `a` and `b` (any of the four
combinations of alternatives) of contained types with value semantics: whenever the copy
assignment `a = b` returns, `a` is equal to `b` (same alternative, equal value) and `b` is
unchanged, also when `a` and `b` are the same object; it returns whenever the copies of the
contained types do not raise, and when it raises `b` is unchanged; the move assignment
`a = std::move(b)` of two distinct objects returns and leaves `a` with the alternative and
value `b` had, and `b` well-formed with `hasLeft()` unchanged; the move assignment of `a` to
itself returns and keeps the alternative of `a` and exactly one live value, which is what
the contained type's move assignment to itself leaves: the value `a` had whenever that
operation preserves it. -/
theorem assignment_between_eithers (opsL : ValueOps L) (opsR : ValueOps R) (hL : opsL.Lawful)
    (hR : opsR.Lawful) (a b : Either L R) (ha : a.invariant = true)
    (hb : b.invariant = true) :
    (∀ a' b' : Either L R, a.assignCopy opsL opsR b = Outcome.returned (a', b') () →
      a' = b ∧ b' = b) ∧
    (opsL.NoThrow → opsR.NoThrow → a.assignCopy opsL opsR b = Outcome.returned (b, b) ()) ∧
    (∀ a' b' : Either L R, a.assignCopy opsL opsR b = Outcome.threw (a', b') → b' = b) ∧
    (∀ a' : Either L R, a.assignCopySelf opsL opsR = Outcome.returned a' () → a' = a) ∧
    (opsL.NoThrow → opsR.NoThrow → a.assignCopySelf opsL opsR = Outcome.returned a ()) ∧
    (∃ b' : Either L R, a.assignMove opsL opsR b = Outcome.returned (b, b') () ∧
      b'.hasLeft = b.hasLeft ∧ b'.invariant = true) ∧
    (∃ a' : Either L R, a.assignMoveSelf opsL opsR = Outcome.returned a' () ∧
      a'.hasLeft = a.hasLeft ∧ a'.invariant = true ∧
      a'.m_storage.u_left = a.m_storage.u_left.map opsL.moveAssignSelf ∧
      a'.m_storage.u_right = a.m_storage.u_right.map opsR.moveAssignSelf ∧
      ((∀ v, opsL.moveAssignSelf v = v) → (∀ v, opsR.moveAssignSelf v = v) → a' = a)) := by
  refine ⟨fun a' b' h => assignCopy_of_returned opsL opsR hL hR a b ha hb a' b' h,
    fun hnL hnR => assignCopy_returned opsL opsR hL hR hnL hnR a b ha hb,
    fun a' b' h => assignCopy_threw_that opsL opsR a b a' b' h,
    fun a' h => assignCopySelf_of_returned opsL opsR hL hR a ha a' h,
    fun hnL hnR => assignCopySelf_returned opsL opsR hL hR hnL hnR a ha,
    assignMove_returned opsL opsR hL hR a b ha hb,
    ⟨_, assignMoveSelf_returned opsL opsR a ha, rfl, ?_, rfl, rfl, ?_⟩⟩
  · rcases a with ⟨_ | _, ⟨_ | l, _ | r⟩⟩ <;>
      simp [invariant, leftLive, rightLive, hasLeft] at ha <;>
      simp [invariant, leftLive, rightLive, hasLeft]
  · intro h1 h2
    rcases a with ⟨_ | _, ⟨_ | l, _ | r⟩⟩ <;>
      simp [invariant, leftLive, rightLive, hasLeft] at ha <;> simp [h1, h2]

/-- Witness for C25 as amended: `a` holds Left 2 and `b` holds Right true; the Left type is
one whose copy constructor always raises, so that the copy assignment raises and leaves `b`
as it was, and the move assignment returns. -/
theorem assignment_between_eithers_witness :
    (ValueOps.throwingCopy 0 : ValueOps Nat).Lawful ∧
    (ValueOps.trivial Bool).Lawful ∧
    (⟨true, ⟨some 2, none⟩⟩ : Either Nat Bool).invariant = true ∧
    (⟨false, ⟨none, some true⟩⟩ : Either Nat Bool).invariant = true ∧
    (⟨false, ⟨none, some true⟩⟩ : Either Nat Bool).assignCopy (ValueOps.throwingCopy 0)
        (ValueOps.trivial Bool) ⟨true, ⟨some 2, none⟩⟩
      = Outcome.threw (⟨false, ⟨none, none⟩⟩, ⟨true, ⟨some 2, none⟩⟩) ∧
    (⟨true, ⟨some 2, none⟩⟩ : Either Nat Bool).assignCopy (ValueOps.throwingCopy 0)
        (ValueOps.trivial Bool) ⟨false, ⟨none, some true⟩⟩
      = Outcome.returned (⟨false, ⟨none, some true⟩⟩, ⟨false, ⟨none, some true⟩⟩) () ∧
    (∀ a' b' : Either Nat Bool,
      (⟨true, ⟨some 2, none⟩⟩ : Either Nat Bool).assignCopy (ValueOps.throwingCopy 0)
          (ValueOps.trivial Bool) ⟨false, ⟨none, some true⟩⟩ = Outcome.returned (a', b') () →
      a' = ⟨false, ⟨none, some true⟩⟩ ∧ b' = ⟨false, ⟨none, some true⟩⟩) ∧
    (∃ b' : Either Nat Bool,
      (⟨true, ⟨some 2, none⟩⟩ : Either Nat Bool).assignMove (ValueOps.throwingCopy 0)
          (ValueOps.trivial Bool) ⟨false, ⟨none, some true⟩⟩
        = Outcome.returned (⟨false, ⟨none, some true⟩⟩, b') () ∧
      b'.hasLeft = (⟨false, ⟨none, some true⟩⟩ : Either Nat Bool).hasLeft ∧
      b'.invariant = true) ∧
    (∃ b' : Either Nat Bool,
      (⟨false, ⟨none, some true⟩⟩ : Either Nat Bool).assignMove (ValueOps.throwingCopy 0)
          (ValueOps.trivial Bool) ⟨true, ⟨some 2, none⟩⟩
        = Outcome.returned (⟨true, ⟨some 2, none⟩⟩, b') () ∧
      b'.hasLeft = (⟨true, ⟨some 2, none⟩⟩ : Either Nat Bool).hasLeft ∧
      b'.invariant = true) :=
  have h := assignment_between_eithers (ValueOps.throwingCopy 0) (ValueOps.trivial Bool)
    (ValueOps.throwingCopy_lawful 0) (ValueOps.trivial_lawful Bool)
    (⟨true, ⟨some 2, none⟩⟩ : Either Nat Bool) ⟨false, ⟨none, some true⟩⟩ rfl rfl
  have h' := assignment_between_eithers (ValueOps.throwingCopy 0) (ValueOps.trivial Bool)
    (ValueOps.throwingCopy_lawful 0) (ValueOps.trivial_lawful Bool)
    (⟨false, ⟨none, some true⟩⟩ : Either Nat Bool) ⟨true, ⟨some 2, none⟩⟩ rfl rfl
  ⟨ValueOps.throwingCopy_lawful 0, ValueOps.trivial_lawful Bool, rfl, rfl, rfl, rfl, h.1,
    h.2.2.2.2.2.1, h'.2.2.2.2.2.1⟩

/-- C26 (default construction): a default-constructed `Either<L,R>`, whenever the default
constructor of `R` returns, holds the Right alternative (`hasRight()` is true, `hasLeft()`
is false, exactly the Right value is live) and `accessRight()` is the default-constructed
`R`. -/
theorem ctorDefault_holds_right (traits : RequireTraits) (dflt : Unit → Option R) (r0 : R)
    (h : dflt () = some r0) :
    ∃ e : Either L R, Either.ctorDefault dflt = some e ∧
      e.hasRight = true ∧ e.hasLeft = false ∧ e.invariant = true ∧
      e.accessRight traits = Access.value r0 :=
  ⟨⟨false, ⟨none, some r0⟩⟩, by simp [ctorDefault, Storage.emplaceRight, h], rfl, rfl, rfl,
    accessRight_of_right traits r0 none⟩

/-- Witness for C26: `Either<Nat, Bool>()` with `Bool()` being `false`. -/
theorem ctorDefault_holds_right_witness :
    ∃ e : Either Nat Bool, Either.ctorDefault (fun _ => some false) = some e ∧
      e.hasRight = true ∧ e.hasLeft = false ∧ e.invariant = true ∧
      e.accessRight DefaultEitherRequireTraits = Access.value false :=
  ctorDefault_holds_right DefaultEitherRequireTraits (fun _ => some false) false rfl

/-- C21, the code at a failing input: `Left_` is `int`, `Right_` is `long` (distinct types,
`int` convertible to `long`) and `v` is a non-`const` `int` variable holding 3. The
conversion `Either<int, long> e = v;` reaches the constructor template taking `R&&`, which
builds the Right alternative: `e` holds Right 3 and `accessLeft()` is a misuse. The same
value as a `const` lvalue or as an rvalue gives Left 3, and so does any `Left_` that is not
convertible to `Right_`. The example of the header is of that last kind and behaves as
documented: `tryDivide(8, 4)` has Left 2, `tryDivide(3, 0)` has Right
"divide by zero error", `tryDivide(4, 3).joinLeft(13)` is 1 and
`tryDivide(4, 0).joinLeft(13)` is 13. -/
theorem implicitConversion_of_left_lvalue_holds_right :
    (Either.implicitConversion (ValueOps.trivial Int) (some fun x => x) false
        ArgCategory.lvalue 3 : Option (Either Int Int)) = some ⟨false, ⟨none, some 3⟩⟩ ∧
    (⟨false, ⟨none, some 3⟩⟩ : Either Int Int).hasLeft = false ∧
    (⟨false, ⟨none, some 3⟩⟩ : Either Int Int).accessLeft DefaultEitherRequireTraits
      = Access.terminated (PolicyCall.onBadAccess true) ∧
    (Either.implicitConversion (ValueOps.trivial Int) (some fun x => x) false
        ArgCategory.constLvalue 3 : Option (Either Int Int)) = some ⟨true, ⟨some 3, none⟩⟩ ∧
    (Either.implicitConversion (ValueOps.trivial Int) (some fun x => x) false
        ArgCategory.rvalue 3 : Option (Either Int Int)) = some ⟨true, ⟨some 3, none⟩⟩ ∧
    (Either.implicitConversion (ValueOps.trivial Int) none false
        ArgCategory.lvalue 3 : Option (Either Int String)) = some ⟨true, ⟨some 3, none⟩⟩ ∧
    tryDivide 8 4 = some ⟨true, ⟨some 2, none⟩⟩ ∧
    tryDivide 3 0 = some ⟨false, ⟨none, some "divide by zero error"⟩⟩ ∧
    (tryDivide 4 3).map (fun e => e.joinLeftMove (ValueOps.trivial Int)
        (fun s : Unit => Outcome.returned s 13) ()) = some (Outcome.returned () 1) ∧
    (tryDivide 4 0).map (fun e => e.joinLeftMove (ValueOps.trivial Int)
        (fun s : Unit => Outcome.returned s 13) ()) = some (Outcome.returned () 13) := by
  refine ⟨rfl, rfl, rfl, rfl, rfl, rfl, ?_, ?_, ?_, ?_⟩ <;> decide

/-- C27 (same type on both sides): when `Left_` and `Right_` are the same type `T`, the
alias `EnableOverloadRight_t` is false for every argument type, so the Right converting
constructors and the Right assignment operators take no part in overload resolution;
every implicit conversion from a `T` value, whatever its value category, builds an
`Either` holding Left with that value, and every assignment of a raw `T` value leaves the
`Either` holding Left with that value. Of the other operations, the `emplaceLeft` tag
constructor and `emplaceLeft()` give Left, and copy/move construction, copy/move assignment
and swap give the alternative the source held: so a Right-holding `Either<T,T>` comes only
from the `emplaceRight` tag constructor, `emplaceRight()`, the default constructor, or a
copy, move or swap from a Right-holding `Either`. -/
theorem same_type_conversions_hold_left {T : Type} (opsT : ValueOps T) (hT : opsT.Lawful)
    (toRight : Option (T → T)) (category : ArgCategory) (v : T) (e : Either T T)
    (he : e.invariant = true) :
    (∀ c, EnableOverloadRight_t c true = false) ∧
    (Either.implicitConversion opsT toRight true ArgCategory.rvalue v
      = some ⟨true, ⟨some v, none⟩⟩) ∧
    (opsT.copyConstruct v ≠ none →
      Either.implicitConversion opsT toRight true ArgCategory.lvalue v
        = some ⟨true, ⟨some v, none⟩⟩ ∧
      Either.implicitConversion opsT toRight true ArgCategory.constLvalue v
        = some ⟨true, ⟨some v, none⟩⟩) ∧
    (∀ x e', Either.implicitConversion opsT toRight true category x = some e' →
      e'.hasLeft = true) ∧
    (e.rawAssignment opsT opsT toRight true ArgCategory.rvalue v
      = Outcome.returned ⟨true, ⟨some v, none⟩⟩ ()) ∧
    (opsT.copyConstruct v ≠ none →
      e.rawAssignment opsT opsT toRight true ArgCategory.lvalue v
        = Outcome.returned ⟨true, ⟨some v, none⟩⟩ () ∧
      e.rawAssignment opsT opsT toRight true ArgCategory.constLvalue v
        = Outcome.returned ⟨true, ⟨some v, none⟩⟩ ()) ∧
    (∀ x e', e.rawAssignment opsT opsT toRight true category x = Outcome.returned e' () →
      e'.hasLeft = true) ∧
    (∀ (A : Type) (ctor : A → Option T) (a : A) (e' : Either T T),
      Either.ctorEmplaceLeft ctor a = some e' → e'.hasLeft = true) ∧
    (∀ (A : Type) (ctor : A → Option T) (a : A) (e' : Either T T) (x : T),
      e.emplaceLeft opsT ctor a = Outcome.returned e' x → e'.hasLeft = true) ∧
    (∀ that' n, e.ctorCopy opsT opsT = Outcome.returned that' n → n.hasLeft = e.hasLeft) ∧
    (∀ that' n, e.ctorMove opsT opsT = Outcome.returned that' n → n.hasLeft = e.hasLeft) ∧
    (∀ a a' e' : Either T T, a.assignCopy opsT opsT e = Outcome.returned (a', e') () →
      a'.hasLeft = e.hasLeft) ∧
    (∀ a a' e' : Either T T, a.assignMove opsT opsT e = Outcome.returned (a', e') () →
      a'.hasLeft = e.hasLeft) ∧
    (∀ a a' e' : Either T T, a.swap opsT opsT e = Outcome.returned (a', e') () →
      a'.hasLeft = e.hasLeft ∧ e'.hasLeft = a.hasLeft) := by
  have hsel : ∀ c, selectForLeftArgument toRight true c =
      match c with
      | ArgCategory.rvalue => Selected.leftMove
      | _ => Selected.leftCopy := by
    intro c
    cases c <;> simp [selectForLeftArgument, EnableOverloadRight_t]
  refine ⟨by simp [EnableOverloadRight_t], ?_, ?_, ?_, ?_, ?_, ?_,
    fun A ctor a e' h => ctorEmplaceLeft_hasLeft ctor a e' h,
    fun A ctor a e' x h => emplaceLeft_hasLeft opsT ctor a e e' x h,
    fun that' n h => ctorCopy_hasLeft opsT opsT e that' n h,
    fun that' n h => ctorMove_hasLeft opsT opsT e that' n h,
    fun a a' e' h => assignCopy_hasLeft opsT opsT a e a' e' h,
    fun a a' e' h => assignMove_hasLeft opsT opsT a e a' e' h,
    fun a a' e' h => swap_hasLeft opsT opsT a e a' e' h⟩
  · simp [implicitConversion, hsel, ctorLeftMove, Storage.emplaceLeft, hT.moveConstruct_fst]
  · intro h
    simp [implicitConversion, hsel, ctorLeftCopy, Storage.emplaceLeft,
      hT.copyConstruct_eq_some v h]
  · intro x e' h
    cases category <;> simp only [implicitConversion, hsel] at h
    · exact ctorEmplaceLeft_hasLeft (fun y => some (opsT.moveConstruct y).1) x e' h
    · exact ctorEmplaceLeft_hasLeft opsT.copyConstruct x e' h
    · exact ctorEmplaceLeft_hasLeft opsT.copyConstruct x e' h
  · simp only [rawAssignment, hsel, assignLeftMove_eq_discard]
    rw [emplaceLeft_returned opsT hT _ v v (hT.moveConstruct_eq_some v) e he]
    rfl
  · intro h
    simp only [rawAssignment, hsel, assignLeftCopy_eq_discard]
    rw [emplaceLeft_returned opsT hT _ v v (hT.copyConstruct_eq_some v h) e he]
    exact ⟨rfl, rfl⟩
  · intro x e' h
    cases category <;> simp only [rawAssignment, hsel] at h
    · rw [assignLeftMove_eq_discard] at h
      obtain ⟨y, hy⟩ := Outcome.discard_eq_returned _ e' h
      exact emplaceLeft_hasLeft opsT _ x e e' y hy
    · rw [assignLeftCopy_eq_discard] at h
      obtain ⟨y, hy⟩ := Outcome.discard_eq_returned _ e' h
      exact emplaceLeft_hasLeft opsT _ x e e' y hy
    · rw [assignLeftCopy_eq_discard] at h
      obtain ⟨y, hy⟩ := Outcome.discard_eq_returned _ e' h
      exact emplaceLeft_hasLeft opsT _ x e e' y hy

/-- Witness for C27: `Either<Nat, Nat>` holding Right 9, converted from and assigned the raw
value 5 given as a non-`const` lvalue. -/
theorem same_type_conversions_hold_left_witness :
    (⟨false, ⟨none, some 9⟩⟩ : Either Nat Nat).invariant = true ∧
    (Either.implicitConversion (ValueOps.trivial Nat) (some fun x => x) true
        ArgCategory.lvalue 5 : Option (Either Nat Nat)) = some ⟨true, ⟨some 5, none⟩⟩ ∧
    (⟨false, ⟨none, some 9⟩⟩ : Either Nat Nat).rawAssignment (ValueOps.trivial Nat)
        (ValueOps.trivial Nat) (some fun x => x) true ArgCategory.lvalue 5
      = Outcome.returned ⟨true, ⟨some 5, none⟩⟩ () :=
  have h := same_type_conversions_hold_left (ValueOps.trivial Nat)
    (ValueOps.trivial_lawful Nat) (some fun x => x) ArgCategory.lvalue 5
    (⟨false, ⟨none, some 9⟩⟩ : Either Nat Nat) rfl
  ⟨rfl, (h.2.2.1 (by simp [ValueOps.trivial])).1,
    (h.2.2.2.2.2.1 (by simp [ValueOps.trivial])).1⟩

end Either

namespace Grid

variable {V : Type}

/-- C22. A grid constructed from dimensions `(n0, n1, ...)` and an initializer list of exactly
`n0 * n1 * ...` values (a number that fits `size_t`) returns from `at(coordinates)`, for
in-range coordinates, the list element at index `i0 + i1 * n0 + i2 * n0 * n1 + ...`, which
exists, whatever the hooks of the policy do. The dimensions are then all non-zero, because
some coordinates are in range. -/
theorem at_returns_list_element (traits : GridRequireTraits) (dflt : V)
    (dimensions coordinates : List Nat) (list : List V)
    (hN : dimensions ≠ [])
    (hlist : list.length = dimensions.prod) (hfit : list.length < sizeModulus)
    (h : (ctorList dflt dimensions list).isInRange coordinates = true) :
    (∀ d ∈ dimensions, d ≠ 0) ∧
      ∃ v, list.get? (DimensionsUtils.linearFormula dimensions coordinates) = some v ∧
        (ctorList dflt dimensions list).atCoordinates traits coordinates = GridAccess.value v := by
  have hno : dimensions.prod < sizeModulus := hlist ▸ hfit
  have hsz : DimensionsUtils.calcSize dimensions = list.length := by
    rw [DimensionsUtils.calcSize_eq_prod dimensions hno, hlist]
  have h0 : 0 ∉ dimensions := by
    intro h0
    have hg : ctorList dflt dimensions list = ⟨[], List.replicate dimensions.length 0⟩ :=
      fillIfEmpty_of_zero_mem _ dimensions (length_resize _ _ _) hno h0
    rw [hg] at h
    have hr := (DimensionsUtils.isInRange_iff _ _).mp h 0
      (by simpa using List.length_pos.mpr hN)
    simp [List.getD_eq_getElem?_getD, List.getElem?_replicate, List.length_pos.mpr hN] at hr
  have hg : ctorList dflt dimensions list = ⟨list, dimensions⟩ := by
    unfold ctorList
    rw [hsz, resize_length]
    exact fillIfEmpty_of_zero_not_mem list dimensions hsz.symm hno h0
  refine ⟨fun d hd hz => h0 (hz ▸ hd), ?_⟩
  rw [hg] at h ⊢
  obtain ⟨v, hv, -, hat⟩ :=
    (access_in_range traits ⟨list, dimensions⟩ coordinates hN hlist (Nat.le_of_lt hno) h).2.2
  exact ⟨v, hv, hat⟩

/-- C22, at the example of the header: a `Grid2` of dimensions `{3, 2}`. -/
theorem at_returns_list_element_witness :
    ([3, 2] : List Nat) ≠ [] ∧
      (ctorList "" [3, 2] ["0,0", "1,0", "2,0", "0,1", "1,1", "2,1"]).isInRange [2, 1] = true ∧
      (ctorList "" [3, 2] ["0,0", "1,0", "2,0", "0,1", "1,1", "2,1"]).isInRange [3, 0] = false ∧
      DimensionsUtils.linearFormula [3, 2] [2, 1] = 5 ∧
      (ctorList "" [3, 2] ["0,0", "1,0", "2,0", "0,1", "1,1", "2,1"]).atCoordinates
        DefaultGridRequireTraits [0, 0] = GridAccess.value "0,0" ∧
      (ctorList "" [3, 2] ["0,0", "1,0", "2,0", "0,1", "1,1", "2,1"]).atCoordinates
        DefaultGridRequireTraits [2, 1] = GridAccess.value "2,1" ∧
      ((∀ d ∈ ([3, 2] : List Nat), d ≠ 0) ∧
        ∃ v, ["0,0", "1,0", "2,0", "0,1", "1,1", "2,1"].get?
            (DimensionsUtils.linearFormula [3, 2] [2, 1]) = some v ∧
          (ctorList "" [3, 2] ["0,0", "1,0", "2,0", "0,1", "1,1", "2,1"]).atCoordinates
            DefaultGridRequireTraits [2, 1] = GridAccess.value v) :=
  ⟨by decide, by decide, by decide, by decide, by decide, by decide,
    at_returns_list_element DefaultGridRequireTraits "" [3, 2] [2, 1]
      ["0,0", "1,0", "2,0", "0,1", "1,1", "2,1"] (by decide) (by decide) (by decide)
      (by decide)⟩

/-- C23. For a grid of at least one dimension whose in-range linear indices all fit `size_t`
(the product of the dimensions is at most `2 ^ 64`) and in-range coordinates `c1`, `c2`:
`indexCoordinates` returns for both, whatever the hooks of the policy do; the two results
compare equal (`==`, by linear index) exactly when `c1 = c2`, and unequal (`!=`) exactly when
`c1 ≠ c2`; `calcLinearIndex` gives the same index exactly when `c1 = c2`; and `isValid` is
true of the result of `indexCoordinates`. As keys of a `std::map` or `std::set`, which
compare with `<`: the results are ordered by `<` as their linear indices
`i0 + i1 * n0 + ...` are, neither is `<` the other exactly when `c1 = c2`, so that two keys
are equivalent only if they are the same coordinates, and one of the three holds; `>`, `<=`
and `>=` agree with `<`; and `<` is a strict weak ordering of all `IndexedCoordinates`
(irreflexive, asymmetric, transitive, with transitive incomparability). -/
theorem indexCoordinates_eq_iff (traits : GridRequireTraits) (g : Grid V) (c1 c2 : List Nat)
    (hN : g.m_dimensions ≠ []) (hno : g.m_dimensions.prod ≤ sizeModulus)
    (hl1 : c1.length = g.m_dimensions.length) (hl2 : c2.length = g.m_dimensions.length)
    (h1 : g.isInRange c1 = true) (h2 : g.isInRange c2 = true) :
    ∃ ic1 ic2, g.indexCoordinates traits c1 = GridAccess.value ic1 ∧
      g.indexCoordinates traits c2 = GridAccess.value ic2 ∧
      ic1.m_coordinates = c1 ∧ ic2.m_coordinates = c2 ∧
      (ic1.eq ic2 = true ↔ c1 = c2) ∧
      (ic1.ne ic2 = true ↔ c1 ≠ c2) ∧
      (DimensionsUtils.calcLinearIndex g.m_dimensions c1 =
        DimensionsUtils.calcLinearIndex g.m_dimensions c2 ↔ c1 = c2) ∧
      g.isValid traits ic1 = GridAccess.value true ∧
      g.isValid traits ic2 = GridAccess.value true ∧
      (ic1.lt ic2 = true ↔ DimensionsUtils.linearFormula g.m_dimensions c1 <
        DimensionsUtils.linearFormula g.m_dimensions c2) ∧
      (ic1.lt ic2 = false ∧ ic2.lt ic1 = false ↔ c1 = c2) ∧
      (ic1.lt ic2 = true ∨ c1 = c2 ∨ ic2.lt ic1 = true) ∧
      ic1.gt ic2 = ic2.lt ic1 ∧ ic1.le ic2 = !ic2.lt ic1 ∧ ic1.ge ic2 = !ic1.lt ic2 ∧
      (∀ a : IndexedCoordinates, a.lt a = false) ∧
      (∀ a b : IndexedCoordinates, a.lt b = true → b.lt a = false) ∧
      (∀ a b c : IndexedCoordinates, a.lt b = true → b.lt c = true → a.lt c = true) ∧
      (∀ a b c : IndexedCoordinates, a.lt b = false ∧ b.lt a = false →
        b.lt c = false ∧ c.lt b = false → a.lt c = false ∧ c.lt a = false) := by
  have e1 := DimensionsUtils.calcLinearIndex_eq_linearFormula g.m_dimensions c1 hN hno h1
  have e2 := DimensionsUtils.calcLinearIndex_eq_linearFormula g.m_dimensions c2 hN hno h2
  have hinj : DimensionsUtils.calcLinearIndex g.m_dimensions c1 =
      DimensionsUtils.calcLinearIndex g.m_dimensions c2 ↔ c1 = c2 := by
    constructor
    · intro h
      rw [e1, e2] at h
      exact DimensionsUtils.linearFormula_inj g.m_dimensions c1 c2 hl1 hl2 h1 h2 h
    · intro h
      rw [h]
  refine ⟨⟨DimensionsUtils.calcLinearIndex g.m_dimensions c1, c1⟩,
    ⟨DimensionsUtils.calcLinearIndex g.m_dimensions c2, c2⟩, ?_, ?_, rfl, rfl, ?_, ?_, hinj,
    ?_, ?_, ?_, ?_, ?_, ?_, ?_, ?_, ?_, ?_, ?_, ?_⟩
  · simp [indexCoordinates, linearIndexUnchecked, requireAccess, requireAccessElseThrow,
      GridAccess.bind, h1]
  · simp [indexCoordinates, linearIndexUnchecked, requireAccess, requireAccessElseThrow,
      GridAccess.bind, h2]
  · simpa [IndexedCoordinates.eq] using hinj
  · simpa [IndexedCoordinates.ne] using not_congr hinj
  · simp [isValid, linearIndexUnchecked, requireAccess, GridAccess.bind, h1]
  · simp [isValid, linearIndexUnchecked, requireAccess, GridAccess.bind, h2]
  · simp [IndexedCoordinates.lt, e1, e2]
  · rw [← hinj]
    simp only [IndexedCoordinates.lt, decide_eq_false_iff_not]
    omega
  · rw [← hinj]
    simp only [IndexedCoordinates.lt, decide_eq_true_eq]
    omega
  · simp [IndexedCoordinates.gt, IndexedCoordinates.lt]
  · exact IndexedCoordinates.le_eq_not_lt _ _
  · exact IndexedCoordinates.le_eq_not_lt _ _
  · intro a
    simp [IndexedCoordinates.lt]
  · intro a b
    simp only [IndexedCoordinates.lt, decide_eq_true_eq, decide_eq_false_iff_not]
    omega
  · intro a b c
    simp only [IndexedCoordinates.lt, decide_eq_true_eq]
    omega
  · intro a b c
    simp only [IndexedCoordinates.lt, decide_eq_false_iff_not]
    omega

/-- C23, on a 3 by 2 grid: the coordinates `{2, 0}` and `{0, 1}` have the linear indices 2
and 3. -/
theorem indexCoordinates_eq_iff_witness :
    (ctorValue [3, 2] (7 : Nat)).m_dimensions ≠ [] ∧
      (ctorValue [3, 2] (7 : Nat)).isInRange [2, 0] = true ∧
      (ctorValue [3, 2] (7 : Nat)).isInRange [0, 1] = true ∧
      (ctorValue [3, 2] (7 : Nat)).indexCoordinates DefaultGridRequireTraits [2, 0] =
        GridAccess.value ⟨2, [2, 0]⟩ ∧
      (ctorValue [3, 2] (7 : Nat)).indexCoordinates DefaultGridRequireTraits [0, 1] =
        GridAccess.value ⟨3, [0, 1]⟩ ∧
      IndexedCoordinates.lt ⟨2, [2, 0]⟩ ⟨3, [0, 1]⟩ = true ∧
      IndexedCoordinates.lt ⟨3, [0, 1]⟩ ⟨2, [2, 0]⟩ = false ∧
      ∃ ic1 ic2,
        (ctorValue [3, 2] (7 : Nat)).indexCoordinates DefaultGridRequireTraits [2, 0] =
          GridAccess.value ic1 ∧
        (ctorValue [3, 2] (7 : Nat)).indexCoordinates DefaultGridRequireTraits [0, 1] =
          GridAccess.value ic2 ∧
        ic1.m_coordinates = [2, 0] ∧ ic2.m_coordinates = [0, 1] ∧
        (ic1.eq ic2 = true ↔ [2, 0] = [0, 1]) ∧
        (ic1.ne ic2 = true ↔ [2, 0] ≠ [0, 1]) ∧
        (DimensionsUtils.calcLinearIndex (ctorValue [3, 2] (7 : Nat)).m_dimensions [2, 0] =
          DimensionsUtils.calcLinearIndex (ctorValue [3, 2] (7 : Nat)).m_dimensions [0, 1] ↔
            [2, 0] = [0, 1]) ∧
        (ctorValue [3, 2] (7 : Nat)).isValid DefaultGridRequireTraits ic1 =
          GridAccess.value true ∧
        (ctorValue [3, 2] (7 : Nat)).isValid DefaultGridRequireTraits ic2 =
          GridAccess.value true ∧
        (ic1.lt ic2 = true ↔
          DimensionsUtils.linearFormula (ctorValue [3, 2] (7 : Nat)).m_dimensions [2, 0] <
            DimensionsUtils.linearFormula (ctorValue [3, 2] (7 : Nat)).m_dimensions [0, 1]) ∧
        (ic1.lt ic2 = false ∧ ic2.lt ic1 = false ↔ [2, 0] = [0, 1]) ∧
        (ic1.lt ic2 = true ∨ [2, 0] = [0, 1] ∨ ic2.lt ic1 = true) ∧
        ic1.gt ic2 = ic2.lt ic1 ∧ ic1.le ic2 = !ic2.lt ic1 ∧ ic1.ge ic2 = !ic1.lt ic2 ∧
        (∀ a : IndexedCoordinates, a.lt a = false) ∧
        (∀ a b : IndexedCoordinates, a.lt b = true → b.lt a = false) ∧
        (∀ a b c : IndexedCoordinates, a.lt b = true → b.lt c = true → a.lt c = true) ∧
        (∀ a b c : IndexedCoordinates, a.lt b = false ∧ b.lt a = false →
          b.lt c = false ∧ c.lt b = false → a.lt c = false ∧ c.lt a = false) :=
  ⟨by decide, by decide, by decide, by decide, by decide, by decide, by decide,
    indexCoordinates_eq_iff DefaultGridRequireTraits (ctorValue [3, 2] (7 : Nat)) [2, 0] [0, 1]
      (by decide) (by decide) (by decide) (by decide) (by decide) (by decide)⟩

/-- C28. A grid built by any of the four dimension-taking constructors from dimensions whose
product fits `size_t` has as many elements as the product of its `dimensions()`. When a
requested dimension is 0 the dimensions are all 0 and the grid is empty, otherwise they are
the requested ones. With at least one dimension, and whatever the hooks of the policy do, for
in-range coordinates `linearIndex` returns an index below `size()`, and `operator[]` and `at`
return the element of the underlying array at that index, which exists. With the default
policy `at(coordinates)` raises `OutOfRangeGridIndexerException` exactly when
`isInRange(coordinates)` is false. -/
theorem built_grid_access_in_bounds (dflt value : V) (dimensions : List Nat)
    (list range : List V) (g : Grid V)
    (hg : g = ctorDimensions dflt dimensions ∨ g = ctorValue dimensions value ∨
      g = ctorList dflt dimensions list ∨ g = ctorRange dflt dimensions range)
    (hno : dimensions.prod < sizeModulus) :
    g.size = g.dimensions.prod ∧
      ((∃ d ∈ dimensions, d = 0) →
        g.dimensions = List.replicate dimensions.length 0 ∧ g.size = 0) ∧
      ((∀ d ∈ dimensions, d ≠ 0) → g.dimensions = dimensions) ∧
      (∀ (traits : GridRequireTraits) (coordinates : List Nat), dimensions ≠ [] →
        g.isInRange coordinates = true →
        ∃ li, g.linearIndex traits coordinates = GridAccess.value li ∧ li < g.size ∧
          ∃ v, g.m_linearArray.get? li = some v ∧
            g.subscript traits coordinates = GridAccess.value v ∧
            g.atCoordinates traits coordinates = GridAccess.value v) ∧
      (∀ coordinates : List Nat, dimensions ≠ [] →
        (g.atCoordinates DefaultGridRequireTraits coordinates = GridAccess.outOfRange ↔
          g.isInRange coordinates = false)) := by
  obtain ⟨arr, hlen, rfl⟩ := built_shape dflt value dimensions list range g hg
  obtain ⟨hsize, hno', hlen'⟩ := built_size arr dimensions hlen hno
  have hacc : ∀ (traits : GridRequireTraits) (coordinates : List Nat), dimensions ≠ [] →
      (fillIfEmpty ⟨arr, dimensions⟩).isInRange coordinates = true →
      ∃ li, (fillIfEmpty ⟨arr, dimensions⟩).linearIndex traits coordinates =
          GridAccess.value li ∧ li < (fillIfEmpty ⟨arr, dimensions⟩).size ∧
        ∃ v, (fillIfEmpty ⟨arr, dimensions⟩).m_linearArray.get? li = some v ∧
          (fillIfEmpty ⟨arr, dimensions⟩).subscript traits coordinates = GridAccess.value v ∧
          (fillIfEmpty ⟨arr, dimensions⟩).atCoordinates traits coordinates =
            GridAccess.value v := by
    intro traits coordinates hN h
    have hN' : (fillIfEmpty ⟨arr, dimensions⟩).m_dimensions ≠ [] := by
      intro hnil
      rw [hnil] at hlen'
      exact hN (List.length_eq_zero.mp hlen'.symm)
    obtain ⟨hlt, hli, v, hv, hs, ha⟩ :=
      access_in_range traits _ coordinates hN' hsize (Nat.le_of_lt hno') h
    exact ⟨_, hli, hlt, v, hv, hs, ha⟩
  refine ⟨hsize, ?_, ?_, hacc, ?_⟩
  · rintro ⟨d, hd, rfl⟩
    rw [fillIfEmpty_of_zero_mem arr dimensions hlen hno hd]
    exact ⟨rfl, rfl⟩
  · intro hnz
    rw [fillIfEmpty_of_zero_not_mem arr dimensions hlen hno (fun h0 => hnz 0 h0 rfl)]
    rfl
  · intro coordinates hN
    constructor
    · intro hat
      by_contra hin
      obtain ⟨_, -, -, v, -, -, ha⟩ :=
        hacc DefaultGridRequireTraits coordinates hN (by simpa using hin)
      rw [ha] at hat
      exact GridAccess.noConfusion hat
    · intro hin
      simp [atCoordinates, requireAccessElseThrow, hin, DefaultGridRequireTraits]

/-- C28, on the 3 by 2 grid of sevens and on a grid one of whose requested dimensions
is 0. -/
theorem built_grid_access_in_bounds_witness :
    List.prod [3, 2] < sizeModulus ∧ List.prod [3, 0] < sizeModulus ∧
      (ctorValue [3, 2] (7 : Nat)).size = 6 ∧
      (ctorValue [3, 2] (7 : Nat)).dimensions = [3, 2] ∧
      (ctorValue [3, 2] (7 : Nat)).linearIndex DefaultGridRequireTraits [2, 1] =
        GridAccess.value 5 ∧
      (ctorValue [3, 2] (7 : Nat)).atCoordinates DefaultGridRequireTraits [2, 1] =
        GridAccess.value 7 ∧
      (ctorValue [3, 2] (7 : Nat)).atCoordinates DefaultGridRequireTraits [3, 0] =
        GridAccess.outOfRange ∧
      (ctorValue [3, 2] (7 : Nat)).size = (ctorValue [3, 2] (7 : Nat)).dimensions.prod ∧
      ((ctorValue [3, 2] (7 : Nat)).atCoordinates DefaultGridRequireTraits [3, 0] =
          GridAccess.outOfRange ↔
        (ctorValue [3, 2] (7 : Nat)).isInRange [3, 0] = false) ∧
      ((ctorDimensions (0 : Nat) [3, 0]).dimensions = List.replicate 2 0 ∧
        (ctorDimensions (0 : Nat) [3, 0]).size = 0) :=
  ⟨by decide, by decide, by decide, by decide, by decide, by decide, by decide,
    (built_grid_access_in_bounds 0 7 [3, 2] [] [] (ctorValue [3, 2] (7 : Nat))
      (Or.inr (Or.inl rfl)) (by decide)).1,
    (built_grid_access_in_bounds 0 7 [3, 2] [] [] (ctorValue [3, 2] (7 : Nat))
      (Or.inr (Or.inl rfl)) (by decide)).2.2.2.2 [3, 0] (by decide),
    (built_grid_access_in_bounds 0 0 [3, 0] [] [] (ctorDimensions (0 : Nat) [3, 0])
      (Or.inl rfl) (by decide)).2.1 ⟨0, by decide, rfl⟩⟩

end Grid

namespace Delay

variable {D : Type} [LinearOrder D] [Zero D] [Sub D]

/-- C24. For a `Delay` over a linearly ordered duration type and every `deltaTime`: after
`updateClamped(deltaTime)` the remaining time is `max (old remaining - deltaTime) 0`, which is
not below zero; `updateClampedFinished(deltaTime)` leaves the same object and returns true
exactly when `old remaining - deltaTime <= 0`; `updateUnclamped(deltaTime)` leaves
`old remaining - deltaTime`, and `updateUnclampedFinished` returns true on the same
condition. -/
theorem updateClamped_remaining_eq_max (t : Delay D) (deltaTime : D) :
    (t.updateClamped deltaTime).getRemaining = max (t.getRemaining - deltaTime) 0 ∧
      0 ≤ (t.updateClamped deltaTime).getRemaining ∧
      (t.updateClampedFinished deltaTime).1 = t.updateClamped deltaTime ∧
      ((t.updateClampedFinished deltaTime).2 = true ↔ t.getRemaining - deltaTime ≤ 0) ∧
      (t.updateUnclamped deltaTime).getRemaining = t.getRemaining - deltaTime ∧
      (t.updateUnclampedFinished deltaTime).1 = t.updateUnclamped deltaTime ∧
      ((t.updateUnclampedFinished deltaTime).2 = true ↔ t.getRemaining - deltaTime ≤ 0) := by
  by_cases h : t.m_remaining - deltaTime < 0
  · have hle : t.m_remaining - deltaTime ≤ 0 := le_of_lt h
    simp [updateClamped, updateClampedFinished, updateUnclamped, updateUnclampedFinished,
      getRemaining, isFinished, h, hle, max_eq_right]
  · have hle : 0 ≤ t.m_remaining - deltaTime := not_lt.mp h
    simp [updateClamped, updateClampedFinished, updateUnclamped, updateUnclampedFinished,
      getRemaining, isFinished, h, hle, max_eq_left]

end Delay

end cress.moo

namespace be

namespace mem

namespace Fraii

/-- C29. With `GLuint` handles, null being 0, and every non-null handle `h + 1`: in
`{ Fraii f(h + 1, d); f = std::move(f); }` the deleter is called with `h + 1` by the
assignment and again by the destructor, and after the assignment `f` still holds `h + 1` and
does not compare equal to `nullFraii`. On two distinct objects the same operations keep unique
ownership: move assignment passes the old handle of the target to the deleter once and leaves
the source null, move construction and `release()` make no deleter call and leave the source
null, a released handle is not passed to the deleter by the destructor, and after
`f = nullFraii` the destructor passes only null. -/
theorem self_move_assignment_deletes_twice {D : Type} (s : Store Nat D) (d : D) (h k : Nat) :
    (dtor 0 (assignMove 0 0 0 (ctorResource 0 (h + 1) d s))).calls =
        s.calls ++ [⟨d, h + 1⟩, ⟨d, h + 1⟩] ∧
      get 0 (assignMove 0 0 0 (ctorResource 0 (h + 1) d s)) = h + 1 ∧
      eqNull 0 0 (assignMove 0 0 0 (ctorResource 0 (h + 1) d s)) = false ∧
      (assignMove 0 0 1 (ctorResource 1 (k + 1) d (ctorResource 0 (h + 1) d s))).calls =
        s.calls ++ [⟨d, h + 1⟩] ∧
      get 0 (assignMove 0 0 1 (ctorResource 1 (k + 1) d (ctorResource 0 (h + 1) d s))) =
        k + 1 ∧
      eqNull 0 1 (assignMove 0 0 1 (ctorResource 1 (k + 1) d (ctorResource 0 (h + 1) d s))) =
        true ∧
      (dtor 0 (dtor 1
        (assignMove 0 0 1 (ctorResource 1 (k + 1) d (ctorResource 0 (h + 1) d s))))).calls =
        s.calls ++ [⟨d, h + 1⟩, ⟨d, 0⟩, ⟨d, k + 1⟩] ∧
      (dtor 1 (dtor 0 (ctorMove 0 1 0 (ctorResource 0 (h + 1) d s)))).calls =
        s.calls ++ [⟨d, 0⟩, ⟨d, h + 1⟩] ∧
      eqNull 0 0 (ctorMove 0 1 0 (ctorResource 0 (h + 1) d s)) = true ∧
      (release 0 0 (ctorResource 0 (h + 1) d s)).2 = h + 1 ∧
      eqNull 0 0 (release 0 0 (ctorResource 0 (h + 1) d s)).1 = true ∧
      (dtor 0 (release 0 0 (ctorResource 0 (h + 1) d s)).1).calls = s.calls ++ [⟨d, 0⟩] ∧
      (dtor 0 (assignNull 0 0 (ctorResource 0 (h + 1) d s))).calls =
        s.calls ++ [⟨d, h + 1⟩, ⟨d, 0⟩] := by
  simp [dtor, assignMove, ctorMove, assignNull, release, ctorResource, get, eqNull,
    Store.setResource, Store.setDeleter, Store.callDeleter]

end Fraii

end mem

namespace input

variable {Key : Type} [DecidableEq Key]

/-- C30. For every input map and key `k`, the prior state of `k` being the one
`getElseConsiderUp` gives (an absent key counts as `CurrentlyUp`): `informGoingDown` returns
`GoingDownAgain` if the prior state was down-at-all and `GoingDown` otherwise, the map then
binds `k` to the returned state and every other key as before, `isDownAtAll` holds of the
returned state and `isGoingDown` holds of it exactly when the prior state was not
down-at-all. `informGoingUp` returns `GoingUp` if the prior state was down-at-all and
`GoingUpAgain` otherwise, stores it the same way, `isDownAtAll` does not hold of the returned
state and `isGoingUp` holds of it exactly when the prior state was down-at-all. `afterUpdate`
maps a state `s` to `CurrentlyDown` if `isDownAtAll s` and to `CurrentlyUp` otherwise, on a
single state and on every state of a map, and doing it twice is the same as doing it once. -/
theorem inform_and_afterUpdate (states : InputMap Key) (k : Key) :
    (informGoingDown states k).2 =
        (if isDownAtAll (getElseConsiderUp states k) then InputState.GoingDownAgain
          else InputState.GoingDown) ∧
      (∀ j, (informGoingDown states k).1 j =
        if j = k then some (informGoingDown states k).2 else states j) ∧
      isDownAtAll (informGoingDown states k).2 = true ∧
      (isGoingDown (informGoingDown states k).2 = true ↔
        isDownAtAll (getElseConsiderUp states k) = false) ∧
      (informGoingUp states k).2 =
        (if isDownAtAll (getElseConsiderUp states k) then InputState.GoingUp
          else InputState.GoingUpAgain) ∧
      (∀ j, (informGoingUp states k).1 j =
        if j = k then some (informGoingUp states k).2 else states j) ∧
      isDownAtAll (informGoingUp states k).2 = false ∧
      (isGoingUp (informGoingUp states k).2 = true ↔
        isDownAtAll (getElseConsiderUp states k) = true) ∧
      (∀ s, afterUpdate s =
        if isDownAtAll s then InputState.CurrentlyDown else InputState.CurrentlyUp) ∧
      (∀ s, afterUpdate (afterUpdate s) = afterUpdate s) ∧
      (∀ j, afterUpdateMap states j = (states j).map fun s =>
        if isDownAtAll s then InputState.CurrentlyDown else InputState.CurrentlyUp) ∧
      afterUpdateMap (afterUpdateMap states) = afterUpdateMap states := by
  have hau : ∀ s, afterUpdate s =
      if isDownAtAll s then InputState.CurrentlyDown else InputState.CurrentlyUp := by
    intro s
    cases s <;> rfl
  have hidem : ∀ s, afterUpdate (afterUpdate s) = afterUpdate s := by
    intro s
    cases s <;> rfl
  refine ⟨?_, ?_, ?_, ?_, ?_, ?_, ?_, ?_, hau, hidem, ?_, ?_⟩
  · cases hs : states k with
    | none => simp [informGoingDown, InputMap.subscript, getElseConsiderUp, hs, isDownAtAll]
    | some st =>
      cases st <;> simp [informGoingDown, InputMap.subscript, getElseConsiderUp, hs, isDownAtAll]
  · intro j
    cases hs : states k with
    | none =>
      by_cases hj : j = k <;>
        simp [informGoingDown, InputMap.subscript, InputMap.set, hs, hj]
    | some st =>
      by_cases hj : j = k <;>
        simp [informGoingDown, InputMap.subscript, InputMap.set, hs, hj]
  · cases hs : states k with
    | none => simp [informGoingDown, InputMap.subscript, hs, isDownAtAll]
    | some st => cases st <;> simp [informGoingDown, InputMap.subscript, hs, isDownAtAll]
  · cases hs : states k with
    | none =>
      simp [informGoingDown, InputMap.subscript, getElseConsiderUp, hs, isDownAtAll, isGoingDown]
    | some st =>
      cases st <;>
        simp [informGoingDown, InputMap.subscript, getElseConsiderUp, hs, isDownAtAll,
          isGoingDown]
  · cases hs : states k with
    | none => simp [informGoingUp, InputMap.subscript, getElseConsiderUp, hs, isDownAtAll]
    | some st =>
      cases st <;> simp [informGoingUp, InputMap.subscript, getElseConsiderUp, hs, isDownAtAll]
  · intro j
    cases hs : states k with
    | none =>
      by_cases hj : j = k <;>
        simp [informGoingUp, InputMap.subscript, InputMap.set, hs, hj]
    | some st =>
      by_cases hj : j = k <;>
        simp [informGoingUp, InputMap.subscript, InputMap.set, hs, hj]
  · cases hs : states k with
    | none => simp [informGoingUp, InputMap.subscript, hs, isDownAtAll]
    | some st => cases st <;> simp [informGoingUp, InputMap.subscript, hs, isDownAtAll]
  · cases hs : states k with
    | none =>
      simp [informGoingUp, InputMap.subscript, getElseConsiderUp, hs, isDownAtAll, isGoingUp]
    | some st =>
      cases st <;>
        simp [informGoingUp, InputMap.subscript, getElseConsiderUp, hs, isDownAtAll, isGoingUp]
  · intro j
    simp only [afterUpdateMap]
    congr 1
    funext s
    exact hau s
  · funext j
    simp only [afterUpdateMap, Option.map_map]
    congr 1
    funext s
    exact hidem s

end input

end be
